import Mathlib

/-!
# Weston compositor core: spring integrator, evdev fallback dispatch,
# text-input bridge and exposay layout

A shallow embedding of `src/animation.c`, `src/evdev.c`, `src/text-backend.c`
and `desktop-shell/exposay.c`, followed by the properties proved about it.

Conventions.
* `uint32_t` values are `Nat`, every operation reduced modulo `2^32`.
* `int32_t` / `int` / `wl_fixed_t` values are `Int`, every operation wrapped
  into the two's-complement range by `wrap32`.
* `double` values of the spring are an arbitrary scalar type `α` carrying the
  operations the C code uses; results that need the laws of arithmetic are
  stated at `α = ℚ` (exact arithmetic).
* A function that can dereference NULL, index outside a table or divide by
  zero returns `Option`, with `none` for that outcome.
-/

namespace Weston

/-! ## Machine integers -/

/-- Two's-complement wrap of an integer into the `int32_t` range. -/
def wrap32 (x : Int) : Int := (x + 2147483648) % 4294967296 - 2147483648

/-- The values an `int32_t` can hold. -/
def int32_range (x : Int) : Prop := -2147483648 ≤ x ∧ x < 2147483648

instance (x : Int) : Decidable (int32_range x) :=
  inferInstanceAs (Decidable (-2147483648 ≤ x ∧ x < 2147483648))

/-- `uint32_t` subtraction `a - b`. -/
def u32_sub (a b : Nat) : Nat := (a % 4294967296 + 4294967296 - b % 4294967296) % 4294967296

/-- `uint32_t` addition `a + b`. -/
def u32_add (a b : Nat) : Nat := (a + b) % 4294967296

/-- `int` addition. -/
def c_add (a b : Int) : Int := wrap32 (a + b)

/-- `int` subtraction. -/
def c_sub (a b : Int) : Int := wrap32 (a - b)

/-- `int` multiplication. -/
def c_mul (a b : Int) : Int := wrap32 (a * b)

/-- `int` division, truncating toward zero; `none` on division by zero. -/
def c_div (a b : Int) : Option Int := if b = 0 then none else some (wrap32 (Int.tdiv a b))

/-- `int` remainder, sign of the dividend; `none` on division by zero. -/
def c_mod (a b : Int) : Option Int := if b = 0 then none else some (wrap32 (Int.tmod a b))

/-! ## animation.c: the spring integrator -/

/-- The clip policies of a spring (`enum weston_spring_clip`). -/
inductive weston_spring_clip where
  | WESTON_SPRING_OVERSHOOT
  | WESTON_SPRING_CLAMP
  | WESTON_SPRING_BOUNCE
  deriving DecidableEq, Repr

/-- The state of a spring (`struct weston_spring`); `α` stands for `double`. -/
structure weston_spring (α : Type) where
  k : α
  friction : α
  current : α
  previous : α
  target : α
  clip : weston_spring_clip
  min : α
  max : α
  timestamp : Nat

section Spring

variable {α : Type} [Add α] [Sub α] [Mul α] [Div α] [LT α]
  [DecidableRel (fun a b : α => a < b)] [OfScientific α]

/-- `weston_spring_init`: sets every field but the timestamp, which the
    caller's value `ts` stands for. -/
def weston_spring_init (ts : Nat) (k current target : α) : weston_spring α :=
  { k := k, friction := 400.0, current := current, previous := current,
    target := target, clip := weston_spring_clip.WESTON_SPRING_OVERSHOOT,
    min := 0.0, max := 1.0, timestamp := ts }

/-- The clip `switch` at the end of one integration tick. -/
def spring_clip_step (s : weston_spring α) : weston_spring α :=
  match s.clip with
  | weston_spring_clip.WESTON_SPRING_OVERSHOOT => s
  | weston_spring_clip.WESTON_SPRING_CLAMP =>
    if s.max < s.current then
      { s with current := s.max, previous := s.max }
    else if s.current < 0.0 then
      { s with current := s.min, previous := s.min }
    else s
  | weston_spring_clip.WESTON_SPRING_BOUNCE =>
    if s.max < s.current then
      { s with current := 2.0 * s.max - s.current, previous := 2.0 * s.max - s.previous }
    else if s.current < s.min then
      { s with current := 2.0 * s.min - s.current, previous := 2.0 * s.min - s.previous }
    else s

/-- The body of the `while` loop of `weston_spring_update`: one 4 ms tick. -/
def spring_tick (s : weston_spring α) : weston_spring α :=
  let step : α := 0.01
  let current := s.current
  let v := current - s.previous
  let force := s.k * (s.target - current) / 10.0 + (s.previous - current) - v * s.friction
  let s1 : weston_spring α :=
    { s with current := current + (current - s.previous) + force * step * step,
             previous := current }
  let s2 := spring_clip_step s1
  { s2 with timestamp := u32_add s2.timestamp 4 }

/-- The `while (4 < msec - spring->timestamp)` loop; the second component
    counts the ticks executed. -/
def spring_loop (s : weston_spring α) (msec : Nat) : weston_spring α × Nat :=
  if 4 < u32_sub msec s.timestamp then
    let r := spring_loop (spring_tick s) msec
    (r.1, r.2 + 1)
  else (s, 0)
termination_by u32_sub msec s.timestamp
decreasing_by
  have hts : (spring_tick s).timestamp = u32_add s.timestamp 4 := by
    unfold spring_tick spring_clip_step
    cases hc : s.clip <;> simp only [hc] <;> (repeat' split) <;> rfl
  rw [hts]
  unfold u32_sub u32_add at *
  omega

/-- The guard in front of the loop: a timestamp more than one second away
    from `msec` is moved to `msec - 1000`. -/
def spring_guard (s : weston_spring α) (msec : Nat) : weston_spring α :=
  if 1000 < u32_sub msec s.timestamp then
    { s with timestamp := u32_sub msec 1000 }
  else s

/-- `weston_spring_update`. -/
def weston_spring_update (s : weston_spring α) (msec : Nat) : weston_spring α :=
  (spring_loop (spring_guard s msec) msec).1

/-- Number of integration ticks one call of `weston_spring_update` executes. -/
def weston_spring_update_ticks (s : weston_spring α) (msec : Nat) : Nat :=
  (spring_loop (spring_guard s msec) msec).2

end Spring

/-- `fabs` on exact scalars. -/
def fabs (x : ℚ) : ℚ := if x < 0 then -x else x

/-- `weston_spring_done`. -/
def weston_spring_done (s : weston_spring ℚ) : Bool :=
  decide (fabs (s.previous - s.target) < 0.002) && decide (fabs (s.current - s.target) < 0.002)

/-- A spring with the default parameters of `weston_spring_init`, last
    updated at 5000 ms. -/
def spring_at_5000 : weston_spring ℚ := weston_spring_init 5000 200 0 1

/-- A spring in Clamp mode with bounds [1/2, 1], inside its bounds and
    moving down. -/
def spring_clamp_half : weston_spring ℚ :=
  { k := 200, friction := 400, current := 1 / 2, previous := 3 / 4, target := 1 / 2,
    clip := weston_spring_clip.WESTON_SPRING_CLAMP, min := 1 / 2, max := 1, timestamp := 0 }

/-- A spring for which `weston_spring_done` holds while it still moves:
    default parameters, target 0, `previous = -0.0019`, `current = 0.0019`. -/
def spring_done_moving : weston_spring ℚ :=
  { k := 200, friction := 400, current := 19 / 10000, previous := -19 / 10000, target := 0,
    clip := weston_spring_clip.WESTON_SPRING_OVERSHOOT, min := 0, max := 1, timestamp := 0 }

/-- The bounds the clip policy of a spring tests `current` against. -/
def spring_inside_clip (s : weston_spring ℚ) : Prop :=
  match s.clip with
  | weston_spring_clip.WESTON_SPRING_OVERSHOOT => True
  | weston_spring_clip.WESTON_SPRING_CLAMP => 0 ≤ s.current ∧ s.current ≤ s.max
  | weston_spring_clip.WESTON_SPRING_BOUNCE => s.min ≤ s.current ∧ s.current ≤ s.max

/-- A spring at rest at its target 1, with the default parameters. -/
def spring_resting : weston_spring ℚ := weston_spring_init 0 200 1 1

/-- The spring of the animation `weston_zoom_run` returns, the animation
    being allocated; `ts` is the timestamp `weston_view_animation_run` left. -/
def weston_zoom_run (ts : Nat) (start stop : ℚ) : weston_spring ℚ :=
  { weston_spring_init ts 300.0 start stop with
    friction := 1400, previous := start - (stop - start) * 0.03 }

/-- The spring of the animation `weston_fade_run` returns, the animation
    being allocated; `ts` is the timestamp `weston_view_animation_run` left. -/
def weston_fade_run (ts : Nat) (start end_ k : ℚ) : weston_spring ℚ :=
  { weston_spring_init ts k start end_ with
    friction := 1400, previous := -(end_ - start) * 0.03 }

/-- The alpha `fade_frame` and `stable_fade_frame` give the animated view:
    the spring value, saturated at the two ends. -/
def fade_alpha (s : weston_spring ℚ) : ℚ :=
  if 0.999 < s.current then 1
  else if s.current < 0.001 then 0
  else s.current

/-- `stable_fade_frame`: the alpha of the front view and the alpha of the
    back view, `(target - front) / (1.0 - front)`; the quotient is `none`
    when its divisor is zero. -/
def stable_fade_frame (s : weston_spring ℚ) : ℚ × Option ℚ :=
  let front := fade_alpha s
  (front, if 1.0 - front = 0 then none else some ((s.target - front) / (1.0 - front)))

/-- A stable fade half way to its target 1. -/
def spring_half_faded : weston_spring ℚ := weston_spring_init 0 400 (1 / 2) 1

/-! ## evdev.c: the fallback dispatch -/

/-- Event types of `linux/input.h`. -/
def EV_SYN : Nat := 0
def EV_KEY : Nat := 1
def EV_REL : Nat := 2
def EV_ABS : Nat := 3

/-- Relative axes of `linux/input.h`. -/
def REL_X : Nat := 0
def REL_Y : Nat := 1
def REL_HWHEEL : Nat := 6
def REL_WHEEL : Nat := 8

/-- Absolute axes of `linux/input.h`. -/
def ABS_X : Nat := 0
def ABS_Y : Nat := 1
def ABS_MT_SLOT : Nat := 47
def ABS_MT_POSITION_X : Nat := 53
def ABS_MT_POSITION_Y : Nat := 54
def ABS_MT_TRACKING_ID : Nat := 57

/-- Button codes of `linux/input.h`. -/
def BTN_LEFT : Nat := 272
def BTN_RIGHT : Nat := 273
def BTN_MIDDLE : Nat := 274
def BTN_SIDE : Nat := 275
def BTN_EXTRA : Nat := 276
def BTN_FORWARD : Nat := 277
def BTN_BACK : Nat := 278
def BTN_TASK : Nat := 279
def BTN_TOUCH : Nat := 330

/-- A kernel input event (`struct input_event`). -/
structure input_event where
  tv_sec : Int
  tv_usec : Int
  type : Nat
  code : Nat
  value : Int
  deriving DecidableEq, Repr

/-- The `uint32_t` time `evdev_process_events` computes for an event:
    `tv_sec * 1000 + tv_usec / 1000`. -/
def ev_time (e : input_event) : Nat :=
  ((e.tv_sec * 1000 + Int.tdiv e.tv_usec 1000) % 4294967296).toNat

/-- The pending coalesced event of a device (`enum evdev_event_type`). -/
inductive evdev_event_type where
  | EVDEV_NONE
  | EVDEV_ABSOLUTE_TOUCH_DOWN
  | EVDEV_ABSOLUTE_MOTION
  | EVDEV_ABSOLUTE_TOUCH_UP
  | EVDEV_ABSOLUTE_MT_DOWN
  | EVDEV_ABSOLUTE_MT_MOTION
  | EVDEV_ABSOLUTE_MT_UP
  | EVDEV_RELATIVE_MOTION
  deriving DecidableEq, Repr

/-- Touch notification kinds (`enum wl_touch_type` of the seat interface). -/
inductive touch_type where
  | WL_TOUCH_DOWN
  | WL_TOUCH_UP
  | WL_TOUCH_MOTION
  deriving DecidableEq, Repr

/-- Scroll axes of `wl_pointer`. -/
inductive pointer_axis where
  | WL_POINTER_AXIS_VERTICAL_SCROLL
  | WL_POINTER_AXIS_HORIZONTAL_SCROLL
  deriving DecidableEq, Repr

/-- The calls a device makes on its seat; coordinates are `wl_fixed_t`. -/
inductive seat_notification where
  | notify_motion (time : Nat) (dx dy : Int)
  | notify_motion_absolute (time : Nat) (x y : Int)
  | notify_touch (time : Nat) (slot : Int) (x y : Int) (type : touch_type)
  | notify_button (time : Nat) (button : Nat) (pressed : Bool)
  | notify_key (time : Nat) (key : Nat) (pressed : Bool)
  | notify_axis (time : Nat) (axis : pointer_axis) (value : Int)
  deriving DecidableEq, Repr

/-- Modelled from the spec: the capability set {pointer, keyboard, touch} of a
    device; the bit constants `EVDEV_SEAT_*` of `evdev.h` are not in the
    sources, so each bit of `seat_caps` is one flag. -/
structure evdev_seat_caps where
  pointer : Bool
  keyboard : Bool
  touch : Bool
  deriving DecidableEq, Repr

/-- The output of a device: the size of its current mode and the external
    `weston_output_transform_coordinate`, taken as a parameter. -/
structure weston_output where
  width : Int
  height : Int
  transform_coordinate : Int → Int → Int × Int

/-- Absolute-axis state (`device->abs`); the calibration matrix holds `float`
    values, taken as exact rationals. -/
structure evdev_abs where
  min_x : Int
  max_x : Int
  min_y : Int
  max_y : Int
  x : Int
  y : Int
  apply_calibration : Bool
  calibration : Fin 6 → ℚ

/-- One multi-touch slot (`device->mt.slots[i]`). -/
structure mt_slot where
  x : Int
  y : Int
  deriving DecidableEq, Repr

/-- Multi-touch state (`device->mt`); the length of `slots` is the size of
    the slot table. -/
structure evdev_mt where
  slot : Int
  slots : List mt_slot

/-- Relative-motion accumulator (`device->rel`). -/
structure evdev_rel where
  dx : Int
  dy : Int
  deriving DecidableEq, Repr

/-- The per-device state used by the fallback dispatch (`struct evdev_device`). -/
structure evdev_device where
  output : weston_output
  abs : evdev_abs
  mt : evdev_mt
  rel : evdev_rel
  pending_event : evdev_event_type
  seat_caps : evdev_seat_caps
  is_mt : Bool

/-- `wl_fixed_from_int`: 24.8 fixed point. -/
def wl_fixed_from_int (i : Int) : Int := wrap32 (i * 256)

/-- Conversion of a scalar to `int32_t`: truncation toward zero. -/
def float_to_int32 (q : ℚ) : Int := wrap32 (Int.tdiv q.num q.den)

/-- `transform_absolute`. -/
def transform_absolute (device : evdev_device) : Int × Int :=
  if !device.abs.apply_calibration then
    (device.abs.x, device.abs.y)
  else
    (float_to_int32 ((device.abs.x : ℚ) * device.abs.calibration 0 +
        (device.abs.y : ℚ) * device.abs.calibration 1 + device.abs.calibration 2),
     float_to_int32 ((device.abs.x : ℚ) * device.abs.calibration 3 +
        (device.abs.y : ℚ) * device.abs.calibration 4 + device.abs.calibration 5))

/-- Read of `device->mt.slots[slot]`; `none` outside the table. -/
def mt_slot_get (mt : evdev_mt) (slot : Int) : Option mt_slot :=
  if 0 ≤ slot then mt.slots.get? slot.toNat else none

/-- Write of `device->mt.slots[slot]`; `none` outside the table. -/
def mt_slot_set (mt : evdev_mt) (slot : Int) (f : mt_slot → mt_slot) : Option evdev_mt :=
  match mt_slot_get mt slot with
  | none => none
  | some v => some { mt with slots := mt.slots.set slot.toNat (f v) }

/-- `evdev_flush_pending_event`: the device afterwards and the notifications
    sent, in order. -/
def evdev_flush_pending_event (device : evdev_device) (time : Nat) :
    Option (evdev_device × List seat_notification) :=
  let slot := device.mt.slot
  let handled : evdev_device := { device with pending_event := evdev_event_type.EVDEV_NONE }
  match device.pending_event with
  | evdev_event_type.EVDEV_NONE => some (device, [])
  | evdev_event_type.EVDEV_RELATIVE_MOTION =>
    some ({ device with rel := { dx := 0, dy := 0 },
                        pending_event := evdev_event_type.EVDEV_NONE },
          [seat_notification.notify_motion time device.rel.dx device.rel.dy])
  | evdev_event_type.EVDEV_ABSOLUTE_MT_DOWN =>
    match mt_slot_get device.mt slot with
    | none => none
    | some p =>
      let xy := device.output.transform_coordinate (wl_fixed_from_int p.x) (wl_fixed_from_int p.y)
      some (handled, [seat_notification.notify_touch time slot xy.1 xy.2 touch_type.WL_TOUCH_DOWN])
  | evdev_event_type.EVDEV_ABSOLUTE_MT_MOTION =>
    match mt_slot_get device.mt slot with
    | none => none
    | some p =>
      let xy := device.output.transform_coordinate (wl_fixed_from_int p.x) (wl_fixed_from_int p.y)
      some (handled, [seat_notification.notify_touch time slot xy.1 xy.2 touch_type.WL_TOUCH_MOTION])
  | evdev_event_type.EVDEV_ABSOLUTE_MT_UP =>
    some (handled, [seat_notification.notify_touch time slot 0 0 touch_type.WL_TOUCH_UP])
  | evdev_event_type.EVDEV_ABSOLUTE_TOUCH_DOWN =>
    let c := transform_absolute device
    let xy := device.output.transform_coordinate (wl_fixed_from_int c.1) (wl_fixed_from_int c.2)
    some (handled, [seat_notification.notify_touch time 0 xy.1 xy.2 touch_type.WL_TOUCH_DOWN])
  | evdev_event_type.EVDEV_ABSOLUTE_MOTION =>
    let c := transform_absolute device
    let xy := device.output.transform_coordinate (wl_fixed_from_int c.1) (wl_fixed_from_int c.2)
    if device.seat_caps.touch then
      some (handled, [seat_notification.notify_touch time 0 xy.1 xy.2 touch_type.WL_TOUCH_MOTION])
    else if device.seat_caps.pointer then
      some (handled, [seat_notification.notify_motion_absolute time xy.1 xy.2])
    else some (handled, [])
  | evdev_event_type.EVDEV_ABSOLUTE_TOUCH_UP =>
    some (handled, [seat_notification.notify_touch time 0 0 0 touch_type.WL_TOUCH_UP])

/-- `evdev_process_touch_button`. -/
def evdev_process_touch_button (device : evdev_device) (time : Nat) (value : Int) :
    Option (evdev_device × List seat_notification) :=
  let r :=
    if device.pending_event ≠ evdev_event_type.EVDEV_NONE ∧
       device.pending_event ≠ evdev_event_type.EVDEV_ABSOLUTE_MOTION then
      evdev_flush_pending_event device time
    else some (device, [])
  match r with
  | none => none
  | some (d, out) =>
    some ({ d with pending_event :=
              if value ≠ 0 then evdev_event_type.EVDEV_ABSOLUTE_TOUCH_DOWN
              else evdev_event_type.EVDEV_ABSOLUTE_TOUCH_UP }, out)

/-- The codes `evdev_process_key` reports as pointer buttons. -/
def is_pointer_button (code : Nat) : Bool :=
  code == BTN_LEFT || code == BTN_RIGHT || code == BTN_MIDDLE || code == BTN_SIDE ||
  code == BTN_EXTRA || code == BTN_FORWARD || code == BTN_BACK || code == BTN_TASK

/-- `evdev_process_key`. -/
def evdev_process_key (device : evdev_device) (e : input_event) (time : Nat) :
    Option (evdev_device × List seat_notification) :=
  if e.value = 2 then some (device, [])
  else if e.code = BTN_TOUCH then
    if !device.is_mt then evdev_process_touch_button device time e.value
    else some (device, [])
  else
    match evdev_flush_pending_event device time with
    | none => none
    | some (d, out) =>
      if is_pointer_button e.code then
        some (d, out ++ [seat_notification.notify_button time e.code (decide (e.value ≠ 0))])
      else
        some (d, out ++ [seat_notification.notify_key time e.code (decide (e.value ≠ 0))])

/-- The expression `(value - min) * extent / (max - min)` that maps an axis
    value into output pixels. -/
def scale_axis (value min max extent : Int) : Option Int :=
  c_div (c_mul (c_sub value min) extent) (c_sub max min)

/-- `evdev_process_touch`. -/
def evdev_process_touch (device : evdev_device) (e : input_event) (time : Nat) :
    Option (evdev_device × List seat_notification) :=
  let screen_width := device.output.width
  let screen_height := device.output.height
  if e.code = ABS_MT_SLOT then
    match evdev_flush_pending_event device time with
    | none => none
    | some (d, out) => some ({ d with mt := { d.mt with slot := e.value } }, out)
  else if e.code = ABS_MT_TRACKING_ID then
    let r :=
      if device.pending_event ≠ evdev_event_type.EVDEV_NONE ∧
         device.pending_event ≠ evdev_event_type.EVDEV_ABSOLUTE_MT_MOTION then
        evdev_flush_pending_event device time
      else some (device, [])
    match r with
    | none => none
    | some (d, out) =>
      some ({ d with pending_event :=
                if 0 ≤ e.value then evdev_event_type.EVDEV_ABSOLUTE_MT_DOWN
                else evdev_event_type.EVDEV_ABSOLUTE_MT_UP }, out)
  else if e.code = ABS_MT_POSITION_X then
    match scale_axis e.value device.abs.min_x device.abs.max_x screen_width with
    | none => none
    | some px =>
      match mt_slot_set device.mt device.mt.slot (fun p => { p with x := px }) with
      | none => none
      | some mt =>
        some ({ device with
                  mt := mt,
                  pending_event :=
                    if device.pending_event = evdev_event_type.EVDEV_NONE then
                      evdev_event_type.EVDEV_ABSOLUTE_MT_MOTION
                    else device.pending_event }, [])
  else if e.code = ABS_MT_POSITION_Y then
    match scale_axis e.value device.abs.min_y device.abs.max_y screen_height with
    | none => none
    | some py =>
      match mt_slot_set device.mt device.mt.slot (fun p => { p with y := py }) with
      | none => none
      | some mt =>
        some ({ device with
                  mt := mt,
                  pending_event :=
                    if device.pending_event = evdev_event_type.EVDEV_NONE then
                      evdev_event_type.EVDEV_ABSOLUTE_MT_MOTION
                    else device.pending_event }, [])
  else some (device, [])

/-- `evdev_process_absolute_motion`. -/
def evdev_process_absolute_motion (device : evdev_device) (e : input_event) :
    Option (evdev_device × List seat_notification) :=
  let screen_width := device.output.width
  let screen_height := device.output.height
  if e.code = ABS_X then
    match scale_axis e.value device.abs.min_x device.abs.max_x screen_width with
    | none => none
    | some px =>
      some ({ device with
                abs := { device.abs with x := px },
                pending_event :=
                  if device.pending_event = evdev_event_type.EVDEV_NONE then
                    evdev_event_type.EVDEV_ABSOLUTE_MOTION
                  else device.pending_event }, [])
  else if e.code = ABS_Y then
    match scale_axis e.value device.abs.min_y device.abs.max_y screen_height with
    | none => none
    | some py =>
      some ({ device with
                abs := { device.abs with y := py },
                pending_event :=
                  if device.pending_event = evdev_event_type.EVDEV_NONE then
                    evdev_event_type.EVDEV_ABSOLUTE_MOTION
                  else device.pending_event }, [])
  else some (device, [])

/-- The `notify_axis` a wheel event of value `-1` or `1` produces; `sign` is
    the factor in front of `e->value`. -/
def wheel_notification (time : Nat) (axis : pointer_axis) (sign value : Int) :
    List seat_notification :=
  if value = -1 ∨ value = 1 then
    [seat_notification.notify_axis time axis (c_mul (c_mul sign value) (wl_fixed_from_int 10))]
  else []

/-- `evdev_process_relative`. -/
def evdev_process_relative (device : evdev_device) (e : input_event) (time : Nat) :
    Option (evdev_device × List seat_notification) :=
  if e.code = REL_X then
    let r :=
      if device.pending_event ≠ evdev_event_type.EVDEV_RELATIVE_MOTION then
        evdev_flush_pending_event device time
      else some (device, [])
    match r with
    | none => none
    | some (d, out) =>
      some ({ d with rel := { d.rel with dx := c_add d.rel.dx (wl_fixed_from_int e.value) },
                     pending_event := evdev_event_type.EVDEV_RELATIVE_MOTION }, out)
  else if e.code = REL_Y then
    let r :=
      if device.pending_event ≠ evdev_event_type.EVDEV_RELATIVE_MOTION then
        evdev_flush_pending_event device time
      else some (device, [])
    match r with
    | none => none
    | some (d, out) =>
      some ({ d with rel := { d.rel with dy := c_add d.rel.dy (wl_fixed_from_int e.value) },
                     pending_event := evdev_event_type.EVDEV_RELATIVE_MOTION }, out)
  else if e.code = REL_WHEEL then
    match evdev_flush_pending_event device time with
    | none => none
    | some (d, out) =>
      some (d, out ++ wheel_notification time pointer_axis.WL_POINTER_AXIS_VERTICAL_SCROLL
                        (-1) e.value)
  else if e.code = REL_HWHEEL then
    match evdev_flush_pending_event device time with
    | none => none
    | some (d, out) =>
      some (d, out ++ wheel_notification time pointer_axis.WL_POINTER_AXIS_HORIZONTAL_SCROLL
                        1 e.value)
  else some (device, [])

/-- `evdev_process_absolute`. -/
def evdev_process_absolute (device : evdev_device) (e : input_event) (time : Nat) :
    Option (evdev_device × List seat_notification) :=
  if device.is_mt then evdev_process_touch device e time
  else evdev_process_absolute_motion device e

/-- `fallback_process`. -/
def fallback_process (device : evdev_device) (event : input_event) (time : Nat) :
    Option (evdev_device × List seat_notification) :=
  if event.type = EV_REL then evdev_process_relative device event time
  else if event.type = EV_ABS then evdev_process_absolute device event time
  else if event.type = EV_KEY then evdev_process_key device event time
  else if event.type = EV_SYN then evdev_flush_pending_event device time
  else some (device, [])

/-- `evdev_process_events` with the fallback dispatch: the events are
    processed in order, the notifications concatenated. -/
def evdev_process_events (device : evdev_device) :
    List input_event → Option (evdev_device × List seat_notification)
  | [] => some (device, [])
  | e :: rest =>
    match fallback_process device e (ev_time e) with
    | none => none
    | some (d, out) =>
      match evdev_process_events d rest with
      | none => none
      | some (d2, out2) => some (d2, out ++ out2)

/-- Sum of the values of the events of `es` that carry axis code `code`. -/
def sum_axis (code : Nat) (es : List input_event) : Int :=
  ((es.filter (fun e => e.code = code)).map (fun e => e.value)).sum

/-- An `EV_ABS` event. -/
def abs_event (tv : Int × Int) (code : Nat) (value : Int) : input_event :=
  { tv_sec := tv.1, tv_usec := tv.2, type := EV_ABS, code := code, value := value }

/-- An `EV_SYN` / `SYN_REPORT` event. -/
def syn_event (tv : Int × Int) : input_event :=
  { tv_sec := tv.1, tv_usec := tv.2, type := EV_SYN, code := 0, value := 0 }

/-- An `EV_REL` event. -/
def rel_event (tv : Int × Int) (code : Nat) (value : Int) : input_event :=
  { tv_sec := tv.1, tv_usec := tv.2, type := EV_REL, code := code, value := value }

/-- A multitouch touchscreen with 16 slots on a 1024x768 output whose
    coordinate transform is the identity, nothing pending. -/
def sample_touchscreen : evdev_device :=
  { output := { width := 1024, height := 768, transform_coordinate := fun x y => (x, y) },
    abs := { min_x := 0, max_x := 1024, min_y := 0, max_y := 768, x := 0, y := 0,
             apply_calibration := false, calibration := fun _ => 0 },
    mt := { slot := 0, slots := List.replicate 16 { x := 0, y := 0 } },
    rel := { dx := 0, dy := 0 },
    pending_event := evdev_event_type.EVDEV_NONE,
    seat_caps := { pointer := false, keyboard := false, touch := true },
    is_mt := true }

/-- A multitouch device with a slot table of `n` entries whose current slot
    lies in the table and whose axis ranges are not empty. -/
def mt_device_ok (n : Nat) (d : evdev_device) : Prop :=
  d.is_mt = true ∧ d.mt.slots.length = n ∧ 0 ≤ d.mt.slot ∧ d.mt.slot < n ∧
  int32_range d.abs.min_x ∧ int32_range d.abs.max_x ∧ d.abs.min_x < d.abs.max_x ∧
  int32_range d.abs.min_y ∧ int32_range d.abs.max_y ∧ d.abs.min_y < d.abs.max_y

instance (n : Nat) (d : evdev_device) : Decidable (mt_device_ok n d) := by
  unfold mt_device_ok
  exact inferInstance

/-- A multitouch touchscreen whose axes run from 2 to 2050 and from 4 to
    1540, on the 1024x768 output of `sample_touchscreen`. -/
def offset_touchscreen : evdev_device :=
  { sample_touchscreen with
    abs := { min_x := 2, max_x := 2050, min_y := 4, max_y := 1540, x := 0, y := 0,
             apply_calibration := false, calibration := fun _ => 0 } }

/-! ### Device configuration -/

/-- More codes of `linux/input.h`. -/
def EV_LED : Nat := 17
def KEY_ESC : Nat := 1
def KEY_MAX : Nat := 767
def KEY_OK : Nat := 352
def BTN_MISC : Nat := 256
def BTN_JOYSTICK : Nat := 288
def BTN_TOOL_PEN : Nat := 320
def BTN_TOOL_FINGER : Nat := 325

/-- The answer of `EVIOCGABS` (`struct input_absinfo`), as far as it is read. -/
structure input_absinfo where
  value : Int
  minimum : Int
  maximum : Int
  deriving DecidableEq, Repr

/-- What the kernel and the external helpers answer during configuration:
    the capability bitmaps (`TEST_BIT` of a bitmap is the function applied to
    the bit), the axis ranges, the slot `mtdev_new_open` reports (`none` when
    it fails) and whether `weston_seat_init_keyboard` succeeds. -/
structure evdev_hw where
  ev_bits : Nat → Bool
  abs_bits : Nat → Bool
  rel_bits : Nat → Bool
  key_bits : Nat → Bool
  absinfo : Nat → input_absinfo
  mtdev_slot : Option Int
  keyboard_init_ok : Bool

/-- The outcome of `evdev_configure_device`: the return value, the device,
    and whether mtdev was opened and the touchpad dispatch installed. -/
structure configure_result where
  ret : Int
  device : evdev_device
  mtdev_open : Bool
  touchpad : Bool

/-- The `EV_ABS` block of `evdev_configure_device`: the device, `has_abs`,
    `has_touch` / `has_mt`, whether mtdev was opened; `Except.error` carries
    the device at the early `return 0` after `mtdev_new_open` failed. -/
def configure_abs (device : evdev_device) (hw : evdev_hw) :
    Except evdev_device (evdev_device × Bool × Bool × Bool) :=
  let d1 : evdev_device :=
    if hw.abs_bits ABS_X then
      { device with abs := { device.abs with min_x := (hw.absinfo ABS_X).minimum,
                                             max_x := (hw.absinfo ABS_X).maximum } }
    else device
  let has_abs1 := hw.abs_bits ABS_X
  let d2 : evdev_device :=
    if hw.abs_bits ABS_Y then
      { d1 with abs := { d1.abs with min_y := (hw.absinfo ABS_Y).minimum,
                                     max_y := (hw.absinfo ABS_Y).maximum } }
    else d1
  let has_abs := has_abs1 || hw.abs_bits ABS_Y
  if hw.abs_bits ABS_MT_POSITION_X && hw.abs_bits ABS_MT_POSITION_Y then
    let d3 : evdev_device :=
      { d2 with abs := { d2.abs with min_x := (hw.absinfo ABS_MT_POSITION_X).minimum,
                                     max_x := (hw.absinfo ABS_MT_POSITION_X).maximum,
                                     min_y := (hw.absinfo ABS_MT_POSITION_Y).minimum,
                                     max_y := (hw.absinfo ABS_MT_POSITION_Y).maximum },
                is_mt := true }
    if !hw.abs_bits ABS_MT_SLOT then
      match hw.mtdev_slot with
      | none => Except.error d3
      | some v => Except.ok ({ d3 with mt := { d3.mt with slot := v } }, has_abs, true, true)
    else
      Except.ok ({ d3 with mt := { d3.mt with slot := (hw.absinfo ABS_MT_SLOT).value } },
                 has_abs, true, false)
  else Except.ok (d2, has_abs, false, false)

/-- The loop `for (i = from; i < to; i++)` that looks for a set key bit,
    skipping the codes for which `skip` holds. -/
def any_key_bit (hw : evdev_hw) (start stop : Nat) (skip : Nat → Bool) : Bool :=
  (List.range' start (stop - start)).any (fun i => !skip i && hw.key_bits i)

/-- The end of `evdev_configure_device`: the three tests that assign the
    capabilities, on the flags computed before. -/
def assign_caps (d1 : evdev_device)
    (has_abs has_rel has_button has_keyboard has_touch keyboard_init_ok : Bool)
    (mtdev_open touchpad : Bool) : configure_result :=
  let d2 : evdev_device :=
    if (has_abs || has_rel) && has_button then
      { d1 with seat_caps := { d1.seat_caps with pointer := true } }
    else d1
  if has_keyboard && !keyboard_init_ok then
    { ret := -1, device := d2, mtdev_open := mtdev_open, touchpad := touchpad }
  else
    let d3 : evdev_device :=
      if has_keyboard then { d2 with seat_caps := { d2.seat_caps with keyboard := true } }
      else d2
    let d4 : evdev_device :=
      if has_touch && !has_button then
        { d3 with seat_caps := { d3.seat_caps with touch := true } }
      else d3
    { ret := 0, device := d4, mtdev_open := mtdev_open, touchpad := touchpad }

/-- The rest of `evdev_configure_device` after the `EV_ABS` block: the
    `EV_REL`, `EV_KEY` and `EV_LED` tests, then the assignment of the
    capabilities. -/
def configure_caps (d1 : evdev_device) (has_abs has_mt mtdev_open : Bool) (hw : evdev_hw) :
    configure_result :=
  let has_rel := hw.ev_bits EV_REL && (hw.rel_bits REL_X || hw.rel_bits REL_Y)
  let has_key := hw.ev_bits EV_KEY
  let touchpad := has_key && hw.key_bits BTN_TOOL_FINGER && !hw.key_bits BTN_TOOL_PEN &&
                  (has_abs || has_mt)
  let has_keyboard0 := has_key &&
    any_key_bit hw KEY_ESC KEY_MAX (fun i => decide (BTN_MISC ≤ i) && decide (i < KEY_OK))
  let has_touch := has_mt || (has_key && hw.key_bits BTN_TOUCH)
  let has_button := has_key && any_key_bit hw BTN_MISC BTN_JOYSTICK (fun _ => false)
  let has_keyboard := has_keyboard0 || hw.ev_bits EV_LED
  assign_caps d1 has_abs has_rel has_button has_keyboard has_touch hw.keyboard_init_ok
    mtdev_open touchpad

/-- `evdev_configure_device`. -/
def evdev_configure_device (device : evdev_device) (hw : evdev_hw) : configure_result :=
  let abs_part : Except evdev_device (evdev_device × Bool × Bool × Bool) :=
    if hw.ev_bits EV_ABS then configure_abs device hw
    else Except.ok (device, false, false, false)
  match abs_part with
  | Except.error d => { ret := 0, device := d, mtdev_open := false, touchpad := false }
  | Except.ok (d1, has_abs, has_mt, mtdev_open) =>
    configure_caps d1 has_abs has_mt mtdev_open hw

/-- The device `evdev_device_create` sets up before it configures it: zeroed
    by `zalloc`, then `seat_caps = 0`, `is_mt = 0`, `mt.slot = -1`, an empty
    accumulator and nothing pending; `slots` is the size of the slot table. -/
def evdev_device_zalloc (output : weston_output) (slots : Nat) : evdev_device :=
  { output := output,
    abs := { min_x := 0, max_x := 0, min_y := 0, max_y := 0, x := 0, y := 0,
             apply_calibration := false, calibration := fun _ => 0 },
    mt := { slot := -1, slots := List.replicate slots { x := 0, y := 0 } },
    rel := { dx := 0, dy := 0 },
    pending_event := evdev_event_type.EVDEV_NONE,
    seat_caps := { pointer := false, keyboard := false, touch := false },
    is_mt := false }

/-- What `evdev_device_create` returns: the device, `EVDEV_UNHANDLED_DEVICE`
    or NULL. -/
inductive create_result where
  | device (d : evdev_device)
  | unhandled
  | null

/-- `evdev_device_create`; `alloc_ok`, `dispatch_ok` and `source_ok` tell
    whether `zalloc`, the creation of the dispatch and `wl_event_loop_add_fd`
    succeed. -/
def evdev_device_create (output : weston_output) (slots : Nat) (hw : evdev_hw)
    (alloc_ok dispatch_ok source_ok : Bool) : create_result :=
  if !alloc_ok then create_result.null
  else
    let r := evdev_configure_device (evdev_device_zalloc output slots) hw
    if r.ret = -1 then create_result.null
    else if r.device.seat_caps = { pointer := false, keyboard := false, touch := false } then
      create_result.unhandled
    else if !dispatch_ok then create_result.null
    else if !source_ok then create_result.null
    else create_result.device r.device

/-- The device reports absolute X or Y motion. -/
def reports_abs_xy (hw : evdev_hw) : Prop :=
  hw.ev_bits EV_ABS = true ∧ (hw.abs_bits ABS_X = true ∨ hw.abs_bits ABS_Y = true)

/-- The device reports relative X or Y motion. -/
def reports_rel_xy (hw : evdev_hw) : Prop :=
  hw.ev_bits EV_REL = true ∧ (hw.rel_bits REL_X = true ∨ hw.rel_bits REL_Y = true)

/-- The device has a button in the range `BTN_MISC .. BTN_JOYSTICK - 1`. -/
def reports_button (hw : evdev_hw) : Prop :=
  hw.ev_bits EV_KEY = true ∧ ∃ i, BTN_MISC ≤ i ∧ i < BTN_JOYSTICK ∧ hw.key_bits i = true

/-- The device has a key `KEY_ESC .. KEY_MAX - 1` outside the button range
    `BTN_MISC .. KEY_OK - 1`, or an LED capability. -/
def reports_keyboard (hw : evdev_hw) : Prop :=
  (hw.ev_bits EV_KEY = true ∧
    ∃ i, KEY_ESC ≤ i ∧ i < KEY_MAX ∧ ¬ (BTN_MISC ≤ i ∧ i < KEY_OK) ∧ hw.key_bits i = true) ∨
  hw.ev_bits EV_LED = true

/-- The device has multitouch positions or `BTN_TOUCH`. -/
def reports_touch (hw : evdev_hw) : Prop :=
  (hw.ev_bits EV_ABS = true ∧ hw.abs_bits ABS_MT_POSITION_X = true ∧
    hw.abs_bits ABS_MT_POSITION_Y = true) ∨
  (hw.ev_bits EV_KEY = true ∧ hw.key_bits BTN_TOUCH = true)

/-- The device needs mtdev: multitouch positions without `ABS_MT_SLOT`. -/
def needs_mtdev (hw : evdev_hw) : Prop :=
  hw.ev_bits EV_ABS = true ∧ hw.abs_bits ABS_MT_POSITION_X = true ∧
  hw.abs_bits ABS_MT_POSITION_Y = true ∧ hw.abs_bits ABS_MT_SLOT = false

/-- A device that carries absolute X/Y axes and keys but neither buttons nor
    touch: it is classified as a keyboard only; an absolute motion is
    pending. -/
def keyboard_with_axes : evdev_device :=
  { sample_touchscreen with
    pending_event := evdev_event_type.EVDEV_ABSOLUTE_MOTION,
    seat_caps := { pointer := false, keyboard := true, touch := false },
    is_mt := false }

/-- A pointer device with a relative motion of (3, -2) pending. -/
def moving_mouse : evdev_device :=
  { sample_touchscreen with
    rel := { dx := 768, dy := -512 },
    pending_event := evdev_event_type.EVDEV_RELATIVE_MOTION,
    seat_caps := { pointer := true, keyboard := false, touch := false },
    is_mt := false }

/-- A press of the left mouse button. -/
def left_button_press : input_event :=
  { tv_sec := 2, tv_usec := 0, type := EV_KEY, code := BTN_LEFT, value := 1 }

/-- A mouse: relative X/Y motion and the buttons `BTN_LEFT`, `BTN_RIGHT`. -/
def mouse_hw : evdev_hw :=
  { ev_bits := fun i => i == EV_REL || i == EV_KEY,
    abs_bits := fun _ => false,
    rel_bits := fun i => i == REL_X || i == REL_Y,
    key_bits := fun i => i == BTN_LEFT || i == BTN_RIGHT,
    absinfo := fun _ => { value := 0, minimum := 0, maximum := 0 },
    mtdev_slot := none,
    keyboard_init_ok := true }

/-- A touchscreen that reports multitouch positions without `ABS_MT_SLOT`
    (it needs mtdev), mtdev failing to open. -/
def unslotted_touch_hw : evdev_hw :=
  { ev_bits := fun i => i == EV_ABS,
    abs_bits := fun i => i == ABS_MT_POSITION_X || i == ABS_MT_POSITION_Y,
    rel_bits := fun _ => false,
    key_bits := fun _ => false,
    absinfo := fun _ => { value := 0, minimum := 0, maximum := 4095 },
    mtdev_slot := none,
    keyboard_init_ok := true }

/-! ### Keyboard focus notification -/

/-- `KEY_CNT` of `linux/input.h`. -/
def KEY_CNT : Nat := 768

/-- The operator `!` of C on an `int`. -/
def c_not (x : Int) : Int := if x = 0 then 1 else 0

/-- The bitmap `all_keys` of `evdev_notify_keyboard_focus`: the bitmaps
    `EVIOCGKEY` gave for the devices, or-ed; a device whose `ioctl` failed
    (`none`) is skipped. -/
def all_keys (devices : List (Option (Nat → Bool))) (i : Nat) : Bool :=
  devices.any (fun r =>
    match r with
    | some keys => keys i
    | none => false)

/-- `evdev_notify_keyboard_focus`: the keys handed to
    `notify_keyboard_focus_in`, `none` when the function returns before it.
    `keyboard_device_count` is the `int` field of `struct weston_seat`; the
    guard is `!seat->keyboard_device_count > 0`, that is `(!count) > 0`. -/
def evdev_notify_keyboard_focus (keyboard_device_count : Int)
    (devices : List (Option (Nat → Bool))) : Option (List Nat) :=
  if 0 < c_not keyboard_device_count then none
  else some ((List.range KEY_CNT).filter (all_keys devices))

/-- The same function with the guard the specification asks for: it returns
    early unless `keyboard_device_count > 0`. -/
def evdev_notify_keyboard_focus_intended (keyboard_device_count : Int)
    (devices : List (Option (Nat → Bool))) : Option (List Nat) :=
  if 0 < keyboard_device_count then some ((List.range KEY_CNT).filter (all_keys devices))
  else none

/-! ## text-backend.c: the text-input / input-method bridge -/

/-- A client's text-entry object (`struct text_input`).  `input_methods` is
    the `wl_list` of linked input methods, each named by the seat that owns
    it, head first. -/
structure text_input where
  resource : Nat
  input_methods : List Nat
  surface : Option Nat
  input_panel_visible : Bool
  deriving DecidableEq, Repr

/-- The live session object (`struct input_method_context`). -/
structure input_method_context where
  resource : Nat
  model : Nat
  keyboard : Option Nat
  deriving DecidableEq, Repr

/-- The input method of a seat (`struct input_method`); `model` names the
    active text input. -/
structure input_method where
  input_method_binding : Option Nat
  model : Option Nat
  context : Option input_method_context
  focus_listener_initialized : Bool
  deriving DecidableEq, Repr

/-- Which grab `keyboard->grab` points to. -/
inductive keyboard_grab where
  | default_grab
  | input_method_grab
  | other_grab (id : Nat)
  deriving DecidableEq, Repr

/-- The part of `struct weston_keyboard` the bridge touches.
    `input_method_grab_keyboard` tells whether `input_method_grab.keyboard`
    is set (non-NULL). -/
structure weston_keyboard where
  grab : keyboard_grab
  input_method_grab_keyboard : Bool
  input_method_grab_interface_set : Bool
  focus_listener_added : Bool
  input_method_resource : Option Nat
  focus : Option Nat
  deriving DecidableEq, Repr

/-- A seat: its input method and its keyboard, either of which may be NULL. -/
structure weston_seat where
  input_method : Option input_method
  keyboard : Option weston_keyboard
  deriving DecidableEq, Repr

/-- Messages and signals the bridge emits. -/
inductive text_event where
  | text_input_leave (text_input : Nat)
  | text_input_enter (text_input : Nat) (surface : Nat)
  | input_method_deactivate (binding : Nat) (context : Nat)
  | input_method_activate (binding : Nat) (context : Nat)
  | hide_input_panel
  | show_input_panel (surface : Nat)
  | update_input_panel (text_input : Nat)
  | keyboard_end_grab (seat : Nat)
  | keyboard_keymap (resource : Nat)
  deriving DecidableEq, Repr

/-- The state of the bridge: the text inputs and the seats, each addressed by
    a number standing for its pointer, and the messages emitted so far. -/
structure text_state where
  text_inputs : Nat → text_input
  seats : Nat → weston_seat
  log : List text_event

/-- Store `s` as seat `seat`. -/
def set_seat (st : text_state) (seat : Nat) (s : weston_seat) : text_state :=
  { st with seats := Function.update st.seats seat s }

/-- Store `t` as text input `ti`. -/
def set_text_input (st : text_state) (ti : Nat) (t : text_input) : text_state :=
  { st with text_inputs := Function.update st.text_inputs ti t }

/-- Replace the input method of seat `seat`. -/
def set_input_method (st : text_state) (seat : Nat) (im : input_method) : text_state :=
  set_seat st seat { input_method := some im, keyboard := (st.seats seat).keyboard }

/-- Modelled from the spec: `weston_keyboard_end_grab`, which is not in the
    sources; ending the grab restores the default keyboard grab. -/
def weston_keyboard_end_grab (kb : weston_keyboard) : weston_keyboard :=
  { kb with grab := keyboard_grab.default_grab }

/-- `input_method_context_end_keyboard_grab` for the context of seat `seat`;
    `none` when `seat->keyboard` is NULL. -/
def input_method_context_end_keyboard_grab (st : text_state) (seat : Nat) : Option text_state :=
  match (st.seats seat).keyboard with
  | none => none
  | some kb =>
    if !kb.input_method_grab_keyboard then some st
    else
      let ended := kb.grab = keyboard_grab.input_method_grab
      let kb1 := if ended then weston_keyboard_end_grab kb else kb
      let st1 := set_seat st seat
        { input_method := (st.seats seat).input_method,
          keyboard := some { kb1 with input_method_resource := none } }
      some { st1 with
        log := if ended then st1.log ++ [text_event.keyboard_end_grab seat] else st1.log }

/-- `wl_list_remove(&input_method->link)`: the link of seat `seat` leaves the
    list it is in. -/
def unlink_input_method (st : text_state) (seat : Nat) : text_state :=
  { st with text_inputs := fun i =>
      let t := st.text_inputs i
      { t with input_methods := t.input_methods.filter (fun m => m ≠ seat) } }

/-- `deactivate_text_input(text_input, seat->input_method)`; `none` on a NULL
    dereference. -/
def deactivate_text_input (st : text_state) (ti seat : Nat) : Option text_state :=
  match (st.seats seat).input_method with
  | none => none
  | some im =>
    if im.model = some ti then
      let r : Option text_state :=
        match im.context, im.input_method_binding with
        | some ctx, some binding =>
          match input_method_context_end_keyboard_grab st seat with
          | none => none
          | some st1 =>
            some { st1 with log := st1.log ++
                     [text_event.input_method_deactivate binding ctx.resource] }
        | _, _ => some st
      match r with
      | none => none
      | some st1 =>
        let st2 := unlink_input_method st1 seat
        let st3 := set_input_method st2 seat { im with model := none, context := none }
        some { st3 with log := st3.log ++
                 [text_event.hide_input_panel, text_event.text_input_leave ti] }
    else some st

/-- `input_method_init_seat`. -/
def input_method_init_seat (st : text_state) (seat : Nat) : Option text_state :=
  match (st.seats seat).input_method with
  | none => none
  | some im =>
    if im.focus_listener_initialized then some st
    else
      let s := st.seats seat
      let kb := s.keyboard.map (fun k =>
        { k with focus_listener_added := true, input_method_grab_interface_set := true })
      some (set_seat st seat
        { input_method := some { im with focus_listener_initialized := true },
          keyboard := kb })

/-- `input_method_context_create`; `alloc` is the outcome of allocating the
    context and its resource (`none` when `calloc` fails). -/
def input_method_context_create (st : text_state) (ti seat : Nat) (alloc : Option Nat) :
    Option text_state :=
  match (st.seats seat).input_method with
  | none => none
  | some im =>
    match im.input_method_binding with
    | none => some st
    | some binding =>
      match alloc with
      | none => some st
      | some r =>
        let ctx : input_method_context := { resource := r, model := ti, keyboard := none }
        let st1 := set_input_method st seat { im with context := some ctx }
        some { st1 with log := st1.log ++ [text_event.input_method_activate binding r] }

/-- `text_input_activate` of text input `ti` on seat `seat` for surface
    `surface`; `none` on a NULL dereference. -/
def text_input_activate (st : text_state) (ti seat surface : Nat) (alloc : Option Nat) :
    Option text_state :=
  match (st.seats seat).input_method with
  | none => none
  | some im0 =>
    let old := im0.model
    if old = some ti then some st
    else
      let r : Option text_state :=
        match old with
        | some o => deactivate_text_input st o seat
        | none => some st
      match r with
      | none => none
      | some st1 =>
        match (st1.seats seat).input_method with
        | none => none
        | some im =>
          let st2 := set_input_method st1 seat { im with model := some ti }
          let t2 := st2.text_inputs ti
          let st3 := set_text_input st2 ti
            { t2 with input_methods := seat :: t2.input_methods }
          match input_method_init_seat st3 seat with
          | none => none
          | some st4 =>
            let t4 := st4.text_inputs ti
            let st5 := set_text_input st4 ti { t4 with surface := some surface }
            match input_method_context_create st5 ti seat alloc with
            | none => none
            | some st6 =>
              let t := st6.text_inputs ti
              let panel :=
                if t.input_panel_visible then
                  [text_event.show_input_panel surface, text_event.update_input_panel ti]
                else []
              some { st6 with log := st6.log ++ panel ++ [text_event.text_input_enter ti surface] }

/-- The messages sent to text inputs (`leave` and `enter`). -/
def is_text_input_message : text_event → Bool
  | text_event.text_input_leave _ => true
  | text_event.text_input_enter _ _ => true
  | _ => false

/-- `struct text_backend`'s `input_method` record: the helper process and its
    death bookkeeping; `path` names the executable, NULL when `none`. -/
structure text_backend where
  path : Option Nat
  binding : Option Nat
  pid : Nat
  client : Option Nat
  deathcount : Nat
  deathstamp : Nat
  deriving DecidableEq, Repr

/-- `launch_input_method`; `launched` is what the external
    `weston_client_launch` returns (the pid it stored and the client, or NULL).
    The second component tells whether `weston_client_launch` was called. -/
def launch_input_method (tb : text_backend) (launched : Option (Nat × Nat)) :
    text_backend × Bool :=
  if tb.binding.isSome then (tb, false)
  else if tb.path.isNone then (tb, false)
  else if tb.pid ≠ 0 then (tb, false)
  else
    match launched with
    | some (pid, client) => ({ tb with pid := pid, client := some client }, true)
    | none => ({ tb with client := none }, true)

/-- What `handle_input_method_sigchld` did: gave up, or called
    `launch_input_method`. -/
inductive sigchld_outcome where
  | gave_up
  | respawn
  deriving DecidableEq, Repr

/-- `handle_input_method_sigchld`; `time` is the value of
    `weston_compositor_get_time()`. -/
def handle_input_method_sigchld (tb : text_backend) (time : Nat)
    (launched : Option (Nat × Nat)) : text_backend × sigchld_outcome :=
  let tb1 : text_backend := { tb with pid := 0, client := none }
  let tb2 : text_backend :=
    if 10000 < u32_sub time tb1.deathstamp then
      { tb1 with deathstamp := time % 4294967296, deathcount := 0 }
    else tb1
  let tb3 : text_backend := { tb2 with deathcount := u32_add tb2.deathcount 1 }
  if 5 < tb3.deathcount then (tb3, sigchld_outcome.gave_up)
  else ((launch_input_method tb3 launched).1, sigchld_outcome.respawn)

/-- A run of deaths at the given times, each handled by
    `handle_input_method_sigchld`; the outcomes in order. -/
def run_deaths (launched : Nat → Option (Nat × Nat)) :
    text_backend → List Nat → text_backend × List sigchld_outcome
  | tb, [] => (tb, [])
  | tb, t :: ts =>
    let r := handle_input_method_sigchld tb t (launched t)
    let rest := run_deaths launched r.1 ts
    (rest.1, r.2 :: rest.2)

/-- The start of the 10-second window after a death at time `t`: `t` when
    that death reset the window, the old `deathstamp` otherwise. -/
def death_window_start (tb : text_backend) (t : Nat) : Nat :=
  if 10000 < u32_sub t tb.deathstamp then t % 4294967296 else tb.deathstamp

/-- The text backend right after start-up: helper running, no death yet
    (`deathcount` and `deathstamp` zeroed by `calloc`). -/
def fresh_text_backend : text_backend :=
  { path := some 1, binding := none, pid := 4711, client := some 1,
    deathcount := 0, deathstamp := 0 }

/-- A seat with keyboard whose input method is bound and has text input 1 as
    its active model; text input 1 holds the link of seat 0. -/
def sample_text_state : text_state :=
  { text_inputs := fun i =>
      { resource := i, input_methods := if i = 1 then [0] else [],
        surface := if i = 1 then some 3 else none, input_panel_visible := false },
    seats := fun _ =>
      { input_method := some
          { input_method_binding := some 7, model := some 1,
            context := some { resource := 9, model := 1, keyboard := none },
            focus_listener_initialized := true },
        keyboard := some
          { grab := keyboard_grab.default_grab, input_method_grab_keyboard := false,
            input_method_grab_interface_set := true, focus_listener_added := true,
            input_method_resource := none, focus := some 3 } },
    log := [] }

/-- `text_input_deactivate`: the explicit request of the client. -/
def text_input_deactivate (st : text_state) (ti seat : Nat) : Option text_state :=
  deactivate_text_input st ti seat

/-- `handle_keyboard_focus` for the input method of seat `seat`; `focus` is
    `keyboard->focus` of the keyboard that emitted the signal. -/
def handle_keyboard_focus (st : text_state) (seat : Nat) (focus : Option Nat) :
    Option text_state :=
  match (st.seats seat).input_method with
  | none => none
  | some im =>
    match im.model with
    | none => some st
    | some m =>
      if focus = none ∨ (st.text_inputs m).surface ≠ focus then
        deactivate_text_input st m seat
      else some st

/-- The loop of `destroy_text_input`: `deactivate_text_input` for every input
    method linked in the list, as read before the call. -/
def destroy_text_input_loop (ti : Nat) : List Nat → text_state → Option text_state
  | [], st => some st
  | m :: ms, st =>
    match deactivate_text_input st ti m with
    | none => none
    | some st1 => destroy_text_input_loop ti ms st1

/-- `destroy_text_input`. -/
def destroy_text_input (st : text_state) (ti : Nat) : Option text_state :=
  destroy_text_input_loop ti (st.text_inputs ti).input_methods st

/-- `unbind_input_method` of the input method of seat `seat`. -/
def unbind_input_method (st : text_state) (seat : Nat) : Option text_state :=
  match (st.seats seat).input_method with
  | none => none
  | some im =>
    some (set_input_method st seat { im with input_method_binding := none, context := none })

/-- Modelled from the spec: `weston_keyboard_start_grab`, which is not in the
    sources; it installs `grab` as the active grab of the keyboard,
    superseding the previous one, and records the keyboard in the grab. -/
def weston_keyboard_start_grab (kb : weston_keyboard) (grab : keyboard_grab) :
    weston_keyboard :=
  { kb with grab := grab,
            input_method_grab_keyboard :=
              if grab = keyboard_grab.input_method_grab then true
              else kb.input_method_grab_keyboard }

/-- `input_method_context_grab_keyboard` on the context with resource `ctx`
    of seat `seat`; `cr` is the new `wl_keyboard` resource.  `none` when
    `seat->keyboard` is NULL.  The field `keyboard` of a context that is no
    longer the input method's context is not tracked. -/
def input_method_context_grab_keyboard (st : text_state) (seat ctx cr : Nat) :
    Option text_state :=
  match (st.seats seat).keyboard with
  | none => none
  | some kb =>
    let im := (st.seats seat).input_method.map (fun im =>
      match im.context with
      | some c => if c.resource = ctx then { im with context := some { c with keyboard := some cr } }
                  else im
      | none => im)
    let ended := kb.grab ≠ keyboard_grab.default_grab
    let kb1 := if ended then weston_keyboard_end_grab kb else kb
    let kb2 := weston_keyboard_start_grab kb1 keyboard_grab.input_method_grab
    let st1 := set_seat st seat
      { input_method := im, keyboard := some { kb2 with input_method_resource := some cr } }
    some { st1 with
      log := st1.log ++ [text_event.keyboard_keymap cr] ++
             (if ended then [text_event.keyboard_end_grab seat] else []) }

/-- `unbind_keyboard` of the `wl_keyboard` resource created for the context
    with resource `ctx` of seat `seat`. -/
def unbind_keyboard (st : text_state) (seat ctx : Nat) : Option text_state :=
  match input_method_context_end_keyboard_grab st seat with
  | none => none
  | some st1 =>
    let s := st1.seats seat
    let im := s.input_method.map (fun im =>
      match im.context with
      | some c => if c.resource = ctx then { im with context := some { c with keyboard := none } }
                  else im
      | none => im)
    some (set_seat st1 seat { input_method := im, keyboard := s.keyboard })

/-- The requests and events that drive the bridge of one seat. -/
inductive bridge_op where
  | activate (ti surface : Nat) (alloc : Option Nat)
  | deactivate (ti : Nat)
  | grab_keyboard (ctx cr : Nat)
  | unbind_keyboard (ctx : Nat)
  | unbind_input_method
  | keyboard_focus (focus : Option Nat)
  deriving DecidableEq, Repr

/-- One request or event on seat `seat`.  A keyboard-focus change stores the
    new focus in the keyboard and then runs `handle_keyboard_focus`. -/
def bridge_step (st : text_state) (seat : Nat) : bridge_op → Option text_state
  | bridge_op.activate ti surface alloc => text_input_activate st ti seat surface alloc
  | bridge_op.deactivate ti => text_input_deactivate st ti seat
  | bridge_op.grab_keyboard ctx cr => input_method_context_grab_keyboard st seat ctx cr
  | bridge_op.unbind_keyboard ctx => unbind_keyboard st seat ctx
  | bridge_op.unbind_input_method => unbind_input_method st seat
  | bridge_op.keyboard_focus focus =>
    let s := st.seats seat
    let st1 := set_seat st seat
      { input_method := s.input_method,
        keyboard := s.keyboard.map (fun k => { k with focus := focus }) }
    handle_keyboard_focus st1 seat focus

/-- A run of requests and events on seat `seat`. -/
def bridge_run (seat : Nat) : text_state → List bridge_op → Option text_state
  | st, [] => some st
  | st, op :: ops =>
    match bridge_step st seat op with
    | none => none
    | some st1 => bridge_run seat st1 ops

/-- The model of the input method of seat `seat` (NULL when `none`). -/
def seat_model (st : text_state) (seat : Nat) : Option Nat :=
  (st.seats seat).input_method.bind (fun im => im.model)

/-- Whether the input-method grab is the active grab of the keyboard of
    seat `seat`. -/
def input_method_grab_active (st : text_state) (seat : Nat) : Bool :=
  match (st.seats seat).keyboard with
  | some kb => decide (kb.grab = keyboard_grab.input_method_grab)
  | none => false

/-- A seat before any text input was activated: an input method without
    model and context, and a keyboard (if any) whose active grab is not the
    input-method grab. -/
def bridge_idle (st : text_state) (seat : Nat) : Prop :=
  (∃ im, (st.seats seat).input_method = some im ∧ im.model = none ∧ im.context = none) ∧
  input_method_grab_active st seat = false

/-- The requests of the amended invariant: every request but the unbinding of
    the input method, the keyboard being grabbed only through the context
    the input method currently holds. -/
def bridge_op_live (st : text_state) (seat : Nat) : bridge_op → Prop
  | bridge_op.unbind_input_method => False
  | bridge_op.grab_keyboard ctx _ =>
    ∃ im c, (st.seats seat).input_method = some im ∧ im.context = some c ∧ c.resource = ctx
  | _ => True

/-- States of seat `seat` reachable from an idle state through the requests
    of `bridge_op_live`. -/
inductive bridge_reachable (seat : Nat) : text_state → Prop where
  | idle (st : text_state) (h : bridge_idle st seat) : bridge_reachable seat st
  | step (st st1 : text_state) (op : bridge_op) (h : bridge_reachable seat st)
      (hop : bridge_op_live st seat op) (hs : bridge_step st seat op = some st1) :
      bridge_reachable seat st1

/-- The invariant behind the amended model/grab invariant: a context
    implies a model and a binding, and an active input-method grab implies
    that the grab knows its keyboard and that a context exists. -/
def bridge_inv (st : text_state) (seat : Nat) : Prop :=
  ∃ im, (st.seats seat).input_method = some im ∧
    (im.context ≠ none → im.model ≠ none ∧ im.input_method_binding ≠ none) ∧
    (∀ kb, (st.seats seat).keyboard = some kb →
      kb.grab = keyboard_grab.input_method_grab →
      kb.input_method_grab_keyboard = true ∧ im.context ≠ none)

/-- A seat with a keyboard and a bound input method, no text input active. -/
def idle_text_state : text_state :=
  { text_inputs := fun i =>
      { resource := i, input_methods := [], surface := none, input_panel_visible := false },
    seats := fun _ =>
      { input_method := some
          { input_method_binding := some 7, model := none, context := none,
            focus_listener_initialized := false },
        keyboard := some
          { grab := keyboard_grab.default_grab, input_method_grab_keyboard := false,
            input_method_grab_interface_set := false, focus_listener_added := false,
            input_method_resource := none, focus := none } },
    log := [] }

/-- The idle sample state after text input 1 was activated on seat 0 for
    surface 5, the context getting resource 10. -/
def activated_text_state : text_state :=
  (bridge_step idle_text_state 0 (bridge_op.activate 1 5 (some 10))).getD idle_text_state

/-- The state `activated_text_state` after the input method grabbed the
    keyboard through context 10, the new `wl_keyboard` resource being 11. -/
def grabbed_text_state : text_state :=
  (bridge_step activated_text_state 0 (bridge_op.grab_keyboard 10 11)).getD idle_text_state

/-- The sample state after the helper of seat 0 went away: text input 1 is
    still the model, binding and context are NULL. -/
def unbound_text_state : text_state :=
  set_input_method sample_text_state 0
    { input_method_binding := none, model := some 1, context := none,
      focus_listener_initialized := true }

/-! ## exposay.c: the overview layout -/

/-- A view of the workspace layer, as far as `exposay_layout` reads it:
    whether `get_shell_surface(view->surface)` is non-NULL, the size of its
    surface and its position (`float`, taken as exact rationals). -/
structure weston_view where
  id : Nat
  has_shell_surface : Bool
  surface_width : Int
  surface_height : Int
  geometry_x : ℚ
  geometry_y : ℚ

/-- An overview entry (`struct exposay_surface`). -/
structure exposay_surface where
  view : Nat
  x : Int
  y : Int
  width : Int
  height : Int
  scale : ℚ
  row : Int
  column : Int

/-- The states of the layout (`enum exposay_layout_state`). -/
inductive exposay_layout_state where
  | EXPOSAY_LAYOUT_INACTIVE
  | EXPOSAY_LAYOUT_OVERVIEW
  | EXPOSAY_LAYOUT_ANIMATE_TO_INACTIVE
  | EXPOSAY_LAYOUT_ANIMATE_TO_OVERVIEW
  deriving DecidableEq, Repr

/-- Calls `exposay_layout` makes outside exposay.c. -/
inductive exposay_effect where
  | activate (view : Nat)
  | move_scale_run (view : Nat) (dx dy : ℚ) (scale : ℚ)
  | schedule_repaint
  | move_scale_run_reverse (view : Nat) (dx dy : ℚ) (scale : ℚ)
  | lower_fullscreen_layer

/-- The part of `shell->exposay` the layout writes; `surface_list` is the
    `wl_list` of entries, head first. -/
structure exposay where
  num_surfaces : Int
  grid_size : Int
  surface_size : Int
  hpadding_outer : Int
  vpadding_outer : Int
  padding_inner : Int
  surface_list : List exposay_surface
  in_flight : Int
  focus_current : Option Nat
  row_current : Int
  column_current : Int
  effects : List exposay_effect

/-- `int` division by a divisor that is not zero where it is used. -/
def c_quot (a b : Int) : Int := wrap32 (Int.tdiv a b)

/-- `int` remainder by a divisor that is not zero where it is used. -/
def c_rem (a b : Int) : Int := wrap32 (Int.tmod a b)

/-- The first loop of `exposay_layout`: `num_surfaces++` for every view with
    a shell surface. -/
def exposay_count_surfaces : List weston_view → Int → Int
  | [], n => n
  | v :: vs, n => exposay_count_surfaces vs (if v.has_shell_surface then c_add n 1 else n)

/-- The grid size: `floor(sqrtf(n))`, one more unless its square is `n`. -/
def exposay_grid_size (n : Int) : Int :=
  let g : Int := (Nat.sqrt n.toNat : Nat)
  if g * g ≠ n then c_add g 1 else g

/-- `exposay_highlight_surface` for a non-NULL entry. -/
def exposay_highlight_surface (ex : exposay) (es : exposay_surface) : exposay :=
  { ex with row_current := es.row, column_current := es.column,
            focus_current := some es.view,
            effects := ex.effects ++ [exposay_effect.activate es.view] }

/-- `exposay_animate_in`. -/
def exposay_animate_in (ex : exposay) (es : exposay_surface) (v : weston_view) : exposay :=
  { ex with in_flight := c_add ex.in_flight 1,
            effects := ex.effects ++
              [exposay_effect.move_scale_run es.view ((es.x : ℚ) - v.geometry_x)
                 ((es.y : ℚ) - v.geometry_y) es.scale] }

/-- The entry the second loop of `exposay_layout` builds for the `i`-th
    eligible view. -/
def exposay_make_surface (ex : exposay) (last_row_removed : Int) (i : Int) (v : weston_view) :
    exposay_surface :=
  let pad := c_add ex.surface_size ex.padding_inner
  let row := c_quot i ex.grid_size
  let column := c_rem i ex.grid_size
  let x0 := c_add ex.hpadding_outer (c_mul pad column)
  let y := c_add ex.vpadding_outer (c_mul pad row)
  let x :=
    if row = c_sub ex.grid_size 1 then
      c_add x0 (c_quot (c_mul (c_add ex.surface_size ex.padding_inner) last_row_removed) 2)
    else x0
  let scale : ℚ :=
    if v.surface_height < v.surface_width then (ex.surface_size : ℚ) / (v.surface_width : ℚ)
    else (ex.surface_size : ℚ) / (v.surface_height : ℚ)
  { view := v.id, x := x, y := y,
    width := float_to_int32 ((v.surface_width : ℚ) * scale),
    height := float_to_int32 ((v.surface_height : ℚ) * scale),
    scale := scale, row := row, column := column }

/-- The second loop of `exposay_layout`, every allocation succeeding. -/
def exposay_layout_loop (last_row_removed : Int) :
    List weston_view → Int → exposay → exposay
  | [], _, ex => ex
  | v :: vs, i, ex =>
    if !v.has_shell_surface then exposay_layout_loop last_row_removed vs i ex
    else
      let es := exposay_make_surface ex last_row_removed i v
      let ex1 := { ex with surface_list := es :: ex.surface_list }
      let ex2 := if ex1.focus_current = some es.view then exposay_highlight_surface ex1 es else ex1
      let ex3 := exposay_animate_in ex2 es v
      exposay_layout_loop last_row_removed vs (c_add i 1) ex3

/-- `exposay_layout` on an output of the given size and the views of the
    workspace layer, every `malloc` of an entry succeeding. -/
def exposay_layout (ex : exposay) (output_width output_height : Int)
    (views : List weston_view) : exposay × exposay_layout_state :=
  let ex0 := { ex with surface_list := [] }
  let n := exposay_count_surfaces views 0
  let ex1 := { ex0 with num_surfaces := n }
  if n = 0 then
    ({ ex1 with grid_size := 0, hpadding_outer := 0, vpadding_outer := 0,
                padding_inner := 0, surface_size := 0 },
     exposay_layout_state.EXPOSAY_LAYOUT_OVERVIEW)
  else
    let g := exposay_grid_size n
    let last_row_removed := c_sub (c_mul g g) n
    let hpad := c_quot output_width 10
    let vpad := c_quot output_height 10
    let inner : Int := 80
    let w := c_quot (c_sub (c_sub output_width (c_mul hpad 2)) (c_mul inner (c_sub g 1))) g
    let h := c_quot (c_sub (c_sub output_height (c_mul vpad 2)) (c_mul inner (c_sub g 1))) g
    let size0 := if w < h then w else h
    let size1 := if c_quot output_width 2 < size0 then c_quot output_width 2 else size0
    let size2 := if c_quot output_height 2 < size1 then c_quot output_height 2 else size1
    let ex2 := { ex1 with grid_size := g, hpadding_outer := hpad, vpadding_outer := vpad,
                          padding_inner := inner, surface_size := size2 }
    let ex3 := exposay_layout_loop last_row_removed views 0 ex2
    ({ ex3 with effects := ex3.effects ++ [exposay_effect.schedule_repaint] },
     exposay_layout_state.EXPOSAY_LAYOUT_ANIMATE_TO_OVERVIEW)

/-- The entries of an overview in the order they were created. -/
def exposay_entries (ex : exposay) : List exposay_surface := ex.surface_list.reverse

/-- The exposay state before any overview was laid out. -/
def exposay_idle : exposay :=
  { num_surfaces := 0, grid_size := 0, surface_size := 0, hpadding_outer := 0,
    vpadding_outer := 0, padding_inner := 0, surface_list := [], in_flight := 0,
    focus_current := none, row_current := 0, column_current := 0, effects := [] }

/-- A 100x100 view with a shell surface, at the origin. -/
def square_view (id : Nat) : weston_view :=
  { id := id, has_shell_surface := true, surface_width := 100, surface_height := 100,
    geometry_x := 0, geometry_y := 0 }

/-- Five eligible views. -/
def five_views : List weston_view :=
  [square_view 0, square_view 1, square_view 2, square_view 3, square_view 4]

/-- The views `exposay_layout` makes entries for: those with a shell
    surface, in the order of the view list. -/
def exposay_eligible (views : List weston_view) : List weston_view :=
  views.filter (fun v => v.has_shell_surface)

/-- The cell of an entry. -/
def exposay_cell (es : exposay_surface) : Int × Int := (es.row, es.column)

/-- The cell `(i div g, i mod g)` of index `i` in a grid of size `g`. -/
def grid_cell (g : Int) (i : Nat) : Int × Int := ((i : Int) / g, (i : Int) % g)

/-- The `surface_size` that `exposay_layout` computes for a grid of size `g`
    on an output of the given size. -/
def exposay_cell_size (output_width output_height g : Int) : Int :=
  let hpad := c_quot output_width 10
  let vpad := c_quot output_height 10
  let inner : Int := 80
  let w := c_quot (c_sub (c_sub output_width (c_mul hpad 2)) (c_mul inner (c_sub g 1))) g
  let h := c_quot (c_sub (c_sub output_height (c_mul vpad 2)) (c_mul inner (c_sub g 1))) g
  let size0 := if w < h then w else h
  let size1 := if c_quot output_width 2 < size0 then c_quot output_width 2 else size0
  if c_quot output_height 2 < size1 then c_quot output_height 2 else size1

/-- Seven eligible views. -/
def seven_views : List weston_view :=
  [square_view 0, square_view 1, square_view 2, square_view 3, square_view 4, square_view 5,
   square_view 6]

/-! ### The exposay state machine -/

/-- The intents (`enum exposay_target_state`). -/
inductive exposay_target_state where
  | EXPOSAY_TARGET_OVERVIEW
  | EXPOSAY_TARGET_SWITCH
  | EXPOSAY_TARGET_CANCEL
  deriving DecidableEq, Repr

/-- Which grab is the active grab of a keyboard or pointer of the shell's
    seat. -/
inductive shell_grab where
  | default_grab
  | exposay_grab
  | input_method_grab
  deriving DecidableEq, Repr

/-- A seat as exposay uses it; the seat has a keyboard and a pointer.
    `keyboard_focus` is the default view of `seat->keyboard->focus`. -/
structure shell_seat where
  keyboard_grab : shell_grab
  pointer_grab : shell_grab
  input_method_resource : Option Nat
  keyboard_focus : Option Nat
  pointer_focus : Option Nat
  deriving DecidableEq, Repr

/-- The shell as exposay sees it: the layout part of `shell->exposay`, the
    rest of `shell->exposay`, the seats, the views of the current workspace
    and the size of the default output. -/
structure desktop_shell where
  exposay : exposay
  state_cur : exposay_layout_state
  state_target : exposay_target_state
  seat : Nat
  focus_prev : Option Nat
  clicked : Option Nat
  seats : Nat → shell_seat
  views : List weston_view
  output_width : Int
  output_height : Int

/-- `exposay_is_animating`. -/
def exposay_is_animating (sh : desktop_shell) : Bool :=
  if sh.state_cur = exposay_layout_state.EXPOSAY_LAYOUT_INACTIVE ∨
     sh.state_cur = exposay_layout_state.EXPOSAY_LAYOUT_OVERVIEW then false
  else decide (0 < sh.exposay.in_flight)

/-- The position of view `view` (`view->geometry.x`, `view->geometry.y`). -/
def view_geometry (sh : desktop_shell) (view : Nat) : ℚ × ℚ :=
  match sh.views.find? (fun v => v.id == view) with
  | some v => (v.geometry_x, v.geometry_y)
  | none => (0, 0)

/-- `exposay_animate_out`. -/
def exposay_animate_out (sh : desktop_shell) (es : exposay_surface) : desktop_shell :=
  let g := view_geometry sh es.view
  { sh with exposay :=
      { sh.exposay with
        in_flight := c_add sh.exposay.in_flight 1,
        effects := sh.exposay.effects ++
          [exposay_effect.move_scale_run_reverse es.view ((es.x : ℚ) - g.1)
             ((es.y : ℚ) - g.2) es.scale] } }

/-- `exposay_set_inactive`. -/
def exposay_set_inactive (sh : desktop_shell) : desktop_shell × exposay_layout_state :=
  let s := sh.seats sh.seat
  let s1 : shell_seat :=
    { s with keyboard_grab := shell_grab.default_grab, pointer_grab := shell_grab.default_grab }
  let s2 : shell_seat :=
    if s1.input_method_resource.isSome then
      { s1 with keyboard_grab := shell_grab.input_method_grab }
    else s1
  ({ sh with seats := Function.update sh.seats sh.seat s2 },
   exposay_layout_state.EXPOSAY_LAYOUT_INACTIVE)

/-- `exposay_transition_inactive`. -/
def exposay_transition_inactive (sh : desktop_shell) (switch_focus : Bool) :
    desktop_shell × exposay_layout_state :=
  let act : List exposay_effect :=
    if switch_focus && sh.exposay.focus_current.isSome then
      match sh.exposay.focus_current with
      | some v => [exposay_effect.activate v]
      | none => []
    else
      match sh.focus_prev with
      | some v => [exposay_effect.activate v]
      | none => []
  let sh1 : desktop_shell :=
    { sh with exposay := { sh.exposay with effects := sh.exposay.effects ++ act } }
  let sh2 := sh.exposay.surface_list.foldl exposay_animate_out sh1
  ({ sh2 with exposay :=
       { sh2.exposay with effects := sh2.exposay.effects ++ [exposay_effect.schedule_repaint] } },
   exposay_layout_state.EXPOSAY_LAYOUT_ANIMATE_TO_INACTIVE)

/-- `exposay_transition_active`, every `malloc` of `exposay_layout`
    succeeding. -/
def exposay_transition_active (sh : desktop_shell) : desktop_shell × exposay_layout_state :=
  let s := sh.seats sh.seat
  let ex1 : exposay :=
    { sh.exposay with
      focus_current := s.keyboard_focus, surface_list := [],
      effects := sh.exposay.effects ++ [exposay_effect.lower_fullscreen_layer] }
  let s1 : shell_seat :=
    { s with keyboard_grab := shell_grab.exposay_grab, keyboard_focus := none,
             pointer_grab := shell_grab.exposay_grab, pointer_focus := none }
  let r := exposay_layout ex1 sh.output_width sh.output_height sh.views
  ({ sh with exposay := r.1, focus_prev := s.keyboard_focus, clicked := none,
             seats := Function.update sh.seats sh.seat s1 }, r.2)

/-- `exposay_check_state`. -/
def exposay_check_state (sh : desktop_shell) : desktop_shell :=
  if exposay_is_animating sh then sh
  else
    match sh.state_target with
    | exposay_target_state.EXPOSAY_TARGET_OVERVIEW =>
      match sh.state_cur with
      | exposay_layout_state.EXPOSAY_LAYOUT_OVERVIEW => sh
      | exposay_layout_state.EXPOSAY_LAYOUT_ANIMATE_TO_OVERVIEW =>
        { sh with state_cur := exposay_layout_state.EXPOSAY_LAYOUT_OVERVIEW }
      | _ =>
        let r := exposay_transition_active sh
        { r.1 with state_cur := r.2 }
    | exposay_target_state.EXPOSAY_TARGET_SWITCH =>
      match sh.state_cur with
      | exposay_layout_state.EXPOSAY_LAYOUT_INACTIVE => sh
      | exposay_layout_state.EXPOSAY_LAYOUT_ANIMATE_TO_INACTIVE =>
        let r := exposay_set_inactive sh
        { r.1 with state_cur := r.2 }
      | _ =>
        let r := exposay_transition_inactive sh true
        { r.1 with state_cur := r.2 }
    | exposay_target_state.EXPOSAY_TARGET_CANCEL =>
      match sh.state_cur with
      | exposay_layout_state.EXPOSAY_LAYOUT_INACTIVE => sh
      | exposay_layout_state.EXPOSAY_LAYOUT_ANIMATE_TO_INACTIVE =>
        let r := exposay_set_inactive sh
        { r.1 with state_cur := r.2 }
      | _ =>
        let r := exposay_transition_inactive sh false
        { r.1 with state_cur := r.2 }

/-- `exposay_set_state`. -/
def exposay_set_state (sh : desktop_shell) (state : exposay_target_state) (seat : Nat) :
    desktop_shell :=
  exposay_check_state { sh with state_target := state, seat := seat }

/-- `exposay_in_flight_dec`. -/
def exposay_in_flight_dec (sh : desktop_shell) : desktop_shell :=
  let sh1 : desktop_shell :=
    { sh with exposay := { sh.exposay with in_flight := c_sub sh.exposay.in_flight 1 } }
  if 0 < sh1.exposay.in_flight then sh1 else exposay_check_state sh1

/-- `exposay_animate_out_done` for the entry of view `view`: the entry leaves
    the surface list and is freed, then `exposay_in_flight_dec`. -/
def exposay_animate_out_done (sh : desktop_shell) (view : Nat) : desktop_shell :=
  exposay_in_flight_dec
    { sh with exposay :=
        { sh.exposay with
          surface_list := sh.exposay.surface_list.filter (fun e => e.view != view) } }

/-- The completion of the exit animations of the given views, in order. -/
def exposay_complete_out (sh : desktop_shell) (views : List Nat) : desktop_shell :=
  views.foldl exposay_animate_out_done sh

/-- Key codes of `linux/input.h` that `exposay_key` looks at. -/
def KEY_TAB : Nat := 15
def KEY_ENTER : Nat := 28
def KEY_UP : Nat := 103
def KEY_LEFT : Nat := 105
def KEY_RIGHT : Nat := 106
def KEY_DOWN : Nat := 108

/-- `exposay_maybe_move`: the first entry of the surface list in the given
    cell is highlighted; the `int` returned tells whether there was one. -/
def exposay_maybe_move (ex : exposay) (row column : Int) : exposay × Int :=
  match ex.surface_list.find?
      (fun es => !(decide (es.row ≠ row) || decide (es.column ≠ column))) with
  | some es => (exposay_highlight_surface ex es, 1)
  | none => (ex, 0)

/-- `exposay_key`; `released` is `state == WL_KEYBOARD_KEY_STATE_RELEASED`
    and `seat` the seat of the grabbed keyboard. -/
def exposay_key (sh : desktop_shell) (_time key : Nat) (released : Bool) (seat : Nat) :
    desktop_shell :=
  let ex := sh.exposay
  if !released then sh
  else if key = KEY_ESC then
    exposay_set_state sh exposay_target_state.EXPOSAY_TARGET_CANCEL seat
  else if key = KEY_ENTER then
    exposay_set_state sh exposay_target_state.EXPOSAY_TARGET_SWITCH seat
  else if key = KEY_UP then
    { sh with exposay := (exposay_maybe_move ex (c_sub ex.row_current 1) ex.column_current).1 }
  else if key = KEY_DOWN then
    if (exposay_maybe_move ex (c_add ex.row_current 1) ex.column_current).2 = 0 ∧
       ex.row_current < c_sub ex.grid_size 1 then
      { sh with exposay :=
          (exposay_maybe_move ex (c_add ex.row_current 1)
            (c_sub (c_rem ex.num_surfaces ex.grid_size) 1)).1 }
    else
      { sh with exposay :=
          (exposay_maybe_move ex (c_add ex.row_current 1) ex.column_current).1 }
  else if key = KEY_LEFT then
    { sh with exposay := (exposay_maybe_move ex ex.row_current (c_sub ex.column_current 1)).1 }
  else if key = KEY_RIGHT then
    { sh with exposay := (exposay_maybe_move ex ex.row_current (c_add ex.column_current 1)).1 }
  else if key = KEY_TAB then
    if (exposay_maybe_move ex ex.row_current (c_add ex.column_current 1)).2 ≠ 0 then
      { sh with exposay :=
          (exposay_maybe_move ex ex.row_current (c_add ex.column_current 1)).1 }
    else if (exposay_maybe_move ex (c_add ex.row_current 1) 0).2 ≠ 0 then
      { sh with exposay := (exposay_maybe_move ex (c_add ex.row_current 1) 0).1 }
    else { sh with exposay := (exposay_maybe_move ex 0 0).1 }
  else sh

/-- The shell after `k` releases of the Tab key. -/
def exposay_tabs (sh : desktop_shell) (time seat : Nat) : Nat → desktop_shell
  | 0 => sh
  | k + 1 => exposay_key (exposay_tabs sh time seat k) time KEY_TAB true seat

/-- A shell with exposay inactive, one seat with default grabs, an empty
    workspace and a 1000x1000 output. -/
def idle_shell : desktop_shell :=
  { exposay := exposay_idle,
    state_cur := exposay_layout_state.EXPOSAY_LAYOUT_INACTIVE,
    state_target := exposay_target_state.EXPOSAY_TARGET_CANCEL,
    seat := 0, focus_prev := none, clicked := none,
    seats := fun _ =>
      { keyboard_grab := shell_grab.default_grab, pointer_grab := shell_grab.default_grab,
        input_method_resource := none, keyboard_focus := none, pointer_focus := none },
    views := [], output_width := 1000, output_height := 1000 }

/-- The overview opened on the empty workspace of `idle_shell`. -/
def empty_overview : desktop_shell :=
  exposay_set_state idle_shell exposay_target_state.EXPOSAY_TARGET_OVERVIEW 0

/-- A shell in the middle of the animation into the overview of five views. -/
def animating_shell : desktop_shell :=
  exposay_set_state { idle_shell with views := five_views }
    exposay_target_state.EXPOSAY_TARGET_OVERVIEW 0

/-- The overview of a workspace with one view, its entry animated in. -/
def one_view_overview : desktop_shell :=
  exposay_in_flight_dec
    (exposay_set_state { idle_shell with views := [square_view 7] }
      exposay_target_state.EXPOSAY_TARGET_OVERVIEW 0)

/-! ## screenshooter.c: screenshots and the recorder's run encoding -/

/-- What the screenshooter sends to the client of a resource. -/
inductive screenshooter_event where
  | no_memory (resource : Nat)
  | done (resource : Nat)
  deriving DecidableEq, Repr

/-- The fields of `struct weston_buffer` that `screenshooter_shoot` writes. -/
structure weston_buffer where
  shm_buffer : Option Nat
  width : Int
  height : Int
  deriving DecidableEq, Repr

/-- An entry of the frame signal (`struct screenshooter_frame_listener`). -/
structure screenshooter_frame_listener where
  buffer : Nat
  resource : Nat
  deriving DecidableEq, Repr

/-- An output as the screenshooter uses it: the size of its current mode, the
    listeners of its frame signal in the order they were added, the
    `disable_planes` counter and the number of repaints scheduled. -/
structure screenshooter_output where
  mode_width : Int
  mode_height : Int
  frame_signal : List screenshooter_frame_listener
  disable_planes : Int
  repaints : Nat
  deriving DecidableEq, Repr

/-- The outputs, the buffers and the events sent so far. -/
structure screenshooter_state where
  outputs : Nat → screenshooter_output
  buffers : Nat → weston_buffer
  events : List screenshooter_event

/-- `screenshooter_shoot`. `buffer` is what `weston_buffer_from_resource`
    returns (NULL when `none`), `shm` what `wl_shm_buffer_get` returns with
    the width and height of that shm buffer, `alloc_ok` whether `malloc`
    of the listener succeeds. -/
def screenshooter_shoot (st : screenshooter_state) (resource output : Nat)
    (buffer : Option Nat) (shm : Option (Nat × Int × Int)) (alloc_ok : Bool) :
    screenshooter_state :=
  match buffer with
  | none => { st with events := st.events ++ [screenshooter_event.no_memory resource] }
  | some b =>
    match shm with
    | none => st
    | some (sb, w, h) =>
      let st1 : screenshooter_state :=
        { st with buffers :=
            Function.update st.buffers b { shm_buffer := some sb, width := w, height := h } }
      let o := st1.outputs output
      if w < o.mode_width ∨ h < o.mode_height then st1
      else if !alloc_ok then
        { st1 with events := st1.events ++ [screenshooter_event.no_memory resource] }
      else
        let l : screenshooter_frame_listener := { buffer := b, resource := resource }
        let o1 : screenshooter_output :=
          { o with frame_signal := o.frame_signal ++ [l],
                   disable_planes := c_add o.disable_planes 1,
                   repaints := o.repaints + 1 }
        { st1 with outputs := Function.update st1.outputs output o1 }

/-- `screenshooter_frame_notify` for listener `l` of output `output`, as far
    as the listener list, the counter and the events go; `pixels_ok` tells
    whether `malloc` of the pixel buffer succeeds. -/
def screenshooter_frame_notify (st : screenshooter_state) (output : Nat)
    (l : screenshooter_frame_listener) (pixels_ok : Bool) : screenshooter_state :=
  let o := st.outputs output
  let o1 : screenshooter_output :=
    { o with disable_planes := c_sub o.disable_planes 1,
             frame_signal := o.frame_signal.erase l }
  let st1 : screenshooter_state := { st with outputs := Function.update st.outputs output o1 }
  if !pixels_ok then
    { st1 with events := st1.events ++ [screenshooter_event.no_memory l.resource] }
  else
    { st1 with events := st1.events ++ [screenshooter_event.done l.resource] }

/-- The frame signal of `output` is emitted: every listener registered at
    that moment is notified, in order. -/
def screenshooter_emit_frame (st : screenshooter_state) (output : Nat) (pixels_ok : Bool) :
    screenshooter_state :=
  (st.outputs output).frame_signal.foldl
    (fun s l => screenshooter_frame_notify s output l pixels_ok) st

/-- A run of frames, each given by its output and the outcome of the pixel
    allocation. -/
def screenshooter_frames (st : screenshooter_state) (frames : List (Nat × Bool)) :
    screenshooter_state :=
  frames.foldl (fun s f => screenshooter_emit_frame s f.1 f.2) st

/-- One 800x600 output, nothing registered, nothing sent. -/
def idle_screenshooter : screenshooter_state :=
  { outputs := fun _ =>
      { mode_width := 800, mode_height := 600, frame_signal := [], disable_planes := 0,
        repaints := 0 },
    buffers := fun _ => { shm_buffer := none, width := 0, height := 0 },
    events := [] }

/-- Conversion of an `int` to `uint32_t`. -/
def u32_of_int (x : Int) : Nat := (x % 4294967296).toNat

/-- The operator `<<` of C on an `int`. -/
def c_shl (a n : Int) : Int := wrap32 (a * 2 ^ n.toNat)

/-- `__builtin_clz` of a non-zero 32-bit value. -/
def builtin_clz (x : Nat) : Nat := 31 - Nat.log2 x

/-- The word `delta | (b << 24)` that `output_run` stores. -/
def run_word (delta : Nat) (b : Int) : Nat := delta ||| u32_of_int (c_shl b 24)

/-- `output_run`: the words written at `p`, in order. -/
def output_run (delta : Nat) (run : Int) : List Nat :=
  if 0 < run then
    if run ≤ 0xe0 then [run_word delta (c_sub run 1)]
    else
      let i : Int := c_sub 24 (builtin_clz run.toNat)
      run_word delta (c_add i 0xe0) :: output_run delta (c_sub run (c_shl 1 (c_add 7 i)))
  else []
termination_by run.toNat
decreasing_by
  rename_i hr
  by_cases hbig : 2147483648 ≤ run
  · unfold c_sub wrap32
    omega
  · have hL : Nat.log2 run.toNat < 31 := (Nat.log2_lt (by omega)).2 (by omega)
    have hk : (c_add 7 (c_sub 24 (builtin_clz run.toNat))).toNat = Nat.log2 run.toNat := by
      unfold c_add c_sub wrap32 builtin_clz
      omega
    have h1 : 1 ≤ 2 ^ Nat.log2 run.toNat := Nat.one_le_two_pow
    have h2 : 2 ^ Nat.log2 run.toNat ≤ 2 ^ 30 := Nat.pow_le_pow_right (by decide) (by omega)
    have hs : c_shl 1 (c_add 7 (c_sub 24 (builtin_clz run.toNat))) =
        ((2 ^ Nat.log2 run.toNat : Nat) : Int) := by
      unfold c_shl
      rw [hk]
      unfold wrap32
      push_cast
      have h3 : (1 : Int) ≤ 2 ^ Nat.log2 run.toNat := by exact_mod_cast h1
      have h4 : (2 : Int) ^ Nat.log2 run.toNat ≤ 2 ^ 30 := by exact_mod_cast h2
      omega
    show (c_sub run (c_shl 1 (c_add 7 (c_sub 24 (builtin_clz run.toNat))))).toNat < run.toNat
    rw [hs]
    unfold c_sub wrap32
    omega

/-- The run length a top byte stands for in the capture format, as the
    specification gives it: `b + 1` below `0xe0`, `1 << (7 + i)` for
    `0xe0 + i`. -/
def wcap_run_length (b : Nat) : Nat :=
  if b < 0xe0 then b + 1 else 1 <<< (7 + (b - 0xe0))

/-! ## bindings.c: running the bindings -/

/-- A binding (`struct weston_binding`); `handler` names the callback. -/
structure weston_binding where
  key : Nat
  button : Nat
  axis : Nat
  modifier : Nat
  handler : Nat
  deriving DecidableEq, Repr

/-- A call of a binding handler with its arguments. -/
inductive binding_call where
  | key_handler (handler time key : Nat)
  | modifier_handler (handler modifier : Nat)
  | button_handler (handler time button : Nat)
  | axis_handler (handler time axis : Nat) (value : Int)
  deriving DecidableEq, Repr

/-- The binding lists of the compositor, the modifier state of the seat,
    whether the default grab is the active grab of its keyboard, and the
    handler calls made so far. The handlers themselves are outside
    bindings.c; they are recorded, not run. -/
structure binding_state where
  modifier_binding_list : List weston_binding
  key_binding_list : List weston_binding
  button_binding_list : List weston_binding
  axis_binding_list : List weston_binding
  modifier_state : Nat
  default_grab : Bool
  calls : List binding_call
  deriving DecidableEq, Repr

/-- `WL_POINTER_AXIS_VERTICAL_SCROLL` and `MODIFIER_SUPER`. -/
def WL_POINTER_AXIS_VERTICAL_SCROLL : Nat := 0
def MODIFIER_SUPER : Nat := 4

/-- The loop "Invalidate all active modifier bindings": `b->key = v` for
    every modifier binding. -/
def invalidate_modifier_bindings (st : binding_state) (v : Nat) : binding_state :=
  { st with modifier_binding_list :=
      st.modifier_binding_list.map (fun b => { b with key := v % 4294967296 }) }

/-- The loop of `weston_compositor_run_key_binding` over the key bindings;
    `install_binding_grab` makes a binding grab the active grab. -/
def run_key_binding_loop (time key : Nat) :
    List weston_binding → binding_state → binding_state
  | [], st => st
  | b :: bs, st =>
    if b.key = key ∧ b.modifier = st.modifier_state then
      let st1 : binding_state :=
        { st with calls := st.calls ++ [binding_call.key_handler b.handler time key] }
      let st2 : binding_state :=
        if st1.default_grab then { st1 with default_grab := false } else st1
      run_key_binding_loop time key bs st2
    else run_key_binding_loop time key bs st

/-- `weston_compositor_run_key_binding`; `pressed` is
    `state == WL_KEYBOARD_KEY_STATE_PRESSED`. -/
def weston_compositor_run_key_binding (st : binding_state) (time key : Nat)
    (pressed : Bool) : binding_state :=
  if !pressed then st
  else
    let st1 := invalidate_modifier_bindings st key
    run_key_binding_loop time key st1.key_binding_list st1

/-- The loop of `weston_compositor_run_modifier_binding`: the bindings
    already visited (in reverse), the ones still to visit, and the calls;
    the `return` inside the loop leaves the rest untouched. -/
def run_modifier_binding_loop (modifier : Nat) (pressed : Bool) :
    List weston_binding → List weston_binding → List binding_call →
      List weston_binding × List binding_call
  | seen, [], calls => (seen.reverse, calls)
  | seen, b :: bs, calls =>
    if b.modifier ≠ modifier then run_modifier_binding_loop modifier pressed (b :: seen) bs calls
    else if pressed then
      run_modifier_binding_loop modifier pressed ({ b with key := 0 } :: seen) bs calls
    else if b.key ≠ 0 then (seen.reverse ++ b :: bs, calls)
    else
      run_modifier_binding_loop modifier pressed (b :: seen) bs
        (calls ++ [binding_call.modifier_handler b.handler modifier])

/-- `weston_compositor_run_modifier_binding`. -/
def weston_compositor_run_modifier_binding (st : binding_state) (modifier : Nat)
    (pressed : Bool) : binding_state :=
  if !st.default_grab then st
  else
    let r := run_modifier_binding_loop modifier pressed [] st.modifier_binding_list st.calls
    { st with modifier_binding_list := r.1, calls := r.2 }

/-- `weston_compositor_run_button_binding`. -/
def weston_compositor_run_button_binding (st : binding_state) (time button : Nat)
    (pressed : Bool) : binding_state :=
  if !pressed then st
  else
    let st1 := invalidate_modifier_bindings st button
    let hit := st1.button_binding_list.filter
      (fun b => b.button = button ∧ b.modifier = st1.modifier_state)
    { st1 with calls :=
        st1.calls ++ hit.map (fun b => binding_call.button_handler b.handler time button) }

/-- `weston_compositor_run_axis_binding`: the state and the `int` returned. -/
def weston_compositor_run_axis_binding (st : binding_state) (time axis : Nat) (value : Int) :
    binding_state × Int :=
  let st1 := invalidate_modifier_bindings st axis
  match st1.axis_binding_list.find?
      (fun b => b.axis = axis ∧ b.modifier = st1.modifier_state) with
  | some b =>
    ({ st1 with calls := st1.calls ++ [binding_call.axis_handler b.handler time axis value] }, 1)
  | none => (st1, 0)

/-- A compositor with one modifier binding, on the super key, and no other
    binding; the default grab is active. -/
def super_binding_state : binding_state :=
  { modifier_binding_list :=
      [{ key := 0, button := 0, axis := 0, modifier := MODIFIER_SUPER, handler := 1 }],
    key_binding_list := [], button_binding_list := [], axis_binding_list := [],
    modifier_state := 0, default_grab := true, calls := [] }

/-- The overview of the five sample views, laid out, with the first entry
    highlighted by position (row 0, column 0). -/
def five_overview : desktop_shell :=
  { idle_shell with
    views := five_views,
    exposay := (exposay_layout exposay_idle 1000 1000 five_views).1,
    state_cur := exposay_layout_state.EXPOSAY_LAYOUT_OVERVIEW }

end Weston

/-! # Properties -/

namespace Weston

/-! ## Spring integrator -/

/-- The timestamp the guard leaves is at most 1000 ms behind `msec`. -/
theorem spring_guard_bound {α : Type} (s : weston_spring α) (msec : Nat) :
    u32_sub msec (spring_guard s msec).timestamp ≤ 1000 := by
  unfold spring_guard
  split
  · simp only
    unfold u32_sub
    omega
  · omega


section SpringFacts

variable {α : Type} [Add α] [Sub α] [Mul α] [Div α] [LT α]
  [DecidableRel (fun a b : α => a < b)] [OfScientific α]

/-- One tick advances the timestamp by 4 ms. -/
theorem spring_tick_timestamp (s : weston_spring α) :
    (spring_tick s).timestamp = u32_add s.timestamp 4 := by
  unfold spring_tick spring_clip_step
  cases hc : s.clip <;> simp only [hc] <;> (repeat' split) <;> rfl

/-- The loop does nothing once at most 4 ms are left. -/
theorem spring_loop_exit (s : weston_spring α) (msec : Nat)
    (h : ¬ 4 < u32_sub msec s.timestamp) : spring_loop s msec = (s, 0) := by
  rw [spring_loop]
  simp [h]

/-- The loop unfolds by one tick while more than 4 ms are left. -/
theorem spring_loop_unfold (s : weston_spring α) (msec : Nat)
    (h : 4 < u32_sub msec s.timestamp) :
    spring_loop s msec =
      ((spring_loop (spring_tick s) msec).1, (spring_loop (spring_tick s) msec).2 + 1) := by
  rw [spring_loop]
  simp [h]

/-- On exit the loop has left at most 4 ms, after `(d - 1) / 4` ticks for an
    initial distance `d`. -/
theorem spring_loop_spec (msec : Nat) (n : Nat) :
    ∀ s : weston_spring α, u32_sub msec s.timestamp = n →
      u32_sub msec (spring_loop s msec).1.timestamp ≤ 4 ∧
      (spring_loop s msec).2 = (n - 1) / 4 := by
  induction n using Nat.strong_induction_on with
  | _ n ih =>
    intro s hs
    by_cases h : 4 < u32_sub msec s.timestamp
    · rw [spring_loop_unfold s msec h]
      have hlt : u32_sub msec (spring_tick s).timestamp < n := by
        rw [spring_tick_timestamp]
        unfold u32_sub u32_add at *
        omega
      have hd : u32_sub msec (spring_tick s).timestamp = n - 4 := by
        rw [spring_tick_timestamp]
        unfold u32_sub u32_add at *
        omega
      obtain ⟨h1, h2⟩ := ih _ hlt (spring_tick s) rfl
      refine ⟨h1, ?_⟩
      simp only [h2, hd]
      omega
    · rw [spring_loop_exit s msec h]
      refine ⟨by simpa using Nat.le_of_not_lt h, ?_⟩
      simp only
      omega

/-- While the clock has not moved backwards nor wrapped, the loop keeps the
    timestamp between its old value and `msec`. -/
theorem spring_loop_timestamp_mono (msec : Nat) (hm : msec < 4294967296) (n : Nat) :
    ∀ s : weston_spring α, u32_sub msec s.timestamp = n → s.timestamp ≤ msec →
      s.timestamp ≤ (spring_loop s msec).1.timestamp ∧
      (spring_loop s msec).1.timestamp ≤ msec := by
  induction n using Nat.strong_induction_on with
  | _ n ih =>
    intro s hs hle
    by_cases h : 4 < u32_sub msec s.timestamp
    · rw [spring_loop_unfold s msec h]
      have hts : (spring_tick s).timestamp = s.timestamp + 4 := by
        rw [spring_tick_timestamp]
        unfold u32_sub u32_add at *
        omega
      have hlt : u32_sub msec (spring_tick s).timestamp < n := by
        rw [hts]
        unfold u32_sub at *
        omega
      have hle2 : (spring_tick s).timestamp ≤ msec := by
        rw [hts]
        unfold u32_sub at *
        omega
      obtain ⟨h1, h2⟩ := ih _ hlt (spring_tick s) rfl hle2
      simp only
      omega
    · rw [spring_loop_exit s msec h]
      exact ⟨le_refl _, hle⟩

/-- The loop keeps a 32-bit timestamp 32-bit. -/
theorem spring_loop_timestamp_lt (msec : Nat) (n : Nat) :
    ∀ s : weston_spring α, u32_sub msec s.timestamp = n → s.timestamp < 4294967296 →
      (spring_loop s msec).1.timestamp < 4294967296 := by
  induction n using Nat.strong_induction_on with
  | _ n ih =>
    intro s hs hlt32
    by_cases h : 4 < u32_sub msec s.timestamp
    · rw [spring_loop_unfold s msec h]
      have hlt : u32_sub msec (spring_tick s).timestamp < n := by
        rw [spring_tick_timestamp]
        unfold u32_sub u32_add at *
        omega
      have h32 : (spring_tick s).timestamp < 4294967296 := by
        rw [spring_tick_timestamp]
        unfold u32_add
        omega
      exact ih _ hlt (spring_tick s) rfl h32
    · rw [spring_loop_exit s msec h]
      exact hlt32

/-- C6. Updating twice with the same time stamp is the same as updating
    once, and updating with the spring's own time stamp (zero elapsed time)
    changes nothing at all. -/
theorem weston_spring_update_idempotent (s : weston_spring α) (t : Nat) :
    weston_spring_update (weston_spring_update s t) t = weston_spring_update s t ∧
    weston_spring_update s s.timestamp = s := by
  constructor
  · have h := (spring_loop_spec t _ (spring_guard s t) rfl).1
    have hg : spring_guard (weston_spring_update s t) t = weston_spring_update s t := by
      unfold spring_guard
      rw [if_neg]
      unfold weston_spring_update
      omega
    unfold weston_spring_update at *
    rw [hg, spring_loop_exit _ _ (by omega)]
  · have h0 : u32_sub s.timestamp s.timestamp = 0 := by
      unfold u32_sub
      omega
    have hg : spring_guard s s.timestamp = s := by
      unfold spring_guard
      rw [if_neg (by omega)]
    unfold weston_spring_update
    rw [hg, spring_loop_exit _ _ (by omega)]

/-- C9. Whatever the spring and the 32-bit time stamp, one update runs at
    most 249 ticks, each of which advances the time stamp by 4 ms, and on
    return at most 4 ms (modulo 2^32) are left between the spring's time stamp
    and `msec`. -/
theorem weston_spring_update_bounded (s : weston_spring α) (msec : Nat) :
    weston_spring_update_ticks s msec ≤ 249 ∧
    u32_sub msec (weston_spring_update s msec).timestamp ≤ 4 ∧
    (spring_tick s).timestamp = u32_add s.timestamp 4 := by
  have hg := spring_guard_bound s msec
  obtain ⟨h1, h2⟩ := spring_loop_spec msec _ (spring_guard s msec) rfl
  refine ⟨?_, h1, spring_tick_timestamp s⟩
  unfold weston_spring_update_ticks
  rw [h2]
  omega

/-- C10, as amended. When the clock has not moved backwards (the spring's
    time stamp is at most `msec`, both 32-bit), the time stamp after the
    update is at least the time stamp before it, and at most `msec`. -/
theorem weston_spring_update_timestamp_mono (s : weston_spring α) (msec : Nat)
    (hm : msec < 4294967296) (hle : s.timestamp ≤ msec) :
    s.timestamp ≤ (weston_spring_update s msec).timestamp ∧
    (weston_spring_update s msec).timestamp ≤ msec := by
  have hg : s.timestamp ≤ (spring_guard s msec).timestamp ∧
      (spring_guard s msec).timestamp ≤ msec := by
    unfold spring_guard
    split
    · rename_i h
      simp only
      unfold u32_sub at *
      omega
    · exact ⟨le_refl _, hle⟩
  obtain ⟨h1, h2⟩ := spring_loop_timestamp_mono msec hm _ (spring_guard s msec) rfl hg.2
  unfold weston_spring_update
  omega

end SpringFacts

/-- Witness of `weston_spring_update_timestamp_mono`: a spring last updated
    at 5000 ms and updated at 8000 ms. -/
theorem weston_spring_update_timestamp_mono_witness :
    spring_at_5000.timestamp ≤ (weston_spring_update spring_at_5000 8000).timestamp ∧
    (weston_spring_update spring_at_5000 8000).timestamp ≤ 8000 :=
  weston_spring_update_timestamp_mono spring_at_5000 8000 (by decide) (by decide)

/-- After an update at most 4 ms (modulo 2^32) separate the time stamp from
    `msec`. -/
theorem weston_spring_update_gap {α : Type} [Add α] [Sub α] [Mul α] [Div α] [LT α]
    [DecidableRel (fun a b : α => a < b)] [OfScientific α]
    (s : weston_spring α) (msec : Nat) :
    u32_sub msec (weston_spring_update s msec).timestamp ≤ 4 :=
  (spring_loop_spec msec _ (spring_guard s msec) rfl).1

/-- An update keeps a 32-bit time stamp 32-bit. -/
theorem weston_spring_update_timestamp_lt {α : Type} [Add α] [Sub α] [Mul α] [Div α] [LT α]
    [DecidableRel (fun a b : α => a < b)] [OfScientific α]
    (s : weston_spring α) (msec : Nat) (h : s.timestamp < 4294967296) :
    (weston_spring_update s msec).timestamp < 4294967296 := by
  have hg : (spring_guard s msec).timestamp < 4294967296 := by
    unfold spring_guard
    split
    · simp only
      unfold u32_sub
      omega
    · exact h
  exact spring_loop_timestamp_lt msec _ (spring_guard s msec) rfl hg

/-- A 32-bit time stamp at most 4 ms (modulo 2^32) behind 3000 is below
    5000. -/
theorem u32_gap_below (t : Nat) (h1 : u32_sub 3000 t ≤ 4) (h2 : t < 4294967296) :
    t < 5000 := by
  unfold u32_sub at h1
  omega

/-- C10, counterexample. A spring last updated at 5000 ms and then updated
    with `msec = 3000` (the clock moved backwards) ends with a time stamp
    below 5000: the guard moves it to 2000 and the loop stops short of 3000. -/
theorem weston_spring_update_timestamp_decreases :
    (weston_spring_update spring_at_5000 3000).timestamp < spring_at_5000.timestamp :=
  u32_gap_below _ (weston_spring_update_gap spring_at_5000 3000)
    (weston_spring_update_timestamp_lt spring_at_5000 3000 (by decide))

/-- C7, the code at the failing input. In Clamp mode with `min = 1/2`,
    `max = 1`, a spring at `current = 1/2` coming from `previous = 3/4` is at
    `10401/40000` after one tick: below `min`, and not saturated, because the
    lower test compares with `0.0` instead of `min`. -/
theorem spring_clamp_misses_min :
    spring_clamp_half.min ≤ spring_clamp_half.max ∧
    spring_clamp_half.min ≤ spring_clamp_half.current ∧
    spring_clamp_half.current ≤ spring_clamp_half.max ∧
    (spring_tick spring_clamp_half).current = 10401 / 40000 ∧
    (spring_tick spring_clamp_half).current < spring_clamp_half.min ∧
    (spring_tick spring_clamp_half).previous = 1 / 2 := by
  norm_num [spring_tick, spring_clip_step, spring_clamp_half]

/-- C8, counterexample. `weston_spring_done` holds for `spring_done_moving`,
    yet one update 5 ms later moves `current` by more than 0.002. -/
theorem weston_spring_done_not_at_rest :
    weston_spring_done spring_done_moving = true ∧
    0.002 < fabs ((weston_spring_update spring_done_moving 5).current -
                  spring_done_moving.current) := by
  have hg : spring_guard spring_done_moving 5 = spring_done_moving := by
    unfold spring_guard
    rw [if_neg (by decide)]
  have h5 : 4 < u32_sub 5 spring_done_moving.timestamp := by decide
  have h1 : ¬ 4 < u32_sub 5 (spring_tick spring_done_moving).timestamp := by
    rw [spring_tick_timestamp]
    decide
  unfold weston_spring_update
  rw [hg, spring_loop_unfold _ _ h5, spring_loop_exit _ _ h1]
  norm_num [weston_spring_done, fabs, spring_tick, spring_clip_step, spring_done_moving]

/-- A tick of a spring exactly at rest only advances the time stamp. -/
theorem spring_tick_at_rest (s : weston_spring ℚ) (hc : s.current = s.target)
    (hp : s.previous = s.target) (hb : spring_inside_clip s) :
    spring_tick s = { s with timestamp := u32_add s.timestamp 4 } := by
  obtain ⟨k, f, c, p, t, clip, mn, mx, ts⟩ := s
  simp only at hc hp
  subst hc hp
  have hz : (0.0 : ℚ) = 0 := by norm_num
  cases clip
  · simp [spring_tick, spring_clip_step]
  · obtain ⟨h0, h1⟩ := hb
    simp [spring_tick, spring_clip_step, hz, not_lt.mpr h0, not_lt.mpr h1]
  · obtain ⟨h0, h1⟩ := hb
    simp [spring_tick, spring_clip_step, not_lt.mpr h0, not_lt.mpr h1]

/-- The loop leaves the value fields of a spring exactly at rest untouched. -/
theorem spring_loop_at_rest (msec : Nat) (n : Nat) :
    ∀ s : weston_spring ℚ, u32_sub msec s.timestamp = n → s.current = s.target →
      s.previous = s.target → spring_inside_clip s →
      (spring_loop s msec).1.current = s.current ∧
      (spring_loop s msec).1.previous = s.previous := by
  induction n using Nat.strong_induction_on with
  | _ n ih =>
    intro s hs hc hp hb
    by_cases h : 4 < u32_sub msec s.timestamp
    · rw [spring_loop_unfold s msec h]
      have ht := spring_tick_at_rest s hc hp hb
      have hlt : u32_sub msec (spring_tick s).timestamp < n := by
        rw [spring_tick_timestamp]
        unfold u32_sub u32_add at *
        omega
      have := ih _ hlt (spring_tick s) rfl (by rw [ht]; exact hc) (by rw [ht]; exact hp)
        (by rw [ht]; exact hb)
      rw [ht] at this
      rw [ht]
      exact this
    · rw [spring_loop_exit s msec h]
      exact ⟨rfl, rfl⟩

/-- C8, as amended. A spring exactly at rest (`previous = current = target`)
    whose value is inside the bounds its clip policy tests keeps `current`
    and `previous` through every update, whatever `msec`. -/
theorem weston_spring_update_at_rest (s : weston_spring ℚ) (msec : Nat)
    (hc : s.current = s.target) (hp : s.previous = s.target) (hb : spring_inside_clip s) :
    (weston_spring_update s msec).current = s.current ∧
    (weston_spring_update s msec).previous = s.previous := by
  have hg : spring_guard s msec = { s with timestamp := (spring_guard s msec).timestamp } := by
    unfold spring_guard
    split <;> rfl
  unfold weston_spring_update
  rw [hg]
  exact spring_loop_at_rest msec _ _ rfl hc hp hb

/-- Witness of `weston_spring_update_at_rest`: the resting spring, updated at
    600 ms. -/
theorem weston_spring_update_at_rest_witness :
    (weston_spring_update spring_resting 600).current = spring_resting.current ∧
    (weston_spring_update spring_resting 600).previous = spring_resting.previous :=
  weston_spring_update_at_rest spring_resting 600 rfl rfl trivial

/-! ## Evdev fallback dispatch -/

/-- The sum of an axis over a list of events, one event at a time. -/
theorem sum_axis_cons (code : Nat) (e : input_event) (es : List input_event) :
    sum_axis code (e :: es) = (if e.code = code then e.value else 0) + sum_axis code es := by
  unfold sum_axis
  by_cases h : e.code = code <;> simp [List.filter_cons, h]

/-- A flush with nothing pending sends nothing and changes nothing. -/
theorem evdev_flush_none (d : evdev_device) (time : Nat)
    (h : d.pending_event = evdev_event_type.EVDEV_NONE) :
    evdev_flush_pending_event d time = some (d, []) := by
  unfold evdev_flush_pending_event
  simp [h]

/-- One `REL_X` or `REL_Y` event, with nothing or relative motion pending,
    sends nothing and adds its value to the accumulator. -/
theorem fallback_process_rel (d : evdev_device) (e : input_event) (time : Nat)
    (hp : d.pending_event = evdev_event_type.EVDEV_NONE ∨
          d.pending_event = evdev_event_type.EVDEV_RELATIVE_MOTION)
    (ht : e.type = EV_REL) (hc : e.code = REL_X ∨ e.code = REL_Y) :
    ∃ d2, fallback_process d e time = some (d2, []) ∧
      d2.pending_event = evdev_event_type.EVDEV_RELATIVE_MOTION ∧
      d2.rel.dx = (if e.code = REL_X then c_add d.rel.dx (wl_fixed_from_int e.value)
                   else d.rel.dx) ∧
      d2.rel.dy = (if e.code = REL_Y then c_add d.rel.dy (wl_fixed_from_int e.value)
                   else d.rel.dy) := by
  rcases hp with hp | hp <;> rcases hc with hc | hc <;>
    simp [fallback_process, evdev_process_relative, evdev_flush_none, ht, hc, hp,
      REL_X, REL_Y]

/-- A run of `REL_X` / `REL_Y` events sends nothing and accumulates the sums
    of the two axes, wrapped to 32 bits. -/
theorem evdev_process_events_rel (es : List input_event) :
    ∀ d : evdev_device,
      (d.pending_event = evdev_event_type.EVDEV_NONE ∨
        d.pending_event = evdev_event_type.EVDEV_RELATIVE_MOTION) →
      wrap32 d.rel.dx = d.rel.dx → wrap32 d.rel.dy = d.rel.dy →
      (∀ e ∈ es, e.type = EV_REL ∧ (e.code = REL_X ∨ e.code = REL_Y)) →
      ∃ d2, evdev_process_events d es = some (d2, []) ∧
        d2.pending_event =
          (if es = [] then d.pending_event else evdev_event_type.EVDEV_RELATIVE_MOTION) ∧
        d2.rel.dx = wrap32 (d.rel.dx + 256 * sum_axis REL_X es) ∧
        d2.rel.dy = wrap32 (d.rel.dy + 256 * sum_axis REL_Y es) := by
  induction es with
  | nil =>
    intro d _ hx hy _
    exact ⟨d, rfl, by simp, by simp [sum_axis, hx], by simp [sum_axis, hy]⟩
  | cons e rest ih =>
    intro d hp hx hy hall
    have he := hall e (List.mem_cons_self e rest)
    obtain ⟨d1, h1, hp1, hx1, hy1⟩ := fallback_process_rel d e (ev_time e) hp he.1 he.2
    have hwx : wrap32 d1.rel.dx = d1.rel.dx := by
      rw [hx1]
      split
      · unfold c_add wrap32
        omega
      · exact hx
    have hwy : wrap32 d1.rel.dy = d1.rel.dy := by
      rw [hy1]
      split
      · unfold c_add wrap32
        omega
      · exact hy
    obtain ⟨d2, h2, hp2, hx2, hy2⟩ := ih d1 (Or.inr hp1) hwx hwy
      (fun e' he' => hall e' (List.mem_cons_of_mem e he'))
    refine ⟨d2, ?_, ?_, ?_, ?_⟩
    · simp [evdev_process_events, h1, h2]
    · simp only [hp2, hp1]
      simp
    · rw [hx2, hx1, sum_axis_cons]
      generalize sum_axis REL_X rest = S
      split <;> unfold wrap32 <;> (try unfold c_add wl_fixed_from_int wrap32) <;> omega
    · rw [hy2, hy1, sum_axis_cons]
      generalize sum_axis REL_Y rest = S
      split <;> unfold wrap32 <;> (try unfold c_add wl_fixed_from_int wrap32) <;> omega

/-- Processing a concatenation: the second part runs on the device the first
    part left, and the notifications are concatenated. -/
theorem evdev_process_events_append (es fs : List input_event) :
    ∀ (d d1 : evdev_device) (o1 : List seat_notification),
      evdev_process_events d es = some (d1, o1) →
      evdev_process_events d (es ++ fs) =
        match evdev_process_events d1 fs with
        | none => none
        | some (d2, o2) => some (d2, o1 ++ o2) := by
  induction es with
  | nil =>
    intro d d1 o1 h
    simp only [evdev_process_events, Option.some.injEq, Prod.mk.injEq] at h
    obtain ⟨rfl, rfl⟩ := h
    cases hfs : evdev_process_events d fs with
    | none => simp [hfs]
    | some r => simp [hfs]
  | cons e rest ih =>
    intro d d1 o1 h
    simp only [List.cons_append, evdev_process_events] at h ⊢
    cases hf : fallback_process d e (ev_time e) with
    | none => simp [hf] at h
    | some r =>
      obtain ⟨da, oa⟩ := r
      simp only [hf] at h ⊢
      cases hr : evdev_process_events da rest with
      | none => simp [hr] at h
      | some r2 =>
        obtain ⟨db, ob⟩ := r2
        simp only [hr, Option.some.injEq, Prod.mk.injEq] at h
        obtain ⟨rfl, rfl⟩ := h
        have hih := ih da db ob hr
        simp only [List.append_eq] at hih ⊢
        rw [hih]
        cases hfs : evdev_process_events db fs with
        | none => simp
        | some r3 => simp [List.append_assoc]

/-- C1. Starting with nothing pending and an empty accumulator, one or more
    `REL_X` / `REL_Y` events followed by one `EV_SYN` produce exactly one
    `notify_motion`, stamped with the time of the `EV_SYN`, whose `dx` and
    `dy` are the sums of the `REL_X` and of the `REL_Y` values as `wl_fixed_t`;
    afterwards the accumulator is zero again and nothing is pending. -/
theorem relative_motion_coalesced (d : evdev_device) (es : List input_event)
    (syn : input_event)
    (hp : d.pending_event = evdev_event_type.EVDEV_NONE)
    (hdx : d.rel.dx = 0) (hdy : d.rel.dy = 0)
    (hne : es ≠ [])
    (hrel : ∀ e ∈ es, e.type = EV_REL ∧ (e.code = REL_X ∨ e.code = REL_Y))
    (hsyn : syn.type = EV_SYN) :
    ∃ d2, evdev_process_events d (es ++ [syn]) =
        some (d2, [seat_notification.notify_motion (ev_time syn)
                     (wl_fixed_from_int (sum_axis REL_X es))
                     (wl_fixed_from_int (sum_axis REL_Y es))]) ∧
      d2.rel.dx = 0 ∧ d2.rel.dy = 0 ∧
      d2.pending_event = evdev_event_type.EVDEV_NONE := by
  obtain ⟨d1, h1, hp1, hx1, hy1⟩ := evdev_process_events_rel es d (Or.inl hp)
    (by rw [hdx]; rfl) (by rw [hdy]; rfl) hrel
  rw [if_neg hne] at hp1
  rw [evdev_process_events_append es [syn] d d1 [] h1]
  simp only [hdx, hdy, zero_add] at hx1 hy1
  refine ⟨{ d1 with rel := { dx := 0, dy := 0 },
                    pending_event := evdev_event_type.EVDEV_NONE }, ?_, rfl, rfl, rfl⟩
  simp [evdev_process_events, fallback_process, evdev_flush_pending_event, hsyn, hp1, hx1, hy1,
    EV_SYN, EV_REL, EV_ABS, EV_KEY, wl_fixed_from_int, mul_comm]

/-- With `min < max`, both `int32_t`, the scaling of an axis value does not
    divide by zero. -/
theorem scale_axis_some (value min max extent : Int) (hmin : int32_range min)
    (hmax : int32_range max) (hlt : min < max) :
    ∃ p, scale_axis value min max extent = some p := by
  have hne : c_sub max min ≠ 0 := by
    unfold int32_range at hmin hmax
    unfold c_sub wrap32
    omega
  simp [scale_axis, c_div, hne]

/-- The scaling of an axis value, with `min < max`: the C expression
    `(value - min) * extent / (max - min)` in `int` arithmetic. -/
theorem scale_axis_eq (value min max extent : Int) (hmin : int32_range min)
    (hmax : int32_range max) (hlt : min < max) :
    scale_axis value min max extent =
      some (wrap32 (Int.tdiv (c_mul (c_sub value min) extent) (c_sub max min))) := by
  have hne : c_sub max min ≠ 0 := by
    unfold int32_range at hmin hmax
    unfold c_sub wrap32
    omega
  simp [scale_axis, c_div, hne]

/-- Truncating division of an `int` by a positive number stays an `int`. -/
theorem tdiv_int32_range (a b : Int) (ha : int32_range a) (hb : 0 < b) :
    int32_range (Int.tdiv a b) := by
  unfold int32_range at ha ⊢
  by_cases h : 0 ≤ a
  · rw [Int.tdiv_eq_ediv h (le_of_lt hb)]
    have h1 := Int.ediv_nonneg h (le_of_lt hb)
    have h2 := Int.ediv_le_self b h
    omega
  · have hn : 0 ≤ -a := by omega
    have h1 : Int.tdiv a b = -(Int.tdiv (-a) b) := by rw [Int.neg_tdiv, neg_neg]
    rw [h1, Int.tdiv_eq_ediv hn (le_of_lt hb)]
    have h2 := Int.ediv_nonneg hn (le_of_lt hb)
    have h3 := Int.ediv_le_self b hn
    omega

/-- Where no intermediate value leaves the `int` range, the scaled value is
    the quotient `(value - min) * extent / (max - min)`, truncated toward
    zero. -/
theorem scale_axis_exact (value min max extent : Int) (hlt : min < max)
    (hd : int32_range (max - min)) (hv : int32_range (value - min))
    (hp : int32_range ((value - min) * extent)) :
    wrap32 (Int.tdiv (c_mul (c_sub value min) extent) (c_sub max min)) =
      Int.tdiv ((value - min) * extent) (max - min) := by
  have e1 : c_sub value min = value - min := by
    unfold int32_range at hv
    unfold c_sub wrap32
    omega
  have e2 : c_sub max min = max - min := by
    unfold int32_range at hd
    unfold c_sub wrap32
    omega
  have e3 : c_mul (value - min) extent = (value - min) * extent := by
    unfold int32_range at hp
    unfold c_mul wrap32
    omega
  rw [e1, e2, e3]
  have hr := tdiv_int32_range ((value - min) * extent) (max - min) hp (by omega)
  unfold int32_range at hr
  unfold wrap32
  omega

/-- C2. On a multitouch device with nothing pending and `min < max` on both
    axes, the batch [SLOT=s, TRACKING_ID=t, POSITION_X=x, POSITION_Y=y, SYN]
    followed by [SLOT=s, TRACKING_ID=-1, SYN], for a slot `s` of the table
    and `t >= 0`, produces exactly two notifications: a touch-down on slot `s`
    at the position `((x - min_x) * width / (max_x - min_x),
    (y - min_y) * height / (max_y - min_y))` computed in `int` arithmetic,
    in 24.8 fixed point and mapped by the output transform, then a touch-up
    on slot `s`; no motion notification of any kind. Where no intermediate
    value leaves the `int` range the two coordinates are the mathematical
    quotients, truncated toward zero. -/
theorem multitouch_down_up (d : evdev_device) (s t x y : Int) (tv : Nat → Int × Int)
    (hmt : d.is_mt = true)
    (hp : d.pending_event = evdev_event_type.EVDEV_NONE)
    (hminx : int32_range d.abs.min_x) (hmaxx : int32_range d.abs.max_x)
    (hminy : int32_range d.abs.min_y) (hmaxy : int32_range d.abs.max_y)
    (hx : d.abs.min_x < d.abs.max_x) (hy : d.abs.min_y < d.abs.max_y)
    (hs0 : 0 ≤ s) (hs1 : s.toNat < d.mt.slots.length) (ht : 0 ≤ t) :
    (∃ d2,
      evdev_process_events d
        ([abs_event (tv 0) ABS_MT_SLOT s, abs_event (tv 1) ABS_MT_TRACKING_ID t,
          abs_event (tv 2) ABS_MT_POSITION_X x, abs_event (tv 3) ABS_MT_POSITION_Y y,
          syn_event (tv 4)] ++
         [abs_event (tv 5) ABS_MT_SLOT s, abs_event (tv 6) ABS_MT_TRACKING_ID (-1),
          syn_event (tv 7)]) =
        some (d2,
          [seat_notification.notify_touch (ev_time (syn_event (tv 4))) s
             (d.output.transform_coordinate
               (wl_fixed_from_int (wrap32 (Int.tdiv
                 (c_mul (c_sub x d.abs.min_x) d.output.width)
                 (c_sub d.abs.max_x d.abs.min_x))))
               (wl_fixed_from_int (wrap32 (Int.tdiv
                 (c_mul (c_sub y d.abs.min_y) d.output.height)
                 (c_sub d.abs.max_y d.abs.min_y))))).1
             (d.output.transform_coordinate
               (wl_fixed_from_int (wrap32 (Int.tdiv
                 (c_mul (c_sub x d.abs.min_x) d.output.width)
                 (c_sub d.abs.max_x d.abs.min_x))))
               (wl_fixed_from_int (wrap32 (Int.tdiv
                 (c_mul (c_sub y d.abs.min_y) d.output.height)
                 (c_sub d.abs.max_y d.abs.min_y))))).2
             touch_type.WL_TOUCH_DOWN,
           seat_notification.notify_touch (ev_time (syn_event (tv 7))) s 0 0
             touch_type.WL_TOUCH_UP])) ∧
    (int32_range (d.abs.max_x - d.abs.min_x) → int32_range (x - d.abs.min_x) →
      int32_range ((x - d.abs.min_x) * d.output.width) →
      wrap32 (Int.tdiv (c_mul (c_sub x d.abs.min_x) d.output.width)
          (c_sub d.abs.max_x d.abs.min_x)) =
        Int.tdiv ((x - d.abs.min_x) * d.output.width) (d.abs.max_x - d.abs.min_x)) ∧
    (int32_range (d.abs.max_y - d.abs.min_y) → int32_range (y - d.abs.min_y) →
      int32_range ((y - d.abs.min_y) * d.output.height) →
      wrap32 (Int.tdiv (c_mul (c_sub y d.abs.min_y) d.output.height)
          (c_sub d.abs.max_y d.abs.min_y)) =
        Int.tdiv ((y - d.abs.min_y) * d.output.height) (d.abs.max_y - d.abs.min_y)) := by
  have hpx := scale_axis_eq x _ _ d.output.width hminx hmaxx hx
  have hpy := scale_axis_eq y _ _ d.output.height hminy hmaxy hy
  have hget : d.mt.slots.get? s.toNat = some (d.mt.slots.get ⟨s.toNat, hs1⟩) :=
    List.get?_eq_get hs1
  have hneg : ¬ (0 : Int) ≤ -1 := by decide
  refine ⟨?_, scale_axis_exact x _ _ _ hx, scale_axis_exact y _ _ _ hy⟩
  simp [evdev_process_events, fallback_process, evdev_process_absolute, evdev_process_touch,
    evdev_flush_pending_event, mt_slot_set, mt_slot_get, abs_event, syn_event,
    EV_SYN, EV_REL, EV_ABS, EV_KEY, ABS_MT_SLOT, ABS_MT_TRACKING_ID, ABS_MT_POSITION_X,
    ABS_MT_POSITION_Y, hmt, hp, hs0, ht, hpx, hpy, hget, hs1, hneg]

/-- Witness of `relative_motion_coalesced`: [REL_X=3, REL_Y=-2, SYN] sends
    one motion with `dx = 3` and `dy = -2` in 24.8 fixed point (768, -512). -/
theorem relative_motion_coalesced_witness :
    (evdev_process_events sample_touchscreen
        ([rel_event (0, 0) REL_X 3, rel_event (0, 0) REL_Y (-2)] ++ [syn_event (1, 5000)])).map
      Prod.snd = some [seat_notification.notify_motion 1005 768 (-512)] := by
  obtain ⟨d2, h, _⟩ := relative_motion_coalesced sample_touchscreen
    [rel_event (0, 0) REL_X 3, rel_event (0, 0) REL_Y (-2)] (syn_event (1, 5000))
    rfl rfl rfl (by simp) (by decide) rfl
  rw [h]
  simp only [Option.map_some']
  decide

/-- Witness of `multitouch_down_up`: slot 0, tracking id 5, position
    (10, 20) on a touchscreen whose axes run from 2 to 2050 and from 4 to
    1540 on a 1024x768 output: the touch-down is at
    `((10 - 2) * 1024 / 2048, (20 - 4) * 768 / 1536) = (4, 8)`, that is
    (1024, 2048) in 24.8 fixed point. -/
theorem multitouch_down_up_witness :
    (evdev_process_events offset_touchscreen
        ([abs_event (0, 0) ABS_MT_SLOT 0, abs_event (0, 0) ABS_MT_TRACKING_ID 5,
          abs_event (0, 0) ABS_MT_POSITION_X 10, abs_event (0, 0) ABS_MT_POSITION_Y 20,
          syn_event (0, 0)] ++
         [abs_event (0, 0) ABS_MT_SLOT 0, abs_event (0, 0) ABS_MT_TRACKING_ID (-1),
          syn_event (0, 0)])).map Prod.snd =
      some [seat_notification.notify_touch 0 0 1024 2048 touch_type.WL_TOUCH_DOWN,
            seat_notification.notify_touch 0 0 0 0 touch_type.WL_TOUCH_UP] := by
  obtain ⟨d2, h⟩ := (multitouch_down_up offset_touchscreen 0 5 10 20
    (fun _ => (0, 0)) rfl rfl (by decide) (by decide) (by decide) (by decide)
    (by decide) (by decide) (by decide) (by decide) (by decide)).1
  rw [h]
  simp only [Option.map_some']
  decide

/-! ## Text-input bridge -/

/-- Deactivating the active text input `A` returns, having appended to the
    log `leave` to `A` as the only message to a text input, with the input
    method left without model and context and its link in no list. -/
theorem deactivate_active_text_input (st : text_state) (A seat : Nat) (im : input_method)
    (him : (st.seats seat).input_method = some im)
    (hmodel : im.model = some A)
    (hkb : (st.seats seat).keyboard ≠ none ∨ im.context = none ∨
           im.input_method_binding = none) :
    ∃ st1,
      deactivate_text_input st A seat = some st1 ∧
      st1.log.take st.log.length = st.log ∧
      (st1.log.drop st.log.length).filter is_text_input_message =
        [text_event.text_input_leave A] ∧
      (st1.seats seat).input_method = some { im with model := none, context := none } ∧
      (∀ i, seat ∉ (st1.text_inputs i).input_methods) ∧
      (∀ i, (st1.text_inputs i).input_panel_visible = (st.text_inputs i).input_panel_visible) := by
  obtain ⟨binding, model, context, fli⟩ := im
  simp only at hmodel hkb
  subst hmodel
  cases hk : (st.seats seat).keyboard with
  | none =>
    simp only [hk, ne_eq, not_true_eq_false, false_or] at hkb
    rcases hkb with hc | hb
    · subst hc
      simp [deactivate_text_input, him, set_input_method, set_seat, unlink_input_method,
        is_text_input_message]
    · subst hb
      cases context <;>
        simp [deactivate_text_input, him, set_input_method, set_seat, unlink_input_method,
          is_text_input_message]
  | some kb =>
    cases context <;> cases binding <;> by_cases hg : kb.input_method_grab_keyboard = true <;>
      by_cases hgr : kb.grab = keyboard_grab.input_method_grab <;>
      simp [deactivate_text_input, him, hk, hg, hgr, set_input_method, set_seat,
        unlink_input_method, input_method_context_end_keyboard_grab, is_text_input_message]

/-- Launching the helper leaves the death bookkeeping alone. -/
theorem launch_input_method_deaths (tb : text_backend) (l : Option (Nat × Nat)) :
    (launch_input_method tb l).1.deathcount = tb.deathcount ∧
    (launch_input_method tb l).1.deathstamp = tb.deathstamp := by
  unfold launch_input_method
  split
  · exact ⟨rfl, rfl⟩
  · split
    · exact ⟨rfl, rfl⟩
    · split
      · exact ⟨rfl, rfl⟩
      · cases l with
        | none => exact ⟨rfl, rfl⟩
        | some r => exact ⟨rfl, rfl⟩

/-- One death: the window start and the count afterwards, and the outcome. -/
theorem handle_input_method_sigchld_step (tb : text_backend) (t : Nat)
    (l : Option (Nat × Nat)) :
    (handle_input_method_sigchld tb t l).1.deathstamp = death_window_start tb t ∧
    (handle_input_method_sigchld tb t l).1.deathcount =
      u32_add (if 10000 < u32_sub t tb.deathstamp then 0 else tb.deathcount) 1 ∧
    (handle_input_method_sigchld tb t l).2 =
      (if 5 < (handle_input_method_sigchld tb t l).1.deathcount then sigchld_outcome.gave_up
       else sigchld_outcome.respawn) := by
  unfold handle_input_method_sigchld death_window_start
  by_cases hr : 10000 < u32_sub t tb.deathstamp <;>
    by_cases h5 : 5 < u32_add tb.deathcount 1 <;>
    by_cases h6 : 5 < u32_add 0 1 <;>
    simp [hr, h5, h6, launch_input_method_deaths]

/-- A death inside the current window, with `c < 5` deaths counted so far,
    is answered by a respawn and counted. -/
theorem sigchld_in_window (tb : text_backend) (t : Nat) (l : Option (Nat × Nat))
    (hw : u32_sub t tb.deathstamp ≤ 10000) :
    (handle_input_method_sigchld tb t l).1.deathstamp = tb.deathstamp ∧
    (handle_input_method_sigchld tb t l).1.deathcount = u32_add tb.deathcount 1 ∧
    (handle_input_method_sigchld tb t l).2 =
      (if 5 < u32_add tb.deathcount 1 then sigchld_outcome.gave_up
       else sigchld_outcome.respawn) := by
  obtain ⟨h1, h2, h3⟩ := handle_input_method_sigchld_step tb t l
  have hn : ¬ 10000 < u32_sub t tb.deathstamp := by omega
  rw [if_neg hn] at h2
  rw [h2] at h3
  refine ⟨?_, h2, h3⟩
  rw [h1]
  unfold death_window_start
  rw [if_neg hn]

/-- C4, as amended. Six deaths of which the first starts the count (it comes
    more than 10 000 ms after `deathstamp`, or `deathcount` is 0) and the
    other five fall within 10 000 ms of the start of the window then in
    force: `handle_input_method_sigchld` calls `launch_input_method` on
    exactly the first five and gives up on the sixth. -/
theorem respawn_bound_in_window (tb : text_backend) (launched : Nat → Option (Nat × Nat))
    (t1 t2 t3 t4 t5 t6 : Nat)
    (h1 : 10000 < u32_sub t1 tb.deathstamp ∨ tb.deathcount = 0)
    (h2 : u32_sub t2 (death_window_start tb t1) ≤ 10000)
    (h3 : u32_sub t3 (death_window_start tb t1) ≤ 10000)
    (h4 : u32_sub t4 (death_window_start tb t1) ≤ 10000)
    (h5 : u32_sub t5 (death_window_start tb t1) ≤ 10000)
    (h6 : u32_sub t6 (death_window_start tb t1) ≤ 10000) :
    (run_deaths launched tb [t1, t2, t3, t4, t5, t6]).2 =
      [sigchld_outcome.respawn, sigchld_outcome.respawn, sigchld_outcome.respawn,
       sigchld_outcome.respawn, sigchld_outcome.respawn, sigchld_outcome.gave_up] := by
  obtain ⟨a1, a2, a3⟩ := handle_input_method_sigchld_step tb t1 (launched t1)
  have c1 : (handle_input_method_sigchld tb t1 (launched t1)).1.deathcount = 1 := by
    rw [a2]
    rcases h1 with h | h
    · rw [if_pos h]
      rfl
    · rw [h]
      split <;> rfl
  rw [c1] at a3
  rw [← a1] at h2 h3 h4 h5 h6
  obtain ⟨b1, b2, b3⟩ := sigchld_in_window _ t2 (launched t2) h2
  rw [c1] at b2 b3
  rw [← b1] at h3 h4 h5 h6
  obtain ⟨d1, d2, d3⟩ := sigchld_in_window _ t3 (launched t3) h3
  rw [b2] at d2 d3
  rw [← d1] at h4 h5 h6
  obtain ⟨e1, e2, e3⟩ := sigchld_in_window _ t4 (launched t4) h4
  rw [d2] at e2 e3
  rw [← e1] at h5 h6
  obtain ⟨f1, f2, f3⟩ := sigchld_in_window _ t5 (launched t5) h5
  rw [e2] at f2 f3
  rw [← f1] at h6
  obtain ⟨g1, g2, g3⟩ := sigchld_in_window _ t6 (launched t6) h6
  rw [f2] at g3
  simp only [run_deaths]
  rw [a3, b3, d3, e3, f3, g3]
  decide

/-- C4, counterexample. From the start-up state (`deathstamp = 0`), six
    deaths at 9000, 9100, 9200, 10100, 10200 and 10300 ms lie within 1300 ms,
    yet all six are answered by a respawn: the fourth one comes more than
    10 000 ms after `deathstamp` and restarts the count. -/
theorem respawn_six_times_in_one_span :
    (run_deaths (fun _ => some (4712, 2)) fresh_text_backend
        [9000, 9100, 9200, 10100, 10200, 10300]).2 =
      [sigchld_outcome.respawn, sigchld_outcome.respawn, sigchld_outcome.respawn,
       sigchld_outcome.respawn, sigchld_outcome.respawn, sigchld_outcome.respawn] := by
  decide

/-- Witness of `respawn_bound_in_window`: six deaths between 100 and 600 ms
    after start-up. -/
theorem respawn_bound_in_window_witness :
    (run_deaths (fun _ => some (4712, 2)) fresh_text_backend
        [100, 200, 300, 400, 500, 600]).2 =
      [sigchld_outcome.respawn, sigchld_outcome.respawn, sigchld_outcome.respawn,
       sigchld_outcome.respawn, sigchld_outcome.respawn, sigchld_outcome.gave_up] :=
  respawn_bound_in_window fresh_text_backend (fun _ => some (4712, 2)) 100 200 300 400 500 600
    (Or.inr rfl) (by decide) (by decide) (by decide) (by decide) (by decide)

/-! ## Exposay layout -/

/-- C5, the code at the failing input. Five eligible views on a 1000x1000
    output: the grid size is 3, the entries sit in rows 0, 0, 0, 1, 1 and
    columns 0, 1, 2, 0, 1, and the two entries of row 1 start at x = 100
    and x = 393, exactly under columns 0 and 1 of row 0: the shift is applied
    only to row `grid_size - 1 = 2`, which is empty. -/
theorem exposay_layout_five_not_centred :
    (exposay_layout exposay_idle 1000 1000 five_views).1.grid_size = 3 ∧
    (exposay_layout exposay_idle 1000 1000 five_views).1.surface_size = 213 ∧
    (exposay_entries (exposay_layout exposay_idle 1000 1000 five_views).1).map
        (fun e => (e.row, e.column)) = [(0, 0), (0, 1), (0, 2), (1, 0), (1, 1)] ∧
    (exposay_entries (exposay_layout exposay_idle 1000 1000 five_views).1).map
        (fun e => e.x) = [100, 393, 686, 100, 393] := by
  have h5 : Nat.sqrt 5 = 2 := (Nat.eq_sqrt.2 ⟨by decide, by decide⟩).symm
  simp [exposay_layout, exposay_layout_loop, exposay_count_surfaces, exposay_grid_size,
    exposay_make_surface, exposay_animate_in, exposay_highlight_surface, exposay_entries,
    exposay_idle, five_views, square_view, c_add, c_sub, c_mul, c_quot, c_rem, wrap32, h5]
  decide

/-! ## Text-input bridge: deactivation and the keyboard grab -/

/-- What a deactivation of the active text input leaves behind, whenever it
    returns: the input method without model and context, and its link in no
    list. -/
theorem deactivate_text_input_result (st st1 : text_state) (T seat : Nat) (im : input_method)
    (him : (st.seats seat).input_method = some im) (hmodel : im.model = some T)
    (h : deactivate_text_input st T seat = some st1) :
    (st1.seats seat).input_method = some { im with model := none, context := none } ∧
    (∀ i, (st1.text_inputs i).input_methods =
      (st.text_inputs i).input_methods.filter (fun m => m ≠ seat)) := by
  obtain ⟨binding, model, context, fli⟩ := im
  simp only at hmodel
  subst hmodel
  cases hk : (st.seats seat).keyboard with
  | none =>
    cases context <;> cases binding <;>
      simp [deactivate_text_input, him, hk, input_method_context_end_keyboard_grab] at h <;>
      subst h <;>
      simp [set_input_method, set_seat, unlink_input_method]
  | some kb =>
    cases context <;> cases binding <;> by_cases hg : kb.input_method_grab_keyboard = true <;>
      by_cases hgr : kb.grab = keyboard_grab.input_method_grab <;>
      simp [deactivate_text_input, him, hk, hg, hgr,
        input_method_context_end_keyboard_grab] at h <;>
      subst h <;>
      simp [set_input_method, set_seat, unlink_input_method]

/-- A deactivation of a text input that is not the model does nothing. -/
theorem deactivate_text_input_other (st : text_state) (T seat : Nat) (im : input_method)
    (him : (st.seats seat).input_method = some im) (hmodel : im.model ≠ some T) :
    deactivate_text_input st T seat = some st := by
  simp [deactivate_text_input, him, hmodel]

/-- The loop of `destroy_text_input` does nothing when every deactivation it
    calls does nothing. -/
theorem destroy_text_input_loop_noop (T : Nat) (st : text_state) (l : List Nat)
    (h : ∀ m ∈ l, deactivate_text_input st T m = some st) :
    destroy_text_input_loop T l st = some st := by
  induction l with
  | nil => rfl
  | cons m ms ih =>
    simp only [destroy_text_input_loop, h m (List.mem_cons_self m ms)]
    exact ih (fun m2 hm2 => h m2 (List.mem_cons_of_mem m hm2))

/-- C11. Whenever `deactivate_text_input(T, M)` returns, a second call on
    the state it left returns that same state, log of emitted messages
    included, so it emits nothing; the same holds for a second call through
    the explicit request, through a keyboard-focus change (when `T` was the
    model of `M`) and through the destruction of `T` (when `T` is linked to no
    other input method). -/
theorem deactivate_text_input_idempotent (st st1 : text_state) (T seat : Nat)
    (h : deactivate_text_input st T seat = some st1) :
    deactivate_text_input st1 T seat = some st1 ∧
    text_input_deactivate st1 T seat = some st1 ∧
    (∀ focus, seat_model st seat = some T →
      handle_keyboard_focus st1 seat focus = some st1) ∧
    ((∀ m ∈ (st.text_inputs T).input_methods, m = seat) →
      destroy_text_input st1 T = some st1) := by
  cases him : (st.seats seat).input_method with
  | none => simp [deactivate_text_input, him] at h
  | some im =>
    by_cases hmodel : im.model = some T
    · obtain ⟨h1, h2⟩ := deactivate_text_input_result st st1 T seat im him hmodel h
      have hno : deactivate_text_input st1 T seat = some st1 :=
        deactivate_text_input_other st1 T seat _ h1 (by simp)
      refine ⟨hno, hno, ?_, ?_⟩
      · intro focus _
        simp [handle_keyboard_focus, h1]
      · intro hall
        have hnil : (st1.text_inputs T).input_methods = [] := by
          rw [h2 T, List.filter_eq_nil_iff]
          intro m hm
          simp [hall m hm]
        simp [destroy_text_input, hnil, destroy_text_input_loop]
    · have hst : st1 = st := by
        have := deactivate_text_input_other st T seat im him hmodel
        rw [this] at h
        exact (Option.some.inj h).symm
      subst hst
      have hno : deactivate_text_input st1 T seat = some st1 :=
        deactivate_text_input_other st1 T seat im him hmodel
      refine ⟨hno, hno, ?_, ?_⟩
      · intro focus hm
        simp [seat_model, him] at hm
        exact absurd hm hmodel
      · intro hall
        unfold destroy_text_input
        apply destroy_text_input_loop_noop
        intro m hm
        rw [hall m hm]
        exact hno

/-- Witness of `deactivate_text_input_idempotent`: text input 1, active on
    seat 0 of the sample state, is deactivated. -/
theorem deactivate_text_input_idempotent_witness :
    ∃ st1, deactivate_text_input sample_text_state 1 0 = some st1 ∧
      deactivate_text_input st1 1 0 = some st1 ∧
      text_input_deactivate st1 1 0 = some st1 ∧
      (∀ focus, seat_model sample_text_state 0 = some 1 →
        handle_keyboard_focus st1 0 focus = some st1) ∧
      ((∀ m ∈ (sample_text_state.text_inputs 1).input_methods, m = 0) →
        destroy_text_input st1 1 = some st1) := by
  obtain ⟨st1, h, _⟩ := deactivate_active_text_input sample_text_state 1 0
    { input_method_binding := some 7, model := some 1,
      context := some { resource := 9, model := 1, keyboard := none },
      focus_listener_initialized := true } rfl rfl (Or.inl (by simp [sample_text_state]))
  exact ⟨st1, h, deactivate_text_input_idempotent sample_text_state st1 1 0 h⟩

/-- C12. When `T` is the model of `M` but `M` has no binding or no context,
    `deactivate_text_input(T, M)` returns having emitted only the
    hide-input-panel signal and `leave` to `T` (no grab release, no
    `deactivate`), with the keyboard of the seat untouched, `M` out of every
    `input_methods` list and the model and context of `M` NULL. -/
theorem deactivate_text_input_unbound (st : text_state) (T seat : Nat) (im : input_method)
    (him : (st.seats seat).input_method = some im)
    (hmodel : im.model = some T)
    (hnb : im.input_method_binding = none ∨ im.context = none) :
    ∃ st1,
      deactivate_text_input st T seat = some st1 ∧
      st1.log = st.log ++ [text_event.hide_input_panel, text_event.text_input_leave T] ∧
      (st1.seats seat).keyboard = (st.seats seat).keyboard ∧
      (st1.seats seat).input_method = some { im with model := none, context := none } ∧
      seat ∉ (st1.text_inputs T).input_methods := by
  obtain ⟨binding, model, context, fli⟩ := im
  simp only at hmodel hnb
  subst hmodel
  rcases hnb with hb | hc
  · subst hb
    cases context <;>
      simp [deactivate_text_input, him, set_input_method, set_seat, unlink_input_method]
  · subst hc
    simp [deactivate_text_input, him, set_input_method, set_seat, unlink_input_method]

/-- Witness of `deactivate_text_input_unbound`: the sample state after the
    input method of seat 0 lost its binding and context. -/
theorem deactivate_text_input_unbound_witness :
    ∃ st1,
      deactivate_text_input unbound_text_state 1 0 = some st1 ∧
      st1.log = unbound_text_state.log ++
        [text_event.hide_input_panel, text_event.text_input_leave 1] ∧
      (st1.seats 0).keyboard = (unbound_text_state.seats 0).keyboard ∧
      (st1.seats 0).input_method =
        some { input_method_binding := none, model := none, context := none,
               focus_listener_initialized := true } ∧
      0 ∉ (st1.text_inputs 1).input_methods :=
  deactivate_text_input_unbound unbound_text_state 1 0
    { input_method_binding := none, model := some 1, context := none,
      focus_listener_initialized := true }
    (by simp [unbound_text_state, set_input_method, set_seat]) rfl (Or.inl rfl)

/-- C14. Whatever grab is active on the keyboard of the seat,
    `input_method_context_grab_keyboard` returns with the input-method grab
    active and the new `wl_keyboard` resource stored in
    `input_method_resource`; `input_method_context_end_keyboard_grab` on that
    state returns with the default grab active and `input_method_resource`
    NULL. -/
theorem keyboard_grab_round_trip (st : text_state) (seat ctx cr : Nat) (kb : weston_keyboard)
    (hk : (st.seats seat).keyboard = some kb) :
    ∃ st1 kb1,
      input_method_context_grab_keyboard st seat ctx cr = some st1 ∧
      (st1.seats seat).keyboard = some kb1 ∧
      kb1.grab = keyboard_grab.input_method_grab ∧
      kb1.input_method_resource = some cr ∧
      ∃ st2 kb2,
        input_method_context_end_keyboard_grab st1 seat = some st2 ∧
        (st2.seats seat).keyboard = some kb2 ∧
        kb2.grab = keyboard_grab.default_grab ∧
        kb2.input_method_resource = none := by
  by_cases hd : kb.grab = keyboard_grab.default_grab <;>
    simp [input_method_context_grab_keyboard, input_method_context_end_keyboard_grab, hk, hd,
      set_seat, weston_keyboard_start_grab, weston_keyboard_end_grab]

/-- Witness of `keyboard_grab_round_trip`: the keyboard of seat 0 of the
    sample state, grabbed through context 9 with the new resource 11. -/
theorem keyboard_grab_round_trip_witness :
    ∃ st1 kb1,
      input_method_context_grab_keyboard sample_text_state 0 9 11 = some st1 ∧
      (st1.seats 0).keyboard = some kb1 ∧
      kb1.grab = keyboard_grab.input_method_grab ∧
      kb1.input_method_resource = some 11 ∧
      ∃ st2 kb2,
        input_method_context_end_keyboard_grab st1 0 = some st2 ∧
        (st2.seats 0).keyboard = some kb2 ∧
        kb2.grab = keyboard_grab.default_grab ∧
        kb2.input_method_resource = none :=
  keyboard_grab_round_trip sample_text_state 0 9 11
    { grab := keyboard_grab.default_grab, input_method_grab_keyboard := false,
      input_method_grab_interface_set := true, focus_listener_added := true,
      input_method_resource := none, focus := some 3 } rfl

/-- Under the invariant, a deactivation of the model that returns leaves the
    input method without model and context and the input-method grab not
    active. -/
theorem deactivate_text_input_clears (st st1 : text_state) (T seat : Nat) (im : input_method)
    (hinv : bridge_inv st seat)
    (him : (st.seats seat).input_method = some im) (hmodel : im.model = some T)
    (h : deactivate_text_input st T seat = some st1) :
    (st1.seats seat).input_method = some { im with model := none, context := none } ∧
    input_method_grab_active st1 seat = false := by
  obtain ⟨im0, him0, hctx, hkb⟩ := hinv
  rw [him] at him0
  obtain rfl := Option.some.inj him0
  obtain ⟨binding, model, context, fli⟩ := im
  simp only at hmodel hctx hkb
  subst hmodel
  cases hk : (st.seats seat).keyboard with
  | none =>
    cases context <;> cases binding <;>
      simp [deactivate_text_input, him, hk, input_method_context_end_keyboard_grab] at h <;>
      subst h <;>
      simp [set_input_method, set_seat, unlink_input_method, input_method_grab_active, hk]
  | some kb =>
    have hkb2 := hkb kb hk
    cases context <;> cases binding <;> by_cases hg : kb.input_method_grab_keyboard = true <;>
      by_cases hgr : kb.grab = keyboard_grab.input_method_grab <;>
      simp [hg, hgr] at hkb2 hctx <;>
      simp [deactivate_text_input, him, hk, hg, hgr,
        input_method_context_end_keyboard_grab] at h <;>
      subst h <;>
      simp [set_input_method, set_seat, unlink_input_method, input_method_grab_active, hk,
        hg, hgr, weston_keyboard_end_grab]

/-- An input method without context on a seat whose input-method grab is not
    active satisfies the invariant. -/
theorem bridge_inv_of_clear (st : text_state) (seat : Nat) (im : input_method)
    (him : (st.seats seat).input_method = some im) (hc : im.context = none)
    (hg : input_method_grab_active st seat = false) : bridge_inv st seat := by
  refine ⟨im, him, ?_, ?_⟩
  · intro h
    exact absurd hc h
  · intro kb hk hgr
    simp [input_method_grab_active, hk, hgr] at hg

/-- Under the invariant, an input method without model has no context and
    the input-method grab is not active. -/
theorem bridge_inv_no_model (st : text_state) (seat : Nat) (im : input_method)
    (hinv : bridge_inv st seat)
    (him : (st.seats seat).input_method = some im) (hm : im.model = none) :
    im.context = none ∧ input_method_grab_active st seat = false := by
  obtain ⟨im0, him0, hctx, hkb⟩ := hinv
  rw [him] at him0
  obtain rfl := Option.some.inj him0
  have hc : im.context = none := by
    by_contra hne
    exact (hctx hne).1 hm
  refine ⟨hc, ?_⟩
  cases hk : (st.seats seat).keyboard with
  | none => simp [input_method_grab_active, hk]
  | some kb =>
    by_cases hgr : kb.grab = keyboard_grab.input_method_grab
    · exact absurd hc (hkb kb hk hgr).2
    · simp [input_method_grab_active, hk, hgr]

/-- A deactivation that returns preserves the invariant. -/
theorem deactivate_text_input_inv (st st1 : text_state) (T seat : Nat)
    (hinv : bridge_inv st seat) (h : deactivate_text_input st T seat = some st1) :
    bridge_inv st1 seat := by
  obtain ⟨im, him, _, _⟩ := id hinv
  by_cases hmodel : im.model = some T
  · obtain ⟨h1, h2⟩ := deactivate_text_input_clears st st1 T seat im hinv him hmodel h
    exact bridge_inv_of_clear st1 seat _ h1 rfl h2
  · rw [deactivate_text_input_other st T seat im him hmodel] at h
    obtain rfl := Option.some.inj h
    exact hinv

/-- The part of `text_input_activate` after the old model was deactivated,
    run on a seat whose input method has no model: it establishes the
    invariant. -/
theorem text_input_activate_inv (st st1 : text_state) (ti seat surface : Nat)
    (alloc : Option Nat) (hinv : bridge_inv st seat)
    (h : text_input_activate st ti seat surface alloc = some st1) :
    bridge_inv st1 seat := by
  obtain ⟨im, him, _, _⟩ := id hinv
  by_cases hsame : im.model = some ti
  · simp [text_input_activate, him, hsame] at h
    subst h
    exact hinv
  · -- the state after the old model, if any, was deactivated
    have hclear : ∃ sta ima, (match im.model with
          | some o => deactivate_text_input st o seat
          | none => some st) = some sta ∧
        (sta.seats seat).input_method = some ima ∧ ima.model = none ∧ ima.context = none ∧
        ima.input_method_binding = im.input_method_binding ∧
        input_method_grab_active sta seat = false := by
      cases hm : im.model with
      | none =>
        obtain ⟨hc, hg⟩ := bridge_inv_no_model st seat im hinv him hm
        exact ⟨st, im, rfl, him, hm, hc, rfl, hg⟩
      | some o =>
        have hne : ¬ o = ti := fun e => hsame (by rw [hm, e])
        cases hd : deactivate_text_input st o seat with
        | none => simp [text_input_activate, him, hm, hne, hd] at h
        | some sta =>
          obtain ⟨h1, h2⟩ := deactivate_text_input_clears st sta o seat im hinv him hm hd
          exact ⟨sta, _, hd, h1, rfl, rfl, rfl, h2⟩
    obtain ⟨sta, ima, hd, hima, hmn, hcn, hb, hg⟩ := hclear
    obtain ⟨binding, model, context, fli⟩ := ima
    simp only at hmn hcn hb
    subst hmn hcn
    simp only [text_input_activate, him, hsame, if_false] at h
    rw [hd] at h
    cases hk : (sta.seats seat).keyboard with
    | none =>
      cases binding <;> cases alloc <;> cases fli <;>
        simp [hima, hk, set_input_method, set_seat, set_text_input, input_method_init_seat,
          input_method_context_create, Function.update] at h <;>
        subst h <;>
        simp [bridge_inv, Function.update, hk]
    | some kb =>
      have hgr : kb.grab ≠ keyboard_grab.input_method_grab := by
        intro hgr
        simp [input_method_grab_active, hk, hgr] at hg
      cases binding <;> cases alloc <;> cases fli <;>
        simp [hima, hk, set_input_method, set_seat, set_text_input, input_method_init_seat,
          input_method_context_create, Function.update] at h <;>
        subst h <;>
        simp [bridge_inv, Function.update, hk, hgr]

/-- Grabbing the keyboard through the context the input method holds
    preserves the invariant. -/
theorem grab_keyboard_inv (st st1 : text_state) (seat ctx cr : Nat)
    (hinv : bridge_inv st seat)
    (hlive : bridge_op_live st seat (bridge_op.grab_keyboard ctx cr))
    (h : input_method_context_grab_keyboard st seat ctx cr = some st1) :
    bridge_inv st1 seat := by
  obtain ⟨im, him, hctx, _⟩ := hinv
  obtain ⟨im2, c, him2, hc, hres⟩ := hlive
  rw [him] at him2
  obtain rfl := Option.some.inj him2
  obtain ⟨binding, model, context, fli⟩ := im
  simp only at hc hctx
  subst hc
  simp only [ne_eq, not_false_eq_true, true_implies, reduceCtorEq] at hctx
  cases hk : (st.seats seat).keyboard with
  | none => simp [input_method_context_grab_keyboard, hk] at h
  | some kb =>
    simp [input_method_context_grab_keyboard, hk, him, hres, set_seat] at h
    subst h
    simp [bridge_inv, Function.update, weston_keyboard_start_grab, hctx]

/-- The destruction of the `wl_keyboard` resource of a context preserves
    the invariant. -/
theorem unbind_keyboard_inv (st st1 : text_state) (seat ctx : Nat)
    (hinv : bridge_inv st seat) (h : unbind_keyboard st seat ctx = some st1) :
    bridge_inv st1 seat := by
  obtain ⟨im, him, hctx, hkb⟩ := hinv
  obtain ⟨binding, model, context, fli⟩ := im
  simp only at hctx hkb
  cases hk : (st.seats seat).keyboard with
  | none => simp [unbind_keyboard, input_method_context_end_keyboard_grab, hk] at h
  | some kb =>
    have hkb2 := hkb kb hk
    cases context with
    | none =>
      by_cases hg : kb.input_method_grab_keyboard = true <;>
        by_cases hgr : kb.grab = keyboard_grab.input_method_grab <;>
        simp [hg, hgr] at hkb2 <;>
        simp [unbind_keyboard, input_method_context_end_keyboard_grab, hk, him, hg, hgr,
          set_seat, Function.update] at h <;>
        subst h <;>
        simp [bridge_inv, Function.update, weston_keyboard_end_grab, hk, him, hgr]
    | some c =>
      simp only [ne_eq, not_false_eq_true, true_implies, reduceCtorEq] at hctx
      by_cases hres : c.resource = ctx <;>
        by_cases hg : kb.input_method_grab_keyboard = true <;>
        by_cases hgr : kb.grab = keyboard_grab.input_method_grab <;>
        simp [hg, hgr] at hkb2 <;>
        simp [unbind_keyboard, input_method_context_end_keyboard_grab, hk, him, hg, hgr,
          hres, set_seat, Function.update] at h <;>
        subst h <;>
        simp [bridge_inv, Function.update, weston_keyboard_end_grab, hk, him, hgr, hctx]

/-- A keyboard-focus change preserves the invariant. -/
theorem keyboard_focus_inv (st st1 : text_state) (seat : Nat) (focus : Option Nat)
    (hinv : bridge_inv st seat)
    (h : bridge_step st seat (bridge_op.keyboard_focus focus) = some st1) :
    bridge_inv st1 seat := by
  obtain ⟨im, him, hctx, hkb⟩ := hinv
  have hinv2 : bridge_inv
      (set_seat st seat
        { input_method := (st.seats seat).input_method,
          keyboard := (st.seats seat).keyboard.map (fun k => { k with focus := focus }) })
      seat := by
    refine ⟨im, by simp [set_seat, him], hctx, ?_⟩
    intro kb hk hgr
    cases hk0 : (st.seats seat).keyboard with
    | none => simp [set_seat, hk0] at hk
    | some kb0 =>
      simp [set_seat, hk0] at hk
      subst hk
      exact hkb kb0 hk0 hgr
  have him2 : ((set_seat st seat
        { input_method := (st.seats seat).input_method,
          keyboard := (st.seats seat).keyboard.map (fun k => { k with focus := focus }) }).seats
        seat).input_method = some im := by
    simp [set_seat, him]
  simp only [bridge_step] at h
  generalize set_seat st seat
      { input_method := (st.seats seat).input_method,
        keyboard := (st.seats seat).keyboard.map (fun k => { k with focus := focus }) } = st2
    at h hinv2 him2
  unfold handle_keyboard_focus at h
  rw [him2] at h
  cases hm : im.model with
  | none =>
    simp only [hm] at h
    obtain rfl := Option.some.inj h
    exact hinv2
  | some m =>
    simp only [hm] at h
    split at h
    · exact deactivate_text_input_inv st2 st1 m seat hinv2 h
    · obtain rfl := Option.some.inj h
      exact hinv2

/-- Every request of `bridge_op_live` that returns preserves the invariant. -/
theorem bridge_step_inv (st st1 : text_state) (seat : Nat) (op : bridge_op)
    (hinv : bridge_inv st seat) (hop : bridge_op_live st seat op)
    (hs : bridge_step st seat op = some st1) : bridge_inv st1 seat := by
  cases op with
  | activate ti surface alloc => exact text_input_activate_inv st st1 ti seat surface alloc hinv hs
  | deactivate ti => exact deactivate_text_input_inv st st1 ti seat hinv hs
  | grab_keyboard ctx cr => exact grab_keyboard_inv st st1 seat ctx cr hinv hop hs
  | unbind_keyboard ctx => exact unbind_keyboard_inv st st1 seat ctx hinv hs
  | unbind_input_method => exact absurd hop (by simp [bridge_op_live])
  | keyboard_focus focus => exact keyboard_focus_inv st st1 seat focus hinv hs

/-- The invariant holds in every reachable state. -/
theorem bridge_reachable_inv (seat : Nat) (st : text_state) (h : bridge_reachable seat st) :
    bridge_inv st seat := by
  induction h with
  | idle st hidle =>
    obtain ⟨⟨im, him, _, hc⟩, hg⟩ := hidle
    exact bridge_inv_of_clear st seat im him hc hg
  | step st st1 op _ hop hs ih => exact bridge_step_inv st st1 seat op ih hop hs

/-- C13, as amended. In every state reachable from an idle seat through
    activate, deactivate, grab_keyboard on the context the input method
    holds, keyboard unbind and keyboard-focus change, an active input-method
    grab implies a non-NULL model. -/
theorem grab_active_implies_model (seat : Nat) (st : text_state)
    (h : bridge_reachable seat st) (hg : input_method_grab_active st seat = true) :
    seat_model st seat ≠ none := by
  obtain ⟨im, him, hctx, hkb⟩ := bridge_reachable_inv seat st h
  cases hk : (st.seats seat).keyboard with
  | none => simp [input_method_grab_active, hk] at hg
  | some kb =>
    simp [input_method_grab_active, hk] at hg
    have hm := (hctx (hkb kb hk hg).2).1
    simpa [seat_model, him] using hm

/-- C13, counterexample. From the idle seat 0 the invariant fails in both
    directions. Activating text input 1 leaves the model non-NULL while the
    active grab is still the default grab. After activate, grab_keyboard and
    the unbinding of the input method, the deactivation of text input 1
    clears the model and leaves the input-method grab active (without
    binding and context no grab is ended). After activate and deactivate, a
    grab_keyboard through the context 10 that the input method no longer
    holds makes the input-method grab active with no model. -/
theorem model_grab_invariant_fails :
    bridge_idle idle_text_state 0 ∧
    (bridge_run 0 idle_text_state [bridge_op.activate 1 5 (some 10)]).map
      (fun st => (seat_model st 0, input_method_grab_active st 0)) = some (some 1, false) ∧
    (bridge_run 0 idle_text_state
      [bridge_op.activate 1 5 (some 10), bridge_op.grab_keyboard 10 11,
       bridge_op.unbind_input_method, bridge_op.deactivate 1]).map
      (fun st => (seat_model st 0, input_method_grab_active st 0)) = some (none, true) ∧
    (bridge_run 0 idle_text_state
      [bridge_op.activate 1 5 (some 10), bridge_op.deactivate 1,
       bridge_op.grab_keyboard 10 11]).map
      (fun st => (seat_model st 0, input_method_grab_active st 0)) = some (none, true) :=
  ⟨⟨⟨_, rfl, rfl, rfl⟩, rfl⟩, by decide, by decide, by decide⟩

/-- Witness of `grab_active_implies_model`: the idle sample seat after an
    activation followed by a keyboard grab through the new context. -/
theorem grab_active_implies_model_witness :
    input_method_grab_active grabbed_text_state 0 = true ∧
    seat_model grabbed_text_state 0 ≠ none :=
  ⟨by decide,
   grab_active_implies_model 0 grabbed_text_state
     (bridge_reachable.step activated_text_state grabbed_text_state
       (bridge_op.grab_keyboard 10 11)
       (bridge_reachable.step idle_text_state activated_text_state
         (bridge_op.activate 1 5 (some 10))
         (bridge_reachable.idle idle_text_state ⟨⟨_, rfl, rfl, rfl⟩, rfl⟩)
         trivial rfl)
       ⟨_, _, rfl, rfl, rfl⟩ rfl)
     (by decide)⟩

/-! ## Evdev: flush, keys and device classification -/

/-- C15, counterexample. A device classified as a keyboard only (neither
    pointer nor touch) with an absolute motion pending: the flush clears the
    pending event and sends no notification at all. -/
theorem flush_absolute_motion_without_capability :
    keyboard_with_axes.pending_event ≠ evdev_event_type.EVDEV_NONE ∧
    (evdev_flush_pending_event keyboard_with_axes 0).map
      (fun r => (r.1.pending_event, r.2)) = some (evdev_event_type.EVDEV_NONE, []) := by
  decide

/-- C15, as amended. With nothing pending the flush sends nothing and
    changes nothing; with an event pending, other than an absolute motion on
    a device that is neither touch nor pointer, and with `mt.slot` inside the
    slot table when a multitouch down or motion is pending, the flush sends
    exactly one notification and leaves nothing pending. -/
theorem evdev_flush_one_notification (d : evdev_device) (time : Nat) :
    (d.pending_event = evdev_event_type.EVDEV_NONE →
      evdev_flush_pending_event d time = some (d, [])) ∧
    (d.pending_event ≠ evdev_event_type.EVDEV_NONE →
      (d.pending_event = evdev_event_type.EVDEV_ABSOLUTE_MOTION →
        d.seat_caps.touch = true ∨ d.seat_caps.pointer = true) →
      (d.pending_event = evdev_event_type.EVDEV_ABSOLUTE_MT_DOWN ∨
        d.pending_event = evdev_event_type.EVDEV_ABSOLUTE_MT_MOTION →
        mt_slot_get d.mt d.mt.slot ≠ none) →
      ∃ d2 n, evdev_flush_pending_event d time = some (d2, [n]) ∧
        d2.pending_event = evdev_event_type.EVDEV_NONE) := by
  refine ⟨evdev_flush_none d time, ?_⟩
  intro hp hcap hslot
  cases hpe : d.pending_event with
  | EVDEV_NONE => exact absurd hpe hp
  | EVDEV_ABSOLUTE_TOUCH_DOWN => simp [evdev_flush_pending_event, hpe]
  | EVDEV_ABSOLUTE_MOTION =>
    rcases hcap hpe with ht | hptr
    · simp [evdev_flush_pending_event, hpe, ht]
    · by_cases ht : d.seat_caps.touch = true <;>
        simp [evdev_flush_pending_event, hpe, ht, hptr]
  | EVDEV_ABSOLUTE_TOUCH_UP => simp [evdev_flush_pending_event, hpe]
  | EVDEV_ABSOLUTE_MT_DOWN =>
    have hs := hslot (Or.inl hpe)
    cases hg : mt_slot_get d.mt d.mt.slot with
    | none => exact absurd hg hs
    | some v => simp [evdev_flush_pending_event, hpe, hg]
  | EVDEV_ABSOLUTE_MT_MOTION =>
    have hs := hslot (Or.inr hpe)
    cases hg : mt_slot_get d.mt d.mt.slot with
    | none => exact absurd hg hs
    | some v => simp [evdev_flush_pending_event, hpe, hg]
  | EVDEV_ABSOLUTE_MT_UP => simp [evdev_flush_pending_event, hpe]
  | EVDEV_RELATIVE_MOTION => simp [evdev_flush_pending_event, hpe]

/-- Witness of `evdev_flush_one_notification`: the flush of a pending
    relative motion. -/
theorem evdev_flush_one_notification_witness :
    ∃ d2 n, evdev_flush_pending_event moving_mouse 7 = some (d2, [n]) ∧
      d2.pending_event = evdev_event_type.EVDEV_NONE :=
  (evdev_flush_one_notification moving_mouse 7).2 (by decide) (by decide) (by decide)

/-- C16. For an `EV_KEY` event: with value 2 the fallback dispatch sends
    nothing and leaves the device as it is; otherwise, for one of the eight
    pointer-button codes it flushes the pending event and then sends exactly
    one button notification, pressed iff the value is not 0, and for every
    other code except `BTN_TOUCH` it sends, after the same flush, exactly one
    key notification instead. -/
theorem evdev_key_event (d : evdev_device) (e : input_event) (time : Nat)
    (ht : e.type = EV_KEY) :
    (e.value = 2 → fallback_process d e time = some (d, [])) ∧
    (e.value ≠ 2 →
      (e.code = BTN_LEFT ∨ e.code = BTN_RIGHT ∨ e.code = BTN_MIDDLE ∨ e.code = BTN_SIDE ∨
        e.code = BTN_EXTRA ∨ e.code = BTN_FORWARD ∨ e.code = BTN_BACK ∨ e.code = BTN_TASK) →
      fallback_process d e time =
        (evdev_flush_pending_event d time).map (fun r =>
          (r.1, r.2 ++ [seat_notification.notify_button time e.code (decide (e.value ≠ 0))]))) ∧
    (e.value ≠ 2 → e.code ≠ BTN_TOUCH →
      ¬ (e.code = BTN_LEFT ∨ e.code = BTN_RIGHT ∨ e.code = BTN_MIDDLE ∨ e.code = BTN_SIDE ∨
        e.code = BTN_EXTRA ∨ e.code = BTN_FORWARD ∨ e.code = BTN_BACK ∨ e.code = BTN_TASK) →
      fallback_process d e time =
        (evdev_flush_pending_event d time).map (fun r =>
          (r.1, r.2 ++ [seat_notification.notify_key time e.code (decide (e.value ≠ 0))]))) := by
  have hfp : fallback_process d e time = evdev_process_key d e time := by
    simp [fallback_process, ht, EV_KEY, EV_REL, EV_ABS]
  refine ⟨?_, ?_, ?_⟩
  · intro hv
    simp [hfp, evdev_process_key, hv]
  · intro hv hb
    have hnt : e.code ≠ BTN_TOUCH := by
      rcases hb with h | h | h | h | h | h | h | h <;> rw [h] <;> decide
    have hpb : is_pointer_button e.code = true := by
      rcases hb with h | h | h | h | h | h | h | h <;> rw [h] <;> decide
    rw [hfp]
    unfold evdev_process_key
    rw [if_neg hv, if_neg hnt]
    cases evdev_flush_pending_event d time with
    | none => rfl
    | some r => simp [hpb]
  · intro hv hnt hb
    have hpb : is_pointer_button e.code = false := by
      simp only [not_or] at hb
      simp [is_pointer_button, hb]
    rw [hfp]
    unfold evdev_process_key
    rw [if_neg hv, if_neg hnt]
    cases evdev_flush_pending_event d time with
    | none => rfl
    | some r => simp [hpb]

/-- Witness of `evdev_key_event`: a press of the left button while a
    relative motion is pending sends the motion, then the button. -/
theorem evdev_key_event_witness :
    (fallback_process moving_mouse left_button_press 2000).map Prod.snd =
      some [seat_notification.notify_motion 2000 768 (-512),
            seat_notification.notify_button 2000 BTN_LEFT true] := by
  rw [(evdev_key_event moving_mouse left_button_press 2000 rfl).2.1 (by decide)
    (Or.inl rfl)]
  decide

/-- The key-bit loop finds a bit iff one is set in its range and not
    skipped. -/
theorem any_key_bit_iff (hw : evdev_hw) (start stop : Nat) (skip : Nat → Bool) :
    any_key_bit hw start stop skip = true ↔
      ∃ i, start ≤ i ∧ i < stop ∧ skip i = false ∧ hw.key_bits i = true := by
  unfold any_key_bit
  simp only [List.any_eq_true, List.mem_range', Bool.and_eq_true, Bool.not_eq_true']
  constructor
  · rintro ⟨i, ⟨k, hk, rfl⟩, hs, hb⟩
    exact ⟨start + 1 * k, by omega, by omega, hs, hb⟩
  · rintro ⟨i, h1, h2, hs, hb⟩
    exact ⟨i, ⟨i - start, by omega, by omega⟩, hs, hb⟩

/-- The `EV_ABS` block, when mtdev can be opened if it is needed: it does
    not touch the capabilities, `has_abs` is "ABS_X or ABS_Y" and `has_mt` is
    "both multitouch positions". -/
theorem configure_abs_ok (d : evdev_device) (hw : evdev_hw)
    (hmt : hw.abs_bits ABS_MT_POSITION_X = true → hw.abs_bits ABS_MT_POSITION_Y = true →
      hw.abs_bits ABS_MT_SLOT = false → hw.mtdev_slot ≠ none) :
    ∃ d1 o, configure_abs d hw =
        Except.ok (d1, hw.abs_bits ABS_X || hw.abs_bits ABS_Y,
          hw.abs_bits ABS_MT_POSITION_X && hw.abs_bits ABS_MT_POSITION_Y, o) ∧
      d1.seat_caps = d.seat_caps := by
  cases hX : hw.abs_bits ABS_X <;> cases hY : hw.abs_bits ABS_Y <;>
    cases hMX : hw.abs_bits ABS_MT_POSITION_X <;>
    cases hMY : hw.abs_bits ABS_MT_POSITION_Y <;>
    cases hMS : hw.abs_bits ABS_MT_SLOT <;>
    cases hM : hw.mtdev_slot <;>
    simp [hMX, hMY, hMS, hM] at hmt <;>
    simp [configure_abs, hX, hY, hMX, hMY, hMS, hM]

/-- The capabilities `assign_caps` gives a device that had none, when it
    returns 0. -/
theorem assign_caps_ok (d1 : evdev_device) (a r b k t i o p : Bool)
    (hd : d1.seat_caps = { pointer := false, keyboard := false, touch := false })
    (hret : (assign_caps d1 a r b k t i o p).ret = 0) :
    (assign_caps d1 a r b k t i o p).device.seat_caps =
      { pointer := (a || r) && b, keyboard := k, touch := t && !b } := by
  cases a <;> cases r <;> cases b <;> cases k <;> cases t <;> cases i <;>
    simp [assign_caps, hd] at hret ⊢

/-- When mtdev can be opened if it is needed, `evdev_configure_device` on a
    fresh device reaches the assignment of the capabilities with
    `has_abs` = "EV_ABS and (ABS_X or ABS_Y)" and `has_mt` = "EV_ABS and both
    multitouch positions". -/
theorem evdev_configure_device_reaches_caps (output : weston_output) (slots : Nat)
    (hw : evdev_hw) (hmt : needs_mtdev hw → hw.mtdev_slot ≠ none) :
    ∃ d1 o, evdev_configure_device (evdev_device_zalloc output slots) hw =
        configure_caps d1
          (hw.ev_bits EV_ABS && (hw.abs_bits ABS_X || hw.abs_bits ABS_Y))
          (hw.ev_bits EV_ABS &&
            (hw.abs_bits ABS_MT_POSITION_X && hw.abs_bits ABS_MT_POSITION_Y)) o hw ∧
      d1.seat_caps = { pointer := false, keyboard := false, touch := false } := by
  cases hA : hw.ev_bits EV_ABS with
  | false =>
    exact ⟨evdev_device_zalloc output slots, false, by simp [evdev_configure_device, hA], rfl⟩
  | true =>
    obtain ⟨d1, o, hc, hcaps⟩ := configure_abs_ok (evdev_device_zalloc output slots) hw
      (fun h1 h2 h3 => hmt ⟨hA, h1, h2, h3⟩)
    refine ⟨d1, o, ?_, by rw [hcaps]; rfl⟩
    simp [evdev_configure_device, hA, hc]

/-- When mtdev can be opened if needed and `weston_seat_init_keyboard`
    succeeds, `evdev_configure_device` returns 0. -/
theorem evdev_configure_device_ret (output : weston_output) (slots : Nat) (hw : evdev_hw)
    (hmt : needs_mtdev hw → hw.mtdev_slot ≠ none) (hk : hw.keyboard_init_ok = true) :
    (evdev_configure_device (evdev_device_zalloc output slots) hw).ret = 0 := by
  obtain ⟨d1, o, heq, _⟩ := evdev_configure_device_reaches_caps output slots hw hmt
  rw [heq]
  simp [configure_caps, assign_caps, hk]

/-- C17, as amended. After `evdev_configure_device` returned 0 on a fresh
    device, mtdev having been opened if the device needs it: the device is a
    pointer iff it
    reports absolute or relative X/Y motion and has a button in
    `BTN_MISC .. BTN_JOYSTICK - 1`; a keyboard iff it has a key outside the
    button range or an LED capability; a touch device iff it has multitouch
    positions or `BTN_TOUCH` and no such button; and `evdev_device_create`
    reports it as unhandled exactly when none of the three results. -/
theorem evdev_configure_device_caps (output : weston_output) (slots : Nat) (hw : evdev_hw)
    (hmt : needs_mtdev hw → hw.mtdev_slot ≠ none)
    (hret : (evdev_configure_device (evdev_device_zalloc output slots) hw).ret = 0) :
    ((evdev_configure_device (evdev_device_zalloc output slots) hw).device.seat_caps.pointer
        = true ↔ (reports_abs_xy hw ∨ reports_rel_xy hw) ∧ reports_button hw) ∧
    ((evdev_configure_device (evdev_device_zalloc output slots) hw).device.seat_caps.keyboard
        = true ↔ reports_keyboard hw) ∧
    ((evdev_configure_device (evdev_device_zalloc output slots) hw).device.seat_caps.touch
        = true ↔ reports_touch hw ∧ ¬ reports_button hw) ∧
    (∀ dispatch_ok source_ok,
      evdev_device_create output slots hw true dispatch_ok source_ok = create_result.unhandled ↔
        (evdev_configure_device (evdev_device_zalloc output slots) hw).device.seat_caps =
          { pointer := false, keyboard := false, touch := false }) := by
  obtain ⟨d1, o, heq, hd⟩ := evdev_configure_device_reaches_caps output slots hw hmt
  have hcreate : ∀ dispatch_ok source_ok,
      evdev_device_create output slots hw true dispatch_ok source_ok = create_result.unhandled ↔
        (evdev_configure_device (evdev_device_zalloc output slots) hw).device.seat_caps =
          { pointer := false, keyboard := false, touch := false } := by
    intro dok sok
    unfold evdev_device_create
    simp only [Bool.not_true, Bool.false_eq_true, if_false, hret]
    by_cases hc : (evdev_configure_device (evdev_device_zalloc output slots) hw).device.seat_caps
        = { pointer := false, keyboard := false, touch := false }
    · simp [hc]
    · cases dok <;> cases sok <;> simp [hc]
  have hB := any_key_bit_iff hw BTN_MISC BTN_JOYSTICK (fun _ => false)
  have hK := any_key_bit_iff hw KEY_ESC KEY_MAX
    (fun i => decide (BTN_MISC ≤ i) && decide (i < KEY_OK))
  simp only [true_and] at hB
  simp only [Bool.and_eq_false_imp, decide_eq_true_eq, decide_eq_false_iff_not, not_lt,
    ← not_and, not_le] at hK
  have hK2 : (∃ i, KEY_ESC ≤ i ∧ i < KEY_MAX ∧ ¬ (BTN_MISC ≤ i ∧ i < KEY_OK) ∧
      hw.key_bits i = true) ↔
      (any_key_bit hw KEY_ESC KEY_MAX
        (fun i => decide (BTN_MISC ≤ i) && decide (i < KEY_OK))) = true := by
    rw [hK]
    constructor
    · rintro ⟨i, h1, h2, h3, h4⟩
      exact ⟨i, h1, h2, fun h5 => by_contra (fun h6 => h3 ⟨h5, not_le.mp h6⟩), h4⟩
    · rintro ⟨i, h1, h2, h3, h4⟩
      exact ⟨i, h1, h2, fun h5 => absurd h5.2 (not_lt.mpr (h3 h5.1)), h4⟩
  refine ⟨?_, ?_, ?_, hcreate⟩ <;>
    rw [heq] at hret ⊢ <;>
    rw [show configure_caps d1
          (hw.ev_bits EV_ABS && (hw.abs_bits ABS_X || hw.abs_bits ABS_Y))
          (hw.ev_bits EV_ABS &&
            (hw.abs_bits ABS_MT_POSITION_X && hw.abs_bits ABS_MT_POSITION_Y)) o hw =
          assign_caps d1 _ _ _ _ _ _ _ _ from rfl] at hret ⊢ <;>
    rw [assign_caps_ok d1 _ _ _ _ _ _ _ _ hd hret] <;>
    simp only [reports_abs_xy, reports_rel_xy, reports_button, reports_keyboard,
      reports_touch, ← hB, hK2] <;>
    generalize any_key_bit hw BTN_MISC BTN_JOYSTICK (fun _ => false) = b <;>
    generalize (any_key_bit hw KEY_ESC KEY_MAX
      (fun i => decide (BTN_MISC ≤ i) && decide (i < KEY_OK))) = k <;>
    simp only [Bool.and_eq_true, Bool.or_eq_true, Bool.not_eq_true', ← Bool.not_eq_true]

/-- C17, counterexample. A touchscreen with multitouch positions and no
    `ABS_MT_SLOT`, mtdev failing to open: `evdev_configure_device` returns 0,
    which its caller takes as success, yet the device has no touch
    capability although it reports touch and no button; `evdev_device_create`
    reports it as unhandled. -/
theorem mtdev_failure_leaves_no_capability :
    needs_mtdev unslotted_touch_hw ∧ unslotted_touch_hw.mtdev_slot = none ∧
    (evdev_configure_device (evdev_device_zalloc sample_touchscreen.output 16)
      unslotted_touch_hw).ret = 0 ∧
    (evdev_configure_device (evdev_device_zalloc sample_touchscreen.output 16)
      unslotted_touch_hw).device.seat_caps.touch = false ∧
    reports_touch unslotted_touch_hw ∧ ¬ reports_button unslotted_touch_hw ∧
    (evdev_device_create sample_touchscreen.output 16 unslotted_touch_hw true true true
      matches create_result.unhandled) = true :=
  ⟨⟨rfl, rfl, rfl, rfl⟩, rfl, by decide, by decide, Or.inl ⟨rfl, rfl, rfl⟩,
   fun h => absurd h.1 (by decide), by decide⟩

/-- Witness of `evdev_configure_device_caps`: a mouse, which reports
    relative X/Y motion and `BTN_LEFT`, is configured as a pointer. -/
theorem evdev_configure_device_caps_witness :
    (evdev_configure_device (evdev_device_zalloc sample_touchscreen.output 16)
      mouse_hw).device.seat_caps.pointer = true :=
  (evdev_configure_device_caps sample_touchscreen.output 16 mouse_hw
    (fun h => absurd h.1 (by decide))
    (evdev_configure_device_ret sample_touchscreen.output 16 mouse_hw
      (fun h => absurd h.1 (by decide)) rfl)).1.mpr
    ⟨Or.inr ⟨rfl, Or.inl rfl⟩, rfl, 272, by decide, by decide, rfl⟩

/-! ## Stable fade -/

/-- C20, counterexample. With the spring at 1 (above 0.999) the front alpha
    is 1 and the divisor `1.0 - front.alpha` of the back view's alpha is
    zero: the quotient is formed with a zero divisor. -/
theorem stable_fade_divides_by_zero :
    0.999 < spring_resting.current ∧
    (stable_fade_frame spring_resting).1 = 1 ∧
    1.0 - (stable_fade_frame spring_resting).1 = 0 ∧
    (stable_fade_frame spring_resting).2 = none := by
  norm_num [stable_fade_frame, fade_alpha, spring_resting, weston_spring_init]

/-- C20, as amended. `stable_fade_frame` forms the quotient on every frame:
    with `spring.current > 0.999` the front alpha is 1 and the divisor is
    zero; with `spring.current <= 0.999` the front alpha is below 1, the
    divisor is not zero and the back alpha `b` satisfies
    `front + (1 - front) * b = target`. -/
theorem stable_fade_frame_spec (s : weston_spring ℚ) :
    (0.999 < s.current →
      (stable_fade_frame s).1 = 1 ∧ (stable_fade_frame s).2 = none) ∧
    (s.current ≤ 0.999 →
      (stable_fade_frame s).1 < 1 ∧
      ∃ b, (stable_fade_frame s).2 = some b ∧
        (stable_fade_frame s).1 + (1 - (stable_fade_frame s).1) * b = s.target) := by
  have hfront : (stable_fade_frame s).1 = fade_alpha s := rfl
  have hback : (stable_fade_frame s).2 =
      if 1.0 - fade_alpha s = 0 then none
      else some ((s.target - fade_alpha s) / (1.0 - fade_alpha s)) := rfl
  rw [hfront, hback]
  constructor
  · intro h
    have hf : fade_alpha s = 1 := by
      unfold fade_alpha
      rw [if_pos h]
    rw [hf]
    norm_num
  · intro h
    have h1 : ¬ (0.999 : ℚ) < s.current := not_lt.mpr h
    by_cases h2 : s.current < 0.001
    · have hf : fade_alpha s = 0 := by
        unfold fade_alpha
        rw [if_neg h1, if_pos h2]
      rw [hf]
      norm_num
    · have hf : fade_alpha s = s.current := by
        unfold fade_alpha
        rw [if_neg h1, if_neg h2]
      have hlt : s.current < 1 := lt_of_le_of_lt h (by norm_num)
      have hne : (1 : ℚ) - s.current ≠ 0 := by linarith
      have hne2 : ¬ ((1.0 : ℚ) - s.current = 0) := by
        have h10 : (1.0 : ℚ) = 1 := by norm_num
        rw [h10]
        exact hne
      rw [hf, if_neg hne2]
      refine ⟨hlt, (s.target - s.current) / (1.0 - s.current), rfl, ?_⟩
      have h10 : (1.0 : ℚ) = 1 := by norm_num
      rw [h10]
      field_simp

/-- Witness of `stable_fade_frame_spec`: a fade half way to its target. -/
theorem stable_fade_frame_spec_witness :
    (stable_fade_frame spring_half_faded).1 < 1 ∧
    ∃ b, (stable_fade_frame spring_half_faded).2 = some b ∧
      (stable_fade_frame spring_half_faded).1 +
        (1 - (stable_fade_frame spring_half_faded).1) * b = spring_half_faded.target :=
  (stable_fade_frame_spec spring_half_faded).2
    (by norm_num [spring_half_faded, weston_spring_init])

/-! ## The exposay state machine -/

/-- C18. While the layout is animating (current state `ANIMATE_TO_OVERVIEW`
    or `ANIMATE_TO_INACTIVE` with `in_flight > 0`), `exposay_set_state` with
    any target stores the target state and the seat and changes nothing else:
    the current state, the surface list, the in-flight counter, the grabs and
    the list of started animations are those of before. -/
theorem exposay_set_state_deferred (sh : desktop_shell) (target : exposay_target_state)
    (seat : Nat)
    (hs : sh.state_cur = exposay_layout_state.EXPOSAY_LAYOUT_ANIMATE_TO_OVERVIEW ∨
          sh.state_cur = exposay_layout_state.EXPOSAY_LAYOUT_ANIMATE_TO_INACTIVE)
    (hf : 0 < sh.exposay.in_flight) :
    exposay_set_state sh target seat = { sh with state_target := target, seat := seat } ∧
    (exposay_set_state sh target seat).state_cur = sh.state_cur ∧
    (exposay_set_state sh target seat).exposay = sh.exposay ∧
    (exposay_set_state sh target seat).seats = sh.seats := by
  have h : exposay_set_state sh target seat =
      { sh with state_target := target, seat := seat } := by
    unfold exposay_set_state exposay_check_state
    have ha : exposay_is_animating { sh with state_target := target, seat := seat } = true := by
      rcases hs with hs | hs <;> simp [exposay_is_animating, hs, hf]
    rw [if_pos ha]
  rw [h]
  exact ⟨rfl, rfl, rfl, rfl⟩

/-- Witness of `exposay_set_state_deferred`: a cancel while the five entries
    of an overview are animating in. -/
theorem exposay_set_state_deferred_witness :
    exposay_set_state animating_shell exposay_target_state.EXPOSAY_TARGET_CANCEL 0 =
      { animating_shell with
        state_target := exposay_target_state.EXPOSAY_TARGET_CANCEL, seat := 0 } ∧
    (exposay_set_state animating_shell exposay_target_state.EXPOSAY_TARGET_CANCEL 0).state_cur =
      animating_shell.state_cur ∧
    (exposay_set_state animating_shell exposay_target_state.EXPOSAY_TARGET_CANCEL 0).exposay =
      animating_shell.exposay ∧
    (exposay_set_state animating_shell exposay_target_state.EXPOSAY_TARGET_CANCEL 0).seats =
      animating_shell.seats :=
  exposay_set_state_deferred animating_shell exposay_target_state.EXPOSAY_TARGET_CANCEL 0
    (Or.inl (by decide)) (by decide)

/-- C19, the code at an overview without entries. The overview opened on an
    empty workspace is in state `OVERVIEW` with the exposay grabs and no
    entry. `exposay_set_state(CANCEL)` starts no exit animation and leaves
    the state at `ANIMATE_TO_INACTIVE` with `in_flight = 0`; no completion
    callback is pending, and the keyboard and pointer grabs are still the
    exposay grabs. -/
theorem exposay_cancel_empty_overview_stuck :
    empty_overview.state_cur = exposay_layout_state.EXPOSAY_LAYOUT_OVERVIEW ∧
    empty_overview.exposay.surface_list.length = 0 ∧
    (empty_overview.seats 0).keyboard_grab = shell_grab.exposay_grab ∧
    (exposay_complete_out
        (exposay_set_state empty_overview exposay_target_state.EXPOSAY_TARGET_CANCEL 0)
        []).state_cur = exposay_layout_state.EXPOSAY_LAYOUT_ANIMATE_TO_INACTIVE ∧
    (exposay_set_state empty_overview exposay_target_state.EXPOSAY_TARGET_CANCEL 0).exposay.in_flight
      = 0 ∧
    ((exposay_set_state empty_overview exposay_target_state.EXPOSAY_TARGET_CANCEL 0).seats 0).keyboard_grab
      = shell_grab.exposay_grab ∧
    ((exposay_set_state empty_overview exposay_target_state.EXPOSAY_TARGET_CANCEL 0).seats 0).pointer_grab
      = shell_grab.exposay_grab := by
  decide

/-- With one entry the cancel does return to `INACTIVE`: the completion of
    the one exit animation ends the grabs. -/
theorem exposay_cancel_one_entry :
    one_view_overview.state_cur = exposay_layout_state.EXPOSAY_LAYOUT_OVERVIEW ∧
    (one_view_overview.seats 0).keyboard_grab = shell_grab.exposay_grab ∧
    (exposay_complete_out
        (exposay_set_state one_view_overview exposay_target_state.EXPOSAY_TARGET_CANCEL 0)
        [7]).state_cur = exposay_layout_state.EXPOSAY_LAYOUT_INACTIVE ∧
    ((exposay_complete_out
        (exposay_set_state one_view_overview exposay_target_state.EXPOSAY_TARGET_CANCEL 0)
        [7]).seats 0).keyboard_grab = shell_grab.default_grab ∧
    ((exposay_complete_out
        (exposay_set_state one_view_overview exposay_target_state.EXPOSAY_TARGET_CANCEL 0)
        [7]).seats 0).pointer_grab = shell_grab.default_grab := by
  decide

/-! ## Fade and zoom -/

/-- The spring of `weston_zoom_run` starts with velocity
    `0.03 * (stop - start)`. -/
theorem weston_zoom_run_kick (ts : Nat) (start stop : ℚ) :
    (weston_zoom_run ts start stop).current - (weston_zoom_run ts start stop).previous =
      0.03 * (stop - start) := by
  simp only [weston_zoom_run, weston_spring_init]
  ring

/-- The spring of `weston_fade_run` starts with velocity
    `start + 0.03 * (end - start)`. -/
theorem weston_fade_run_kick (ts : Nat) (start end_ k : ℚ) :
    (weston_fade_run ts start end_ k).current - (weston_fade_run ts start end_ k).previous =
      start + 0.03 * (end_ - start) := by
  simp only [weston_fade_run, weston_spring_init]
  ring

/-- C30, the code at a fade-out. For a fade from 1 to 0 the spring of
    `weston_fade_run` has `current - previous = 0.97`, not
    `0.03 * (end - start) = -0.03`, which is the velocity the spring of
    `weston_zoom_run` has for the same start and stop. -/
theorem weston_fade_run_kick_differs :
    (weston_fade_run 0 1 0 200).current - (weston_fade_run 0 1 0 200).previous = 97 / 100 ∧
    (0.03 : ℚ) * (0 - 1) = -3 / 100 ∧
    (weston_zoom_run 0 1 0).current - (weston_zoom_run 0 1 0).previous = -3 / 100 := by
  refine ⟨?_, ?_, ?_⟩ <;> norm_num [weston_fade_run, weston_zoom_run, weston_spring_init]

/-! ## Recorder run encoding -/

/-- The word stored for a top byte `b` and a 24-bit `delta` is
    `b * 2^24 + delta`. -/
theorem run_word_eq (delta : Nat) (b : Int) (hd : delta < 16777216) (hb0 : 0 ≤ b)
    (hb : b < 256) : run_word delta b = b.toNat * 16777216 + delta := by
  have h24 : (24 : Int).toNat = 24 := rfl
  have hp : (2 : Int) ^ 24 = 16777216 := by norm_num
  have hu : u32_of_int (c_shl b 24) = 2 ^ 24 * b.toNat := by
    unfold u32_of_int c_shl wrap32
    rw [h24, hp]
    omega
  unfold run_word
  rw [hu, Nat.lor_comm, ← Nat.mul_add_lt_is_or (by omega) b.toNat]
  omega

/-- For a run above `0xe0`, `i` is `log2 run - 7`, the top byte is
    `0xe0 + i` and the shift `1 << (7 + i)` is the largest power of two not
    above the run. -/
theorem output_run_escape (run : Int) (h1 : 0xe0 < run) (h2 : run < 2147483648) :
    7 ≤ Nat.log2 run.toNat ∧ Nat.log2 run.toNat ≤ 30 ∧
    c_add (c_sub 24 (builtin_clz run.toNat)) 0xe0 = (Nat.log2 run.toNat : Int) + 217 ∧
    c_shl 1 (c_add 7 (c_sub 24 (builtin_clz run.toNat))) =
      ((2 ^ Nat.log2 run.toNat : Nat) : Int) ∧
    ((2 ^ Nat.log2 run.toNat : Nat) : Int) ≤ run ∧ 1 ≤ 2 ^ Nat.log2 run.toNat := by
  have hne : run.toNat ≠ 0 := by omega
  have hL7 : 7 ≤ Nat.log2 run.toNat := (Nat.le_log2 hne).2 (by norm_num; omega)
  have hL : Nat.log2 run.toNat < 31 := (Nat.log2_lt hne).2 (by norm_num; omega)
  have hle : 2 ^ Nat.log2 run.toNat ≤ run.toNat := Nat.log2_self_le hne
  have hp1 : 1 ≤ 2 ^ Nat.log2 run.toNat := Nat.one_le_two_pow
  have hp2 : 2 ^ Nat.log2 run.toNat ≤ 2 ^ 30 := Nat.pow_le_pow_right (by decide) (by omega)
  have hk : (c_add 7 (c_sub 24 (builtin_clz run.toNat))).toNat = Nat.log2 run.toNat := by
    unfold c_add c_sub wrap32 builtin_clz
    omega
  refine ⟨hL7, by omega, ?_, ?_, by omega, hp1⟩
  · unfold c_add c_sub wrap32 builtin_clz
    omega
  · unfold c_shl
    rw [hk]
    unfold wrap32
    push_cast
    have h3 : (1 : Int) ≤ 2 ^ Nat.log2 run.toNat := by exact_mod_cast hp1
    have h4 : (2 : Int) ^ Nat.log2 run.toNat ≤ 2 ^ 30 := by exact_mod_cast hp2
    omega

/-- The words `output_run` writes for a run in the `int` range: each carries
    `delta` in its low 24 bits and the lengths of their top bytes add up to
    the run. -/
theorem output_run_spec (delta : Nat) (hd : delta < 16777216) (n : Nat) :
    ∀ run : Int, run.toNat = n → 0 ≤ run → run < 2147483648 →
      (∀ w ∈ output_run delta run, w % 16777216 = delta) ∧
      ((output_run delta run).map (fun w => (wcap_run_length (w / 16777216) : Int))).sum
        = run := by
  induction n using Nat.strong_induction_on with
  | _ n ih =>
    intro run hn h0 hmax
    rw [output_run]
    by_cases hpos : 0 < run
    · rw [if_pos hpos]
      by_cases hsmall : run ≤ 0xe0
      · rw [if_pos hsmall]
        have hc : c_sub run 1 = run - 1 := by
          unfold c_sub wrap32
          omega
        have hw := run_word_eq delta (c_sub run 1) hd (by omega) (by omega)
        rw [hc] at hw
        rw [hc, hw]
        have hq : ((run - 1).toNat * 16777216 + delta) / 16777216 = (run - 1).toNat := by omega
        have hlen : wcap_run_length (run - 1).toNat = (run - 1).toNat + 1 := by
          unfold wcap_run_length
          rw [if_pos (by omega)]
        constructor
        · intro w hw2
          rw [List.mem_singleton] at hw2
          rw [hw2]
          omega
        · simp only [List.map_cons, List.map_nil, List.sum_cons, List.sum_nil, hq, hlen]
          omega
      · rw [if_neg hsmall]
        obtain ⟨hL7, hL30, hb, hs, hle, hp1⟩ := output_run_escape run (by omega) hmax
        simp only []
        rw [hb, hs]
        have hw := run_word_eq delta ((Nat.log2 run.toNat : Int) + 217) hd (by omega) (by omega)
        rw [hw]
        have ht : ((Nat.log2 run.toNat : Int) + 217).toNat = Nat.log2 run.toNat + 217 := by omega
        rw [ht]
        have hq : ((Nat.log2 run.toNat + 217) * 16777216 + delta) / 16777216 =
            Nat.log2 run.toNat + 217 := by omega
        have hlen : wcap_run_length (Nat.log2 run.toNat + 217) = 2 ^ Nat.log2 run.toNat := by
          unfold wcap_run_length
          have he : 7 + (Nat.log2 run.toNat + 217 - 0xe0) = Nat.log2 run.toNat := by omega
          rw [if_neg (by omega), Nat.one_shiftLeft, he]
        have hc : c_sub run ((2 ^ Nat.log2 run.toNat : Nat) : Int) =
            run - ((2 ^ Nat.log2 run.toNat : Nat) : Int) := by
          unfold c_sub wrap32
          omega
        rw [hc]
        obtain ⟨r1, r2⟩ := ih (run - ((2 ^ Nat.log2 run.toNat : Nat) : Int)).toNat (by omega)
          (run - ((2 ^ Nat.log2 run.toNat : Nat) : Int)) rfl (by omega) (by omega)
        constructor
        · intro w hw2
          rcases List.mem_cons.1 hw2 with h | h
          · rw [h]
            omega
          · exact r1 w h
        · simp only [List.map_cons, List.sum_cons, hq, hlen, r2]
          omega
    · rw [if_neg hpos]
      have : run = 0 := by omega
      simp [this]

/-- C21. For a 24-bit `delta` and a run `1 <= run` (an `int`), `output_run`
    returns words whose low 24 bits all equal `delta` and whose top bytes
    decode to lengths that add up to `run`; a run of at most `0xe0` gives a
    single word; a run of 0 gives no word. -/
theorem output_run_lossless (delta : Nat) (run : Int) (hd : delta < 16777216)
    (hr : 1 ≤ run) (hmax : run < 2147483648) :
    (∀ w ∈ output_run delta run, w % 16777216 = delta) ∧
    ((output_run delta run).map (fun w => (wcap_run_length (w / 16777216) : Int))).sum = run ∧
    (run ≤ 0xe0 → (output_run delta run).length = 1) ∧
    output_run delta 0 = [] := by
  obtain ⟨h1, h2⟩ := output_run_spec delta hd run.toNat run rfl (by omega) hmax
  refine ⟨h1, h2, ?_, ?_⟩
  · intro hsmall
    rw [output_run, if_pos (by omega), if_pos hsmall]
    rfl
  · rw [output_run]
    rfl

/-- Witness of `output_run_lossless`: a run of 1000 pixels of delta
    `0x010203`. -/
theorem output_run_lossless_witness :
    (∀ w ∈ output_run 66051 1000, w % 16777216 = 66051) ∧
    ((output_run 66051 1000).map (fun w => (wcap_run_length (w / 16777216) : Int))).sum
      = 1000 ∧
    ((1000 : Int) ≤ 0xe0 → (output_run 66051 1000).length = 1) ∧
    output_run 66051 0 = [] :=
  output_run_lossless 66051 1000 (by decide) (by decide) (by decide)

/-! ## Keyboard focus guard -/

/-- Outside the values a device counter takes: for the `int` value -1 the
    source guard `(!count) > 0` does not return early, so the focus-in
    notification would be sent, while the guard `count > 0` would return
    without it. -/
theorem keyboard_focus_guard_negative_count :
    (evdev_notify_keyboard_focus (-1) []).isSome = true ∧
    ¬ (0 : Int) < -1 ∧
    evdev_notify_keyboard_focus_intended (-1) [] = none := by
  refine ⟨?_, by decide, ?_⟩
  · rw [evdev_notify_keyboard_focus, if_neg (by decide)]
    rfl
  · rw [evdev_notify_keyboard_focus_intended, if_neg (by decide)]

/-- C23. For every value of `keyboard_device_count`, a count of devices
    and so not negative, and every list of devices,
    `evdev_notify_keyboard_focus` does what the guard
    `keyboard_device_count > 0` would do: it sends the focus-in notification
    exactly when the count is positive and returns early otherwise. -/
theorem keyboard_focus_guard (count : Int) (devices : List (Option (Nat → Bool)))
    (h : 0 ≤ count) :
    evdev_notify_keyboard_focus count devices =
      evdev_notify_keyboard_focus_intended count devices ∧
    ((evdev_notify_keyboard_focus count devices).isSome = true ↔ 0 < count) := by
  unfold evdev_notify_keyboard_focus evdev_notify_keyboard_focus_intended c_not
  by_cases hz : count = 0
  · subst hz
    simp
  · have hpos : 0 < count := by omega
    simp [hz, hpos]

/-- Witness of `keyboard_focus_guard`: one keyboard on the seat. -/
theorem keyboard_focus_guard_witness :
    evdev_notify_keyboard_focus 1 [] = evdev_notify_keyboard_focus_intended 1 [] ∧
    ((evdev_notify_keyboard_focus 1 []).isSome = true ↔ (0 : Int) < 1) :=
  keyboard_focus_guard 1 [] (by decide)

/-! ## Screenshots -/

/-- A frame notification leaves the events and the outputs the same
    whatever the buffers hold. -/
theorem screenshooter_frame_notify_buffers (st : screenshooter_state)
    (bufs : Nat → weston_buffer) (output : Nat) (l : screenshooter_frame_listener)
    (ok : Bool) :
    screenshooter_frame_notify { st with buffers := bufs } output l ok =
      { screenshooter_frame_notify st output l ok with buffers := bufs } := by
  cases ok <;> rfl

/-- A fold of frame notifications commutes with a change of the buffers. -/
theorem screenshooter_notify_fold_buffers (bufs : Nat → weston_buffer) (output : Nat)
    (ok : Bool) (ls : List screenshooter_frame_listener) (st : screenshooter_state) :
    ls.foldl (fun s l => screenshooter_frame_notify s output l ok) { st with buffers := bufs } =
      { ls.foldl (fun s l => screenshooter_frame_notify s output l ok) st with
        buffers := bufs } := by
  induction ls generalizing st with
  | nil => rfl
  | cons l ls ih =>
    simp only [List.foldl_cons]
    rw [screenshooter_frame_notify_buffers, ih]

/-- A run of frames commutes with a change of the buffers. -/
theorem screenshooter_frames_buffers (bufs : Nat → weston_buffer)
    (frames : List (Nat × Bool)) (st : screenshooter_state) :
    screenshooter_frames { st with buffers := bufs } frames =
      { screenshooter_frames st frames with buffers := bufs } := by
  induction frames generalizing st with
  | nil => rfl
  | cons f fs ih =>
    have h1 : screenshooter_emit_frame { st with buffers := bufs } f.1 f.2 =
        { screenshooter_emit_frame st f.1 f.2 with buffers := bufs } := by
      unfold screenshooter_emit_frame
      exact screenshooter_notify_fold_buffers bufs f.1 f.2 _ st
    unfold screenshooter_frames at ih ⊢
    simp only [List.foldl_cons]
    rw [h1]
    exact ih _

/-- C22. A shoot request with an shm buffer narrower or lower than the mode
    of the output leaves every output as it was (frame listeners,
    `disable_planes`, scheduled repaints) and sends nothing; whatever frames
    follow, the outputs and the events sent are those of a run without the
    request, so no `done` answers it. -/
theorem screenshooter_shoot_undersized (st : screenshooter_state) (resource output b sb : Nat)
    (w h : Int) (alloc_ok : Bool)
    (hsmall : w < (st.outputs output).mode_width ∨ h < (st.outputs output).mode_height) :
    (screenshooter_shoot st resource output (some b) (some (sb, w, h)) alloc_ok).outputs
      = st.outputs ∧
    (screenshooter_shoot st resource output (some b) (some (sb, w, h)) alloc_ok).events
      = st.events ∧
    ∀ frames,
      (screenshooter_frames
        (screenshooter_shoot st resource output (some b) (some (sb, w, h)) alloc_ok)
        frames).events = (screenshooter_frames st frames).events ∧
      (screenshooter_frames
        (screenshooter_shoot st resource output (some b) (some (sb, w, h)) alloc_ok)
        frames).outputs = (screenshooter_frames st frames).outputs := by
  have hs : screenshooter_shoot st resource output (some b) (some (sb, w, h)) alloc_ok =
      { st with buffers :=
          Function.update st.buffers b { shm_buffer := some sb, width := w, height := h } } := by
    unfold screenshooter_shoot
    simp only []
    rw [if_pos hsmall]
  rw [hs]
  refine ⟨rfl, rfl, ?_⟩
  intro frames
  rw [screenshooter_frames_buffers]
  exact ⟨rfl, rfl⟩

/-- Witness of `screenshooter_shoot_undersized`: a 640x480 buffer for the
    800x600 output, followed by two frames. -/
theorem screenshooter_shoot_undersized_witness :
    (screenshooter_frames
      (screenshooter_shoot idle_screenshooter 3 0 (some 1) (some (2, 640, 480)) true)
      [(0, true), (0, true)]).events = [] :=
  ((screenshooter_shoot_undersized idle_screenshooter 3 0 1 2 640 480 true
    (Or.inl (by decide))).2.2 [(0, true), (0, true)]).1

/-- A buffer of the size of the mode is answered by `done` on the next
    frame. -/
theorem screenshooter_shoot_done :
    (screenshooter_frames
      (screenshooter_shoot idle_screenshooter 3 0 (some 1) (some (2, 800, 600)) true)
      [(0, true)]).events = [screenshooter_event.done 3] := by
  decide

/-! ## Modifier bindings -/

/-- On a release, a modifier binding list in which every binding carries a
    key other than 0 gets no handler call. -/
theorem run_modifier_binding_loop_invalid (modifier : Nat) (bs : List weston_binding) :
    ∀ (seen : List weston_binding) (calls : List binding_call),
      (∀ b ∈ bs, b.key ≠ 0) →
      (run_modifier_binding_loop modifier false seen bs calls).2 = calls := by
  induction bs with
  | nil =>
    intro seen calls _
    rfl
  | cons b bs ih =>
    intro seen calls h
    have hb : b.key ≠ 0 := h b (List.mem_cons_self b bs)
    unfold run_modifier_binding_loop
    by_cases hm : b.modifier ≠ modifier
    · rw [if_pos hm]
      exact ih _ _ (fun c hc => h c (List.mem_cons_of_mem b hc))
    · rw [if_neg hm]
      simp [hb]

/-- A key press with a key code other than 0 (no key binding matching it)
    invalidates the primed modifier bindings: the release of the modifier
    calls no handler. -/
theorem key_press_invalidates (st : binding_state) (time key modifier : Nat)
    (hk : key % 4294967296 ≠ 0) (hnone : st.key_binding_list = []) :
    (weston_compositor_run_modifier_binding
      (weston_compositor_run_key_binding st time key true) modifier false).calls = st.calls := by
  unfold weston_compositor_run_modifier_binding weston_compositor_run_key_binding
  simp only [Bool.not_true, Bool.false_eq_true, if_false, invalidate_modifier_bindings, hnone,
    run_key_binding_loop]
  by_cases hg : st.default_grab = true
  · simp only [hg, Bool.not_true, Bool.false_eq_true, if_false]
    apply run_modifier_binding_loop_invalid
    intro b hb
    obtain ⟨c, _, rfl⟩ := List.mem_map.1 hb
    exact hk
  · simp [hg]

/-- C27, the code at a vertical scroll. The super key is pressed (the
    binding is primed), the wheel is turned (`run_axis_binding` with axis 0,
    `WL_POINTER_AXIS_VERTICAL_SCROLL`) and the super key is released: the
    handler of the modifier binding is called all the same. A horizontal
    scroll (axis 1) in between does invalidate the binding. -/
theorem vertical_scroll_does_not_invalidate :
    (weston_compositor_run_modifier_binding
      (weston_compositor_run_axis_binding
        (weston_compositor_run_modifier_binding super_binding_state MODIFIER_SUPER true)
        1000 WL_POINTER_AXIS_VERTICAL_SCROLL 2560).1
      MODIFIER_SUPER false).calls = [binding_call.modifier_handler 1 MODIFIER_SUPER] ∧
    (weston_compositor_run_modifier_binding
      (weston_compositor_run_axis_binding
        (weston_compositor_run_modifier_binding super_binding_state MODIFIER_SUPER true)
        1000 1 2560).1
      MODIFIER_SUPER false).calls = [] := by
  decide

/-! ## Giving up on the input method -/

/-- Deaths that all fall inside the current window leave its start alone and
    are all counted. -/
theorem run_deaths_in_window (launched : Nat → Option (Nat × Nat)) (ts : List Nat) :
    ∀ tb : text_backend, (∀ u ∈ ts, u32_sub u tb.deathstamp ≤ 10000) →
      tb.deathcount + ts.length < 4294967296 →
      (run_deaths launched tb ts).1.deathstamp = tb.deathstamp ∧
      (run_deaths launched tb ts).1.deathcount = tb.deathcount + ts.length := by
  induction ts with
  | nil =>
    intro tb _ _
    exact ⟨rfl, rfl⟩
  | cons t ts ih =>
    intro tb h hlen
    simp only [List.length_cons] at hlen
    obtain ⟨a1, a2, _⟩ := sigchld_in_window tb t (launched t) (h t (List.mem_cons_self t ts))
    have hc : (handle_input_method_sigchld tb t (launched t)).1.deathcount =
        tb.deathcount + 1 := by
      rw [a2]
      unfold u32_add
      omega
    have h2 : ∀ u ∈ ts,
        u32_sub u (handle_input_method_sigchld tb t (launched t)).1.deathstamp ≤ 10000 := by
      intro u hu
      rw [a1]
      exact h u (List.mem_cons_of_mem t hu)
    obtain ⟨b1, b2⟩ := ih _ h2 (by omega)
    simp only [run_deaths]
    rw [b1, b2, a1, hc]
    refine ⟨rfl, ?_⟩
    simp only [List.length_cons]
    omega

/-- Giving up leaves the helper without process and client. -/
theorem sigchld_gave_up (tb : text_backend) (t : Nat) (l : Option (Nat × Nat))
    (hw : u32_sub t tb.deathstamp ≤ 10000) (h5 : 5 ≤ tb.deathcount)
    (hmax : tb.deathcount + 1 < 4294967296) :
    (handle_input_method_sigchld tb t l).2 = sigchld_outcome.gave_up ∧
    (handle_input_method_sigchld tb t l).1.pid = 0 ∧
    (handle_input_method_sigchld tb t l).1.client = none := by
  have hn : ¬ 10000 < u32_sub t tb.deathstamp := by omega
  have hc : 5 < u32_add tb.deathcount 1 := by
    unfold u32_add
    omega
  unfold handle_input_method_sigchld
  simp [hn, hc]

/-- C25, as amended. A death that is at least the sixth of the current
    counting window is given up on: `t1` opens the window (it comes more
    than 10 000 ms after `deathstamp`, or nothing was counted yet), at least
    four more deaths `ts` and then `t` all come within 10 000 ms of the start
    of that window; on `t` `handle_input_method_sigchld` gives up, does not
    call `launch_input_method`, and the helper stays without process. -/
theorem give_up_from_sixth_in_window (tb : text_backend) (launched : Nat → Option (Nat × Nat))
    (t1 : Nat) (ts : List Nat) (t : Nat)
    (h1 : 10000 < u32_sub t1 tb.deathstamp ∨ tb.deathcount = 0)
    (hts : ∀ u ∈ ts, u32_sub u (death_window_start tb t1) ≤ 10000)
    (ht : u32_sub t (death_window_start tb t1) ≤ 10000)
    (hn : 4 ≤ ts.length) (hlen : ts.length + 2 < 4294967296) :
    (handle_input_method_sigchld (run_deaths launched tb (t1 :: ts)).1 t (launched t)).2 =
      sigchld_outcome.gave_up ∧
    (handle_input_method_sigchld (run_deaths launched tb (t1 :: ts)).1 t (launched t)).1.pid
      = 0 ∧
    (handle_input_method_sigchld (run_deaths launched tb (t1 :: ts)).1 t (launched t)).1.client
      = none := by
  obtain ⟨a1, a2, _⟩ := handle_input_method_sigchld_step tb t1 (launched t1)
  have c1 : (handle_input_method_sigchld tb t1 (launched t1)).1.deathcount = 1 := by
    rw [a2]
    rcases h1 with h | h
    · rw [if_pos h]
      rfl
    · rw [h]
      split <;> rfl
  rw [← a1] at hts ht
  obtain ⟨b1, b2⟩ := run_deaths_in_window launched ts _ hts (by omega)
  have hrun : run_deaths launched tb (t1 :: ts) =
      ((run_deaths launched (handle_input_method_sigchld tb t1 (launched t1)).1 ts).1,
       (handle_input_method_sigchld tb t1 (launched t1)).2 ::
         (run_deaths launched (handle_input_method_sigchld tb t1 (launched t1)).1 ts).2) := rfl
  rw [hrun]
  apply sigchld_gave_up
  · rw [b1]
    exact ht
  · rw [b2, c1]
    omega
  · rw [b2, c1]
    omega

/-- C25, counterexample. From the start-up state, deaths at 8000, 8500,
    9000, 10500, 10600 and 10700 ms: the last one is the sixth death within
    the 10 000 ms ending at it, yet it is answered by a respawn, the death at
    10500 having restarted the count. -/
theorem sixth_death_in_ten_seconds_respawns :
    (∀ u ∈ [8000, 8500, 9000, 10500, 10600], 10700 - 10000 ≤ u ∧ u ≤ 10700) ∧
    (handle_input_method_sigchld
      (run_deaths (fun _ => some (4712, 2)) fresh_text_backend
        [8000, 8500, 9000, 10500, 10600]).1 10700 (some (4712, 2))).2 =
      sigchld_outcome.respawn := by
  decide

/-- Witness of `give_up_from_sixth_in_window`: seven deaths between 100 and
    700 ms after start-up; the seventh is given up on. -/
theorem give_up_from_sixth_in_window_witness :
    (handle_input_method_sigchld
      (run_deaths (fun _ => some (4712, 2)) fresh_text_backend
        [100, 200, 300, 400, 500, 600]).1 700 (some (4712, 2))).2 = sigchld_outcome.gave_up ∧
    (handle_input_method_sigchld
      (run_deaths (fun _ => some (4712, 2)) fresh_text_backend
        [100, 200, 300, 400, 500, 600]).1 700 (some (4712, 2))).1.pid = 0 ∧
    (handle_input_method_sigchld
      (run_deaths (fun _ => some (4712, 2)) fresh_text_backend
        [100, 200, 300, 400, 500, 600]).1 700 (some (4712, 2))).1.client = none :=
  give_up_from_sixth_in_window fresh_text_backend (fun _ => some (4712, 2)) 100
    [200, 300, 400, 500, 600] 700 (Or.inr rfl) (by decide) (by decide) (by decide) (by decide)

/-! ## The slot table -/

/-- A slot inside the table can be read. -/
theorem mt_slot_get_some (mt : evdev_mt) (slot : Int) (h0 : 0 ≤ slot)
    (h1 : slot < mt.slots.length) : ∃ p, mt_slot_get mt slot = some p := by
  have hlt : slot.toNat < mt.slots.length := by omega
  exact ⟨mt.slots.get ⟨slot.toNat, hlt⟩, by
    unfold mt_slot_get
    rw [if_pos h0]
    exact List.get?_eq_get hlt⟩

/-- A slot inside the table can be written; the table keeps its size and
    the current slot. -/
theorem mt_slot_set_some (mt : evdev_mt) (slot : Int) (f : mt_slot → mt_slot) (h0 : 0 ≤ slot)
    (h1 : slot < mt.slots.length) :
    ∃ mt2, mt_slot_set mt slot f = some mt2 ∧ mt2.slot = mt.slot ∧
      mt2.slots.length = mt.slots.length := by
  obtain ⟨p, hp⟩ := mt_slot_get_some mt slot h0 h1
  refine ⟨{ mt with slots := mt.slots.set slot.toNat (f p) }, ?_, rfl, ?_⟩
  · unfold mt_slot_set
    rw [hp]
  · simp

/-- With the current slot in the table the flush returns; it changes the
    pending event and the accumulator only. -/
theorem evdev_flush_in_table (n : Nat) (d : evdev_device) (time : Nat)
    (hd : mt_device_ok n d) :
    ∃ d2 out, evdev_flush_pending_event d time = some (d2, out) ∧
      d2.mt = d.mt ∧ d2.abs = d.abs ∧ d2.is_mt = d.is_mt ∧ d2.output = d.output := by
  obtain ⟨_, hlen, h0, h1, _⟩ := hd
  obtain ⟨p, hp⟩ := mt_slot_get_some d.mt d.mt.slot h0 (by omega)
  cases hpe : d.pending_event <;>
    by_cases ht : d.seat_caps.touch = true <;>
    by_cases hptr : d.seat_caps.pointer = true <;>
    simp [evdev_flush_pending_event, hpe, hp, ht, hptr]

/-- The invariant depends on the slot table, the axis ranges and `is_mt`
    only. -/
theorem mt_device_ok_of_eq (n : Nat) (d d2 : evdev_device) (hd : mt_device_ok n d)
    (hmt : d2.mt = d.mt) (habs : d2.abs = d.abs) (his : d2.is_mt = d.is_mt) :
    mt_device_ok n d2 := by
  unfold mt_device_ok at hd ⊢
  rw [hmt, habs, his]
  exact hd

/-- One event of the fallback dispatch on a multitouch device whose current
    slot is in the table, the event not selecting a slot outside the table:
    the dispatch returns and the current slot is in the table afterwards. -/
theorem fallback_process_in_table (n : Nat) (d : evdev_device) (e : input_event) (time : Nat)
    (hd : mt_device_ok n d)
    (he : e.type = EV_ABS → e.code = ABS_MT_SLOT → 0 ≤ e.value ∧ e.value < n) :
    ∃ d2 out, fallback_process d e time = some (d2, out) ∧ mt_device_ok n d2 := by
  obtain ⟨df, outf, hf, hmt, habs, his, hout⟩ := evdev_flush_in_table n d time hd
  have hdf : mt_device_ok n df := mt_device_ok_of_eq n d df hd hmt habs his
  have hd2 := hd
  obtain ⟨hismt, hlen, h0, h1, hx1, hx2, hx3, hy1, hy2, hy3⟩ := hd2
  obtain ⟨px, hpx⟩ := scale_axis_some e.value d.abs.min_x d.abs.max_x d.output.width hx1 hx2 hx3
  obtain ⟨py, hpy⟩ := scale_axis_some e.value d.abs.min_y d.abs.max_y d.output.height hy1 hy2 hy3
  obtain ⟨mx, hmx, hmx1, hmx2⟩ :=
    mt_slot_set_some d.mt d.mt.slot (fun p => { p with x := px }) h0 (by omega)
  obtain ⟨my, hmy, hmy1, hmy2⟩ :=
    mt_slot_set_some d.mt d.mt.slot (fun p => { p with y := py }) h0 (by omega)
  unfold fallback_process
  by_cases hrel : e.type = EV_REL
  · rw [if_pos hrel]
    unfold evdev_process_relative
    split_ifs <;> (try simp only [hf]) <;>
      first
      | exact ⟨_, _, rfl, mt_device_ok_of_eq n d _ hd rfl rfl rfl⟩
      | exact ⟨_, _, rfl, mt_device_ok_of_eq n df _ hdf rfl rfl rfl⟩
  · rw [if_neg hrel]
    by_cases habs2 : e.type = EV_ABS
    · rw [if_pos habs2]
      unfold evdev_process_absolute
      rw [if_pos hismt]
      unfold evdev_process_touch
      by_cases hslot : e.code = ABS_MT_SLOT
      · rw [if_pos hslot]
        simp only [hf]
        refine ⟨_, _, rfl, ?_⟩
        obtain ⟨hv0, hv1⟩ := he habs2 hslot
        unfold mt_device_ok at hdf ⊢
        simp only []
        rw [hmt, habs, his] at *
        exact ⟨hismt, hlen, hv0, hv1, hx1, hx2, hx3, hy1, hy2, hy3⟩
      · rw [if_neg hslot]
        by_cases htid : e.code = ABS_MT_TRACKING_ID
        · rw [if_pos htid]
          split_ifs <;> (try simp only [hf]) <;>
            first
            | exact ⟨_, _, rfl, mt_device_ok_of_eq n d _ hd rfl rfl rfl⟩
            | exact ⟨_, _, rfl, mt_device_ok_of_eq n df _ hdf rfl rfl rfl⟩
        · rw [if_neg htid]
          by_cases hpx2 : e.code = ABS_MT_POSITION_X
          · rw [if_pos hpx2]
            simp only [hpx, hmx]
            refine ⟨_, _, rfl, ?_⟩
            unfold mt_device_ok
            simp only []
            rw [hmx1, hmx2]
            exact ⟨hismt, hlen, h0, h1, hx1, hx2, hx3, hy1, hy2, hy3⟩
          · rw [if_neg hpx2]
            by_cases hpy2 : e.code = ABS_MT_POSITION_Y
            · rw [if_pos hpy2]
              simp only [hpy, hmy]
              refine ⟨_, _, rfl, ?_⟩
              unfold mt_device_ok
              simp only []
              rw [hmy1, hmy2]
              exact ⟨hismt, hlen, h0, h1, hx1, hx2, hx3, hy1, hy2, hy3⟩
            · rw [if_neg hpy2]
              exact ⟨_, _, rfl, hd⟩
    · rw [if_neg habs2]
      by_cases hkey : e.type = EV_KEY
      · rw [if_pos hkey]
        unfold evdev_process_key
        simp only [hismt, Bool.not_true, Bool.false_eq_true, if_false]
        split_ifs <;> (try simp only [hf]) <;>
          first
          | exact ⟨_, _, rfl, hd⟩
          | exact ⟨_, _, rfl, hdf⟩
      · rw [if_neg hkey]
        split_ifs
        · exact ⟨df, outf, hf, hdf⟩
        · exact ⟨_, _, rfl, hd⟩

/-- C28, as amended. On a multitouch device whose current slot is in the
    slot table (and whose axis ranges are not empty), for every event
    sequence whose `ABS_MT_SLOT` events carry values inside the table, the
    fallback dispatch processes the whole sequence without a read or write
    of `mt.slots[mt.slot]` outside the table, and the current slot is in the
    table at the end. -/
theorem slot_index_in_table (n : Nat) (es : List input_event) :
    ∀ d : evdev_device, mt_device_ok n d →
      (∀ e ∈ es, e.type = EV_ABS → e.code = ABS_MT_SLOT → 0 ≤ e.value ∧ e.value < n) →
      ∃ d2 out, evdev_process_events d es = some (d2, out) ∧ mt_device_ok n d2 := by
  induction es with
  | nil =>
    intro d hd _
    exact ⟨d, [], rfl, hd⟩
  | cons e es ih =>
    intro d hd hes
    obtain ⟨d1, out1, h1, hd1⟩ :=
      fallback_process_in_table n d e (ev_time e) hd (hes e (List.mem_cons_self e es))
    obtain ⟨d2, out2, h2, hd2⟩ := ih d1 hd1 (fun x hx => hes x (List.mem_cons_of_mem e hx))
    refine ⟨d2, out1 ++ out2, ?_, hd2⟩
    simp only [evdev_process_events, h1, h2]

/-- C28, counterexample. On the sample touchscreen (16 slots) an
    `ABS_MT_SLOT` event with value 16 is taken as it is: the current slot is
    then outside the table, and the `ABS_MT_POSITION_X` event that follows
    writes `mt.slots[16]`. -/
theorem slot_event_leaves_table :
    (evdev_process_events sample_touchscreen [abs_event (0, 0) ABS_MT_SLOT 16]).map
      (fun r => (r.1.mt.slot, r.1.mt.slots.length, (mt_slot_get r.1.mt r.1.mt.slot).isSome))
      = some (16, 16, false) ∧
    (evdev_process_events sample_touchscreen
      [abs_event (0, 0) ABS_MT_SLOT 16, abs_event (0, 0) ABS_MT_POSITION_X 5]).isSome = false := by
  decide

/-- Witness of `slot_index_in_table`: slot 3 is selected and a position
    written on the sample touchscreen. -/
theorem slot_index_in_table_witness :
    ∃ d2 out, evdev_process_events sample_touchscreen
        [abs_event (0, 0) ABS_MT_SLOT 3, abs_event (0, 0) ABS_MT_POSITION_X 5] = some (d2, out) ∧
      mt_device_ok 16 d2 :=
  slot_index_in_table 16
    [abs_event (0, 0) ABS_MT_SLOT 3, abs_event (0, 0) ABS_MT_POSITION_X 5]
    sample_touchscreen (by decide) (by decide)

/-! ## The overview grid -/

/-- The counting loop adds the number of eligible views. -/
theorem exposay_count_surfaces_eq (views : List weston_view) :
    ∀ k : Int, 0 ≤ k → k + (exposay_eligible views).length < 2147483648 →
      exposay_count_surfaces views k = k + (exposay_eligible views).length := by
  induction views with
  | nil =>
    intro k _ _
    simp [exposay_count_surfaces, exposay_eligible]
  | cons v vs ih =>
    intro k h0 h1
    unfold exposay_count_surfaces
    by_cases hv : v.has_shell_surface = true
    · have he : exposay_eligible (v :: vs) = v :: exposay_eligible vs := by
        simp [exposay_eligible, hv]
      rw [he] at h1 ⊢
      simp only [List.length_cons, Nat.cast_add, Nat.cast_one] at h1 ⊢
      have hc : c_add k 1 = k + 1 := by
        unfold c_add wrap32
        omega
      rw [if_pos hv, hc, ih (k + 1) (by omega) (by omega)]
      omega
    · have he : exposay_eligible (v :: vs) = exposay_eligible vs := by
        simp [exposay_eligible, hv]
      rw [he] at h1 ⊢
      rw [if_neg hv]
      exact ih k h0 h1

/-- The grid size for `n` surfaces, `1 <= n <= INT_MAX`: the least `g` with
    `n <= g * g`. -/
theorem exposay_grid_size_spec (n : Nat) (h1 : 1 ≤ n) (h2 : n < 2147483648) :
    1 ≤ exposay_grid_size n ∧ exposay_grid_size n ≤ 46341 ∧
    (n : Int) ≤ exposay_grid_size n * exposay_grid_size n ∧
    (exposay_grid_size n - 1) * (exposay_grid_size n - 1) < n := by
  have hs1 : Nat.sqrt n * Nat.sqrt n ≤ n := Nat.sqrt_le n
  have hs2 : n < (Nat.sqrt n + 1) * (Nat.sqrt n + 1) := Nat.lt_succ_sqrt n
  have hmax : Nat.sqrt 2147483647 = 46340 := (Nat.eq_sqrt.2 ⟨by decide, by decide⟩).symm
  have hs3 : Nat.sqrt n ≤ 46340 := by
    rw [← hmax]
    exact Nat.sqrt_le_sqrt (by omega)
  have hs4 : 1 ≤ Nat.sqrt n := by
    by_contra hc
    have : Nat.sqrt n = 0 := by omega
    rw [this] at hs2
    omega
  have hto : (n : Int).toNat = n := Int.toNat_natCast n
  unfold exposay_grid_size
  simp only [hto]
  have hs1i : (Nat.sqrt n : Int) * (Nat.sqrt n : Int) ≤ (n : Int) := by exact_mod_cast hs1
  have hs2i : (n : Int) < ((Nat.sqrt n : Int) + 1) * ((Nat.sqrt n : Int) + 1) := by
    exact_mod_cast hs2
  by_cases hsq : (Nat.sqrt n : Int) * (Nat.sqrt n : Int) ≠ (n : Int)
  · rw [if_pos hsq]
    have hc : c_add (Nat.sqrt n : Int) 1 = (Nat.sqrt n : Int) + 1 := by
      unfold c_add wrap32
      omega
    rw [hc]
    refine ⟨by omega, by omega, by omega, ?_⟩
    have : (Nat.sqrt n : Int) + 1 - 1 = (Nat.sqrt n : Int) := by omega
    rw [this]
    omega
  · rw [if_neg hsq]
    have heq : (Nat.sqrt n : Int) * (Nat.sqrt n : Int) = (n : Int) := not_not.1 hsq
    refine ⟨by omega, by omega, by omega, ?_⟩
    nlinarith

/-- An entry depends on the layout parameters only. -/
theorem exposay_make_surface_congr (ex ex2 : exposay) (lrr i : Int) (v : weston_view)
    (h1 : ex2.grid_size = ex.grid_size) (h2 : ex2.surface_size = ex.surface_size)
    (h3 : ex2.padding_inner = ex.padding_inner) (h4 : ex2.hpadding_outer = ex.hpadding_outer)
    (h5 : ex2.vpadding_outer = ex.vpadding_outer) :
    exposay_make_surface ex2 lrr i v = exposay_make_surface ex lrr i v := by
  unfold exposay_make_surface
  rw [h1, h2, h3, h4, h5]

/-- One turn of the second loop of `exposay_layout` on an eligible view: the
    entry is put in front of the surface list, the layout parameters stay. -/
theorem exposay_layout_loop_step (lrr : Int) (v : weston_view) (vs : List weston_view)
    (i : Int) (ex : exposay) (hv : v.has_shell_surface = true) :
    ∃ ex3, exposay_layout_loop lrr (v :: vs) i ex = exposay_layout_loop lrr vs (c_add i 1) ex3 ∧
      ex3.surface_list = exposay_make_surface ex lrr i v :: ex.surface_list ∧
      ex3.grid_size = ex.grid_size ∧ ex3.surface_size = ex.surface_size ∧
      ex3.padding_inner = ex.padding_inner ∧ ex3.hpadding_outer = ex.hpadding_outer ∧
      ex3.vpadding_outer = ex.vpadding_outer ∧ ex3.num_surfaces = ex.num_surfaces := by
  by_cases hfocus : ex.focus_current = some (exposay_make_surface ex lrr i v).view
  · refine ⟨exposay_animate_in
      (exposay_highlight_surface
        { ex with surface_list := exposay_make_surface ex lrr i v :: ex.surface_list }
        (exposay_make_surface ex lrr i v))
      (exposay_make_surface ex lrr i v) v, ?_, rfl, rfl, rfl, rfl, rfl, rfl, rfl⟩
    rw [exposay_layout_loop]
    simp only [hv, Bool.not_true, Bool.false_eq_true, if_false, hfocus, if_true]
  · refine ⟨exposay_animate_in
      { ex with surface_list := exposay_make_surface ex lrr i v :: ex.surface_list }
      (exposay_make_surface ex lrr i v) v, ?_, rfl, rfl, rfl, rfl, rfl, rfl, rfl⟩
    rw [exposay_layout_loop]
    simp only [hv, Bool.not_true, Bool.false_eq_true, if_false, hfocus]

/-- The second loop of `exposay_layout`: it leaves the layout parameters
    alone and puts one entry per eligible view in front of the surface list,
    the `j`-th of them made for index `a + j`. -/
theorem exposay_layout_loop_spec (lrr : Int) (views : List weston_view) :
    ∀ (a : Nat) (ex : exposay), a + (exposay_eligible views).length < 2147483648 →
      (exposay_layout_loop lrr views a ex).surface_list.reverse =
        ex.surface_list.reverse ++
          (List.enumFrom a (exposay_eligible views)).map
            (fun p => exposay_make_surface ex lrr (p.1 : Nat) p.2) ∧
      (exposay_layout_loop lrr views a ex).grid_size = ex.grid_size ∧
      (exposay_layout_loop lrr views a ex).surface_size = ex.surface_size ∧
      (exposay_layout_loop lrr views a ex).padding_inner = ex.padding_inner ∧
      (exposay_layout_loop lrr views a ex).hpadding_outer = ex.hpadding_outer ∧
      (exposay_layout_loop lrr views a ex).vpadding_outer = ex.vpadding_outer ∧
      (exposay_layout_loop lrr views a ex).num_surfaces = ex.num_surfaces := by
  induction views with
  | nil =>
    intro a ex _
    simp [exposay_layout_loop, exposay_eligible]
  | cons v vs ih =>
    intro a ex hlen
    by_cases hv : v.has_shell_surface = true
    · have he : exposay_eligible (v :: vs) = v :: exposay_eligible vs := by
        simp [exposay_eligible, hv]
      rw [he] at hlen ⊢
      simp only [List.length_cons] at hlen
      have hc : c_add (a : Int) 1 = ((a + 1 : Nat) : Int) := by
        unfold c_add wrap32
        push_cast
        omega
      obtain ⟨ex3, hstep, hsl, p1, p2, p3, p4, p5, p6⟩ :=
        exposay_layout_loop_step lrr v vs a ex hv
      rw [hstep, hc]
      obtain ⟨r1, r2, r3, r4, r5, r6, r7⟩ := ih (a + 1) ex3 (by omega)
      refine ⟨?_, r2.trans p1, r3.trans p2, r4.trans p3, r5.trans p4, r6.trans p5, r7.trans p6⟩
      have hm : (List.enumFrom (a + 1) (exposay_eligible vs)).map
            (fun p => exposay_make_surface ex3 lrr (p.1 : Nat) p.2) =
          (List.enumFrom (a + 1) (exposay_eligible vs)).map
            (fun p => exposay_make_surface ex lrr (p.1 : Nat) p.2) :=
        List.map_congr_left
          (fun p _ => exposay_make_surface_congr ex ex3 lrr _ p.2 p1 p2 p3 p4 p5)
      rw [r1, hsl, hm]
      simp only [List.reverse_cons, List.append_assoc, List.singleton_append,
        List.enumFrom_cons, List.map_cons]
    · have he : exposay_eligible (v :: vs) = exposay_eligible vs := by
        simp [exposay_eligible, hv]
      rw [he] at hlen ⊢
      rw [exposay_layout_loop]
      simp only [hv, Bool.not_false, if_true]
      exact ih a ex hlen

/-- With `n >= 1` eligible views `exposay_layout` runs its second loop from
    an empty surface list with the parameters it computed. -/
theorem exposay_layout_params (ex : exposay) (W H : Int) (views : List weston_view)
    (h1 : 1 ≤ (exposay_eligible views).length)
    (h2 : (exposay_eligible views).length < 2147483648) :
    ∃ P : exposay,
      P.grid_size = exposay_grid_size (exposay_eligible views).length ∧
      P.hpadding_outer = c_quot W 10 ∧ P.vpadding_outer = c_quot H 10 ∧
      P.padding_inner = 80 ∧
      P.surface_size = exposay_cell_size W H (exposay_grid_size (exposay_eligible views).length) ∧
      P.num_surfaces = (exposay_eligible views).length ∧ P.surface_list = [] ∧
      (exposay_layout ex W H views).1.surface_list =
        (exposay_layout_loop
          (c_sub (c_mul (exposay_grid_size (exposay_eligible views).length)
            (exposay_grid_size (exposay_eligible views).length))
            (exposay_eligible views).length) views 0 P).surface_list ∧
      (exposay_layout ex W H views).1.grid_size =
        (exposay_layout_loop
          (c_sub (c_mul (exposay_grid_size (exposay_eligible views).length)
            (exposay_grid_size (exposay_eligible views).length))
            (exposay_eligible views).length) views 0 P).grid_size ∧
      (exposay_layout ex W H views).1.surface_size =
        (exposay_layout_loop
          (c_sub (c_mul (exposay_grid_size (exposay_eligible views).length)
            (exposay_grid_size (exposay_eligible views).length))
            (exposay_eligible views).length) views 0 P).surface_size ∧
      (exposay_layout ex W H views).1.padding_inner =
        (exposay_layout_loop
          (c_sub (c_mul (exposay_grid_size (exposay_eligible views).length)
            (exposay_grid_size (exposay_eligible views).length))
            (exposay_eligible views).length) views 0 P).padding_inner ∧
      (exposay_layout ex W H views).1.hpadding_outer =
        (exposay_layout_loop
          (c_sub (c_mul (exposay_grid_size (exposay_eligible views).length)
            (exposay_grid_size (exposay_eligible views).length))
            (exposay_eligible views).length) views 0 P).hpadding_outer ∧
      (exposay_layout ex W H views).1.vpadding_outer =
        (exposay_layout_loop
          (c_sub (c_mul (exposay_grid_size (exposay_eligible views).length)
            (exposay_grid_size (exposay_eligible views).length))
            (exposay_eligible views).length) views 0 P).vpadding_outer := by
  have hcount : exposay_count_surfaces views 0 = ((exposay_eligible views).length : Int) := by
    rw [exposay_count_surfaces_eq views 0 (le_refl 0) (by omega)]
    omega
  have hne : ¬ ((exposay_eligible views).length : Int) = 0 := by omega
  refine ⟨{ ex with
      surface_list := [], num_surfaces := (exposay_eligible views).length,
      grid_size := exposay_grid_size (exposay_eligible views).length,
      hpadding_outer := c_quot W 10, vpadding_outer := c_quot H 10, padding_inner := 80,
      surface_size :=
        exposay_cell_size W H (exposay_grid_size (exposay_eligible views).length) },
    rfl, rfl, rfl, rfl, rfl, rfl, rfl, ?_⟩
  unfold exposay_layout
  simp only [hcount, hne, if_false]
  exact ⟨rfl, rfl, rfl, rfl, rfl, rfl⟩

/-- What `exposay_layout` leaves for `n >= 1` eligible views: the layout
    parameters, and one entry per eligible view, in the order of the views,
    the `j`-th made for index `j`. -/
theorem exposay_layout_entries (ex : exposay) (W H : Int) (views : List weston_view)
    (h1 : 1 ≤ (exposay_eligible views).length)
    (h2 : (exposay_eligible views).length < 2147483648) :
    (exposay_layout ex W H views).1.grid_size =
      exposay_grid_size (exposay_eligible views).length ∧
    (exposay_layout ex W H views).1.hpadding_outer = c_quot W 10 ∧
    (exposay_layout ex W H views).1.vpadding_outer = c_quot H 10 ∧
    (exposay_layout ex W H views).1.padding_inner = 80 ∧
    (exposay_layout ex W H views).1.surface_size =
      exposay_cell_size W H (exposay_grid_size (exposay_eligible views).length) ∧
    exposay_entries (exposay_layout ex W H views).1 =
      (List.enumFrom 0 (exposay_eligible views)).map
        (fun p => exposay_make_surface (exposay_layout ex W H views).1
          (c_sub (c_mul (exposay_grid_size (exposay_eligible views).length)
            (exposay_grid_size (exposay_eligible views).length))
            (exposay_eligible views).length) (p.1 : Nat) p.2) := by
  obtain ⟨P, p1, p2, p3, p4, p5, _, p7, q1, q2, q3, q4, q5, q6⟩ :=
    exposay_layout_params ex W H views h1 h2
  obtain ⟨r1, r2, r3, r4, r5, r6, _⟩ := exposay_layout_loop_spec
    (c_sub (c_mul (exposay_grid_size (exposay_eligible views).length)
      (exposay_grid_size (exposay_eligible views).length))
      (exposay_eligible views).length) views 0 P (by omega)
  have hz : ((0 : Nat) : Int) = 0 := rfl
  rw [hz] at r1 r2 r3 r4 r5 r6
  have g1 := q2.trans (r2.trans p1)
  have g2 := q5.trans (r5.trans p2)
  have g3 := q6.trans (r6.trans p3)
  have g4 := q4.trans (r4.trans p4)
  have g5 := q3.trans (r3.trans p5)
  refine ⟨g1, g2, g3, g4, g5, ?_⟩
  unfold exposay_entries
  rw [q1, r1, p7]
  simp only [List.reverse_nil, List.nil_append]
  apply List.map_congr_left
  intro p _
  exact (exposay_make_surface_congr P _ _ _ p.2 (q2.trans r2) (q3.trans r3) (q4.trans r4)
    (q5.trans r5) (q6.trans r6)).symm

/-- `int` division and remainder of a non-negative `int` by a positive one
    are the mathematical quotient and remainder. -/
theorem c_quot_rem_nonneg (a g : Int) (h0 : 0 ≤ a) (h1 : a < 2147483648) (hg : 1 ≤ g) :
    c_quot a g = a / g ∧ c_rem a g = a % g := by
  have hq0 : 0 ≤ a / g := Int.ediv_nonneg h0 (by omega)
  have hq1 : a / g ≤ a := Int.ediv_le_self g h0
  have hm0 : 0 ≤ a % g := Int.emod_nonneg a (by omega)
  have hm2 : a % g + g * (a / g) = a := Int.emod_add_ediv a g
  have hm3 : 0 ≤ g * (a / g) := mul_nonneg (by omega) hq0
  unfold c_quot c_rem
  rw [Int.tdiv_eq_ediv h0 (by omega), Int.tmod_eq_emod h0 (by omega)]
  unfold wrap32
  constructor <;> omega

/-- The cell of the entry made for index `i`. -/
theorem exposay_make_surface_cell (ex : exposay) (lrr : Int) (i : Nat) (v : weston_view)
    (hi : i < 2147483648) (hg : 1 ≤ ex.grid_size) :
    exposay_cell (exposay_make_surface ex lrr (i : Nat) v) = grid_cell ex.grid_size i := by
  obtain ⟨hq, hr⟩ := c_quot_rem_nonneg (i : Int) ex.grid_size (by omega) (by omega) hg
  unfold exposay_cell grid_cell exposay_make_surface
  simp only [hq, hr]

/-- The cells of the entries of a layout, in the order of creation. -/
theorem exposay_layout_cells (ex : exposay) (W H : Int) (views : List weston_view)
    (h1 : 1 ≤ (exposay_eligible views).length)
    (h2 : (exposay_eligible views).length < 2147483648) :
    (exposay_entries (exposay_layout ex W H views).1).map exposay_cell =
      (List.range (exposay_eligible views).length).map
        (grid_cell (exposay_grid_size (exposay_eligible views).length)) := by
  obtain ⟨g1, _, _, _, _, hent⟩ := exposay_layout_entries ex W H views h1 h2
  obtain ⟨hg1, _⟩ := exposay_grid_size_spec _ h1 h2
  rw [hent, List.map_map, List.range_eq_range', ← List.enumFrom_map_fst 0 (exposay_eligible views),
    List.map_map]
  apply List.map_congr_left
  intro p hp
  have hlt : p.1 < 0 + (exposay_eligible views).length := by
    have := List.fst_lt_add_of_mem_enumFrom hp
    omega
  simp only [Function.comp]
  rw [exposay_make_surface_cell _ _ p.1 p.2 (by omega) (by rw [g1]; exact hg1), g1]

/-- Distinct indices below `g * g` have distinct cells, inside the grid. -/
theorem grid_cell_inj (g : Int) (n : Nat) (hg : 1 ≤ g) (hn : (n : Int) ≤ g * g) :
    (∀ i, i < n → 0 ≤ (grid_cell g i).1 ∧ (grid_cell g i).1 < g ∧
      0 ≤ (grid_cell g i).2 ∧ (grid_cell g i).2 < g) ∧
    (∀ i j, i < n → j < n → grid_cell g i = grid_cell g j → i = j) := by
  constructor
  · intro i hi
    unfold grid_cell
    refine ⟨Int.ediv_nonneg (by omega) (by omega), ?_, Int.emod_nonneg _ (by omega),
      Int.emod_lt_of_pos _ (by omega)⟩
    exact Int.ediv_lt_of_lt_mul (by omega) (by omega)
  · intro i j _ _ h
    unfold grid_cell at h
    have hq : (i : Int) / g = (j : Int) / g := congrArg Prod.fst h
    have hr : (i : Int) % g = (j : Int) % g := congrArg Prod.snd h
    have e1 := Int.emod_add_ediv (i : Int) g
    have e2 := Int.emod_add_ediv (j : Int) g
    rw [hq, hr] at e1
    have : (i : Int) = j := e1.symm.trans e2
    exact_mod_cast this

/-- C24. For `n >= 1` eligible views (an `int` count), `exposay_layout` sets
    `grid_size` to the least `g` with `g * g >= n`, and the `i`-th entry it
    makes gets row `i div g` and column `i mod g`; these cells lie inside the
    `g x g` grid and are pairwise distinct. -/
theorem exposay_layout_grid (ex : exposay) (W H : Int) (views : List weston_view)
    (h1 : 1 ≤ (exposay_eligible views).length)
    (h2 : (exposay_eligible views).length < 2147483648) :
    ((exposay_eligible views).length : Int) ≤
      (exposay_layout ex W H views).1.grid_size * (exposay_layout ex W H views).1.grid_size ∧
    (∀ k : Int, 0 ≤ k → ((exposay_eligible views).length : Int) ≤ k * k →
      (exposay_layout ex W H views).1.grid_size ≤ k) ∧
    (exposay_entries (exposay_layout ex W H views).1).map (fun e => (e.row, e.column)) =
      (List.range (exposay_eligible views).length).map
        (fun (i : Nat) => ((i : Int) / (exposay_layout ex W H views).1.grid_size,
                   (i : Int) % (exposay_layout ex W H views).1.grid_size)) ∧
    (∀ i, i < (exposay_eligible views).length →
      (i : Int) / (exposay_layout ex W H views).1.grid_size <
        (exposay_layout ex W H views).1.grid_size ∧
      (i : Int) % (exposay_layout ex W H views).1.grid_size <
        (exposay_layout ex W H views).1.grid_size) ∧
    (∀ i j, i < (exposay_eligible views).length → j < (exposay_eligible views).length →
      ((i : Int) / (exposay_layout ex W H views).1.grid_size,
       (i : Int) % (exposay_layout ex W H views).1.grid_size) =
      ((j : Int) / (exposay_layout ex W H views).1.grid_size,
       (j : Int) % (exposay_layout ex W H views).1.grid_size) → i = j) := by
  obtain ⟨g1, _⟩ := exposay_layout_entries ex W H views h1 h2
  obtain ⟨hg1, _, hg3, hg4⟩ := exposay_grid_size_spec _ h1 h2
  obtain ⟨hin, hinj⟩ := grid_cell_inj _ _ hg1 hg3
  have hcells := exposay_layout_cells ex W H views h1 h2
  rw [g1]
  refine ⟨hg3, ?_, hcells, ?_, hinj⟩
  · intro k hk0 hk
    by_contra hc
    have hlt : k ≤ exposay_grid_size (exposay_eligible views).length - 1 := by omega
    have : k * k ≤ (exposay_grid_size (exposay_eligible views).length - 1) *
        (exposay_grid_size (exposay_eligible views).length - 1) :=
      mul_le_mul hlt hlt hk0 (by omega)
    omega
  · intro i hi
    exact ⟨(hin i hi).2.1, (hin i hi).2.2.2⟩

/-- Witness of `exposay_layout_grid`: the five views of the sample
    workspace. -/
theorem exposay_layout_grid_witness :
    (exposay_entries (exposay_layout exposay_idle 1000 1000 five_views).1).map
        (fun e => (e.row, e.column)) =
      (List.range (exposay_eligible five_views).length).map
        (fun (i : Nat) => ((i : Int) / (exposay_layout exposay_idle 1000 1000 five_views).1.grid_size,
                   (i : Int) % (exposay_layout exposay_idle 1000 1000 five_views).1.grid_size)) :=
  (exposay_layout_grid exposay_idle 1000 1000 five_views (by decide) (by decide)).2.2.1

/-! ## Tab in the overview -/

/-- `exposay_maybe_move` on a cell no entry has: nothing changes. -/
theorem exposay_maybe_move_none (ex : exposay) (row column : Int)
    (h : ∀ es ∈ ex.surface_list, exposay_cell es ≠ (row, column)) :
    exposay_maybe_move ex row column = (ex, 0) := by
  have hf : ex.surface_list.find?
      (fun es => !(decide (es.row ≠ row) || decide (es.column ≠ column))) = none := by
    rw [List.find?_eq_none]
    intro es hes hp
    apply h es hes
    simp only [Bool.not_eq_true', Bool.or_eq_false_iff, decide_eq_false_iff_not, not_not] at hp
    unfold exposay_cell
    rw [hp.1, hp.2]
  unfold exposay_maybe_move
  rw [hf]

/-- `exposay_maybe_move` on the cell of an entry, when the cells of the
    entries are pairwise distinct: that entry is highlighted. -/
theorem exposay_maybe_move_some (ex : exposay) (e : exposay_surface)
    (he : e ∈ ex.surface_list) (hnd : (ex.surface_list.map exposay_cell).Nodup) :
    exposay_maybe_move ex e.row e.column = (exposay_highlight_surface ex e, 1) := by
  cases hf : ex.surface_list.find?
      (fun es => !(decide (es.row ≠ e.row) || decide (es.column ≠ e.column))) with
  | none =>
    rw [List.find?_eq_none] at hf
    exact absurd (by simp) (hf e he)
  | some es =>
    have hp := List.find?_some hf
    have hmem := List.mem_of_find?_eq_some hf
    simp only [Bool.not_eq_true', Bool.or_eq_false_iff, decide_eq_false_iff_not, not_not] at hp
    have hcell : exposay_cell es = exposay_cell e := by
      unfold exposay_cell
      rw [hp.1, hp.2]
    have hes : es = e := List.inj_on_of_nodup_map hnd hmem he hcell
    unfold exposay_maybe_move
    rw [hf, hes]

/-- The cell of index `j` when `j = g * r + c` with `0 <= c < g`. -/
theorem grid_cell_of_eq (g : Int) (j : Nat) (r c : Int) (hc0 : 0 ≤ c) (hc1 : c < g)
    (hj : (j : Int) = g * r + c) : grid_cell g j = (r, c) := by
  unfold grid_cell
  rw [hj]
  have h1 : (g * r + c) / g = r := by
    rw [add_comm, Int.add_mul_ediv_left c r (by omega), Int.ediv_eq_zero_of_lt hc0 hc1]
    omega
  have h2 : (g * r + c) % g = c := by
    rw [add_comm, Int.add_mul_emod_self_left, Int.emod_eq_of_lt hc0 hc1]
  rw [h1, h2]

/-- An index is determined by its cell. -/
theorem grid_cell_index (g : Int) (j : Nat) (r c : Int) (hg : 1 ≤ g)
    (h : grid_cell g j = (r, c)) : (j : Int) = g * r + c ∧ 0 ≤ c ∧ c < g := by
  unfold grid_cell at h
  have hq : (j : Int) / g = r := congrArg Prod.fst h
  have hr : (j : Int) % g = c := congrArg Prod.snd h
  have e1 := Int.emod_add_ediv (j : Int) g
  rw [hq, hr] at e1
  rw [← hr]
  exact ⟨by omega, Int.emod_nonneg _ (by omega), Int.emod_lt_of_pos _ (by omega)⟩

/-- When the cells of the entries, in the order of creation, are the cells
    of the indices below `n`: the cells are pairwise distinct, every index
    below `n` has its entry, and every entry has its index. -/
theorem exposay_cells_facts (ex : exposay) (n : Nat) (g : Int) (hg : 1 ≤ g)
    (hcells : (exposay_entries ex).map exposay_cell = (List.range n).map (grid_cell g)) :
    (ex.surface_list.map exposay_cell).Nodup ∧
    (∀ j, j < n → ∃ e, (exposay_entries ex)[j]? = some e ∧ e ∈ ex.surface_list ∧
      exposay_cell e = grid_cell g j) ∧
    (∀ es ∈ ex.surface_list, ∃ j, j < n ∧ exposay_cell es = grid_cell g j) := by
  have hnd : ((List.range n).map (grid_cell g)).Nodup := by
    apply List.Nodup.map_on _ (List.nodup_range n)
    intro x _ y _ hxy
    obtain ⟨h1, _, _⟩ := grid_cell_index g x (grid_cell g y).1 (grid_cell g y).2 hg hxy
    obtain ⟨h2, _, _⟩ := grid_cell_index g y (grid_cell g y).1 (grid_cell g y).2 hg rfl
    have : (x : Int) = y := h1.trans h2.symm
    exact_mod_cast this
  refine ⟨?_, ?_, ?_⟩
  · rw [← hcells] at hnd
    unfold exposay_entries at hnd
    rw [List.map_reverse] at hnd
    exact List.nodup_reverse.1 hnd
  · intro j hj
    have hlen : (exposay_entries ex).length = n := by
      have := congrArg List.length hcells
      simpa using this
    have hjl : j < (exposay_entries ex).length := by omega
    refine ⟨(exposay_entries ex)[j], List.getElem?_eq_getElem hjl, ?_, ?_⟩
    · have hm : (exposay_entries ex)[j] ∈ exposay_entries ex := List.getElem_mem hjl
      unfold exposay_entries at hm
      exact List.mem_reverse.1 hm
    · have h1 : ((exposay_entries ex).map exposay_cell)[j]? =
          ((List.range n).map (grid_cell g))[j]? := by rw [hcells]
      rw [List.getElem?_map, List.getElem?_map, List.getElem?_eq_getElem hjl,
        List.getElem?_range hj] at h1
      exact Option.some.inj h1
  · intro es hes
    have hm : exposay_cell es ∈ (exposay_entries ex).map exposay_cell := by
      apply List.mem_map_of_mem
      unfold exposay_entries
      exact List.mem_reverse.2 hes
    rw [hcells] at hm
    obtain ⟨j, hj, hjc⟩ := List.mem_map.1 hm
    exact ⟨j, List.mem_range.1 hj, hjc.symm⟩

/-- A move to the cell of an index below `n` highlights its entry. -/
theorem exposay_move_to_index (ex : exposay) (n : Nat) (g : Int) (hg : 1 ≤ g)
    (hcells : (exposay_entries ex).map exposay_cell = (List.range n).map (grid_cell g))
    (j : Nat) (hj : j < n) (row column : Int) (hc : grid_cell g j = (row, column)) :
    ∃ e, (exposay_entries ex)[j]? = some e ∧ exposay_cell e = grid_cell g j ∧
      exposay_maybe_move ex row column = (exposay_highlight_surface ex e, 1) := by
  obtain ⟨hnd, hidx, _⟩ := exposay_cells_facts ex n g hg hcells
  obtain ⟨e, he1, he2, he3⟩ := hidx j hj
  refine ⟨e, he1, he3, ?_⟩
  have h := exposay_maybe_move_some ex e he2 hnd
  have hec : exposay_cell e = (row, column) := he3.trans hc
  have hr : e.row = row := congrArg Prod.fst hec
  have hcl : e.column = column := congrArg Prod.snd hec
  rw [hr, hcl] at h
  exact h

/-- A move to a cell that no index below `n` has changes nothing. -/
theorem exposay_move_nowhere (ex : exposay) (n : Nat) (g : Int) (hg : 1 ≤ g)
    (hcells : (exposay_entries ex).map exposay_cell = (List.range n).map (grid_cell g))
    (row column : Int) (h : ∀ j, j < n → grid_cell g j ≠ (row, column)) :
    exposay_maybe_move ex row column = (ex, 0) := by
  obtain ⟨_, _, hmem⟩ := exposay_cells_facts ex n g hg hcells
  apply exposay_maybe_move_none
  intro es hes hc
  obtain ⟨j, hj, hjc⟩ := hmem es hes
  exact h j hj (hjc.symm.trans hc)

/-- One release of Tab with entry `i` highlighted: entry `(i + 1) mod n` is
    highlighted. -/
theorem exposay_tab_step (sh : desktop_shell) (time seat n : Nat) (g : Int) (i : Nat)
    (hg : 1 ≤ g) (hn : n < 2147483648)
    (hcells : (exposay_entries sh.exposay).map exposay_cell = (List.range n).map (grid_cell g))
    (hi : i < n) (hrow : sh.exposay.row_current = (i : Int) / g)
    (hcol : sh.exposay.column_current = (i : Int) % g) :
    ∃ e, (exposay_entries sh.exposay)[(i + 1) % n]? = some e ∧
      exposay_cell e = grid_cell g ((i + 1) % n) ∧
      exposay_key sh time KEY_TAB true seat =
        { sh with exposay := exposay_highlight_surface sh.exposay e } := by
  have hc0 : 0 ≤ (i : Int) % g := Int.emod_nonneg _ (by omega)
  have hc1 : (i : Int) % g < g := Int.emod_lt_of_pos _ (by omega)
  have hr0 : 0 ≤ (i : Int) / g := Int.ediv_nonneg (by omega) (by omega)
  have hr1 : (i : Int) / g ≤ i := Int.ediv_le_self g (by omega)
  have hdm : (i : Int) % g + g * ((i : Int) / g) = i := Int.emod_add_ediv _ g
  have hpos : 0 ≤ g * ((i : Int) / g) := mul_nonneg (by omega) hr0
  have hmul : g * ((i : Int) / g + 1) = g * ((i : Int) / g) + g := by ring
  have ca : c_add ((i : Int) % g) 1 = (i : Int) % g + 1 := by
    unfold c_add wrap32
    omega
  have cr : c_add ((i : Int) / g) 1 = (i : Int) / g + 1 := by
    unfold c_add wrap32
    omega
  have k1 : ¬ KEY_TAB = KEY_ESC := by decide
  have k2 : ¬ KEY_TAB = KEY_ENTER := by decide
  have k3 : ¬ KEY_TAB = KEY_UP := by decide
  have k4 : ¬ KEY_TAB = KEY_DOWN := by decide
  have k5 : ¬ KEY_TAB = KEY_LEFT := by decide
  have k6 : ¬ KEY_TAB = KEY_RIGHT := by decide
  unfold exposay_key
  simp only [Bool.not_true, Bool.false_eq_true, if_false, k1, k2, k3, k4, k5, k6, if_true,
    hrow, hcol, ca, cr]
  by_cases hlast : i + 1 < n
  · rw [Nat.mod_eq_of_lt hlast]
    by_cases hend : (i : Int) % g + 1 < g
    · obtain ⟨e, he1, he2, he3⟩ := exposay_move_to_index sh.exposay n g hg hcells (i + 1) hlast
        ((i : Int) / g) ((i : Int) % g + 1)
        (grid_cell_of_eq g (i + 1) _ _ (by omega) hend (by push_cast; omega))
      refine ⟨e, he1, he2, ?_⟩
      rw [he3]
      simp
    · have hno : exposay_maybe_move sh.exposay ((i : Int) / g) ((i : Int) % g + 1) =
          (sh.exposay, 0) := by
        apply exposay_move_nowhere sh.exposay n g hg hcells
        intro j _ hj
        obtain ⟨_, _, h3⟩ := grid_cell_index g j _ _ hg hj
        omega
      obtain ⟨e, he1, he2, he3⟩ := exposay_move_to_index sh.exposay n g hg hcells (i + 1) hlast
        ((i : Int) / g + 1) 0
        (grid_cell_of_eq g (i + 1) _ _ (le_refl 0) (by omega) (by push_cast; omega))
      refine ⟨e, he1, he2, ?_⟩
      rw [hno, he3]
      simp
  · have hin : i + 1 = n := by omega
    have hmod : (i + 1) % n = 0 := by
      rw [hin]
      exact Nat.mod_self n
    rw [hmod]
    have hno1 : exposay_maybe_move sh.exposay ((i : Int) / g) ((i : Int) % g + 1) =
        (sh.exposay, 0) := by
      apply exposay_move_nowhere sh.exposay n g hg hcells
      intro j hjn hj
      obtain ⟨h1, _, _⟩ := grid_cell_index g j _ _ hg hj
      omega
    have hno2 : exposay_maybe_move sh.exposay ((i : Int) / g + 1) 0 = (sh.exposay, 0) := by
      apply exposay_move_nowhere sh.exposay n g hg hcells
      intro j hjn hj
      obtain ⟨h1, _, _⟩ := grid_cell_index g j _ _ hg hj
      omega
    obtain ⟨e, he1, he2, he3⟩ := exposay_move_to_index sh.exposay n g hg hcells 0 (by omega)
      0 0 (grid_cell_of_eq g 0 0 0 (le_refl 0) (by omega) (by simp))
    refine ⟨e, he1, he2, ?_⟩
    rw [hno1, hno2, he3]
    simp

/-- After `k` releases of Tab, starting with entry `i` highlighted: the
    surface list is the same, entry `(i + k) mod n` is highlighted and, once
    a Tab was released, its view has the focus of the overview. -/
theorem exposay_tabs_spec (sh : desktop_shell) (time seat n : Nat) (g : Int) (i : Nat)
    (hg : 1 ≤ g) (hn : n < 2147483648)
    (hcells : (exposay_entries sh.exposay).map exposay_cell = (List.range n).map (grid_cell g))
    (hi : i < n) (hrow : sh.exposay.row_current = (i : Int) / g)
    (hcol : sh.exposay.column_current = (i : Int) % g) (k : Nat) :
    (exposay_tabs sh time seat k).exposay.surface_list = sh.exposay.surface_list ∧
    (exposay_tabs sh time seat k).exposay.row_current = (((i + k) % n : Nat) : Int) / g ∧
    (exposay_tabs sh time seat k).exposay.column_current = (((i + k) % n : Nat) : Int) % g ∧
    (1 ≤ k → ∃ e, (exposay_entries sh.exposay)[(i + k) % n]? = some e ∧
      (exposay_tabs sh time seat k).exposay.focus_current = some e.view) := by
  induction k with
  | zero =>
    have hmod : (i + 0) % n = i := Nat.mod_eq_of_lt hi
    rw [hmod]
    exact ⟨rfl, hrow, hcol, fun h => absurd h (by decide)⟩
  | succ k ih =>
    obtain ⟨h1, h2, h3, _⟩ := ih
    have hent : exposay_entries (exposay_tabs sh time seat k).exposay =
        exposay_entries sh.exposay := by
      unfold exposay_entries
      rw [h1]
    have hlt : (i + k) % n < n := Nat.mod_lt _ (by omega)
    obtain ⟨e, he1, he2, he3⟩ := exposay_tab_step (exposay_tabs sh time seat k) time seat n g
      ((i + k) % n) hg hn (by rw [hent]; exact hcells) hlt h2 h3
    have hmod : ((i + k) % n + 1) % n = (i + (k + 1)) % n := by
      rw [Nat.mod_add_mod]
      rfl
    rw [hmod, hent] at he1
    rw [hmod] at he2
    have hstep : exposay_tabs sh time seat (k + 1) =
        exposay_key (exposay_tabs sh time seat k) time KEY_TAB true seat := rfl
    rw [hstep, he3]
    have hr : e.row = (grid_cell g ((i + (k + 1)) % n)).1 := congrArg Prod.fst he2
    have hc : e.column = (grid_cell g ((i + (k + 1)) % n)).2 := congrArg Prod.snd he2
    refine ⟨h1, hr, hc, fun _ => ⟨e, he1, rfl⟩⟩

/-- C26. In an overview of `n >= 1` entries laid out by `exposay_layout`
    with grid size `g`, with the `i`-th entry highlighted (row `i div g`,
    column `i mod g`): after `k` releases of Tab the highlight is on entry
    `(i + k) mod n` (so one release moves it to `(i + 1) mod n`, and `n`
    releases visit every entry once and come back to `i`), and a press of Tab
    changes nothing. -/
theorem exposay_tab_cycles (sh : desktop_shell) (ex0 : exposay) (W H : Int)
    (views : List weston_view) (time seat i k : Nat)
    (h1 : 1 ≤ (exposay_eligible views).length)
    (h2 : (exposay_eligible views).length < 2147483648)
    (hlist : sh.exposay.surface_list = (exposay_layout ex0 W H views).1.surface_list)
    (hi : i < (exposay_eligible views).length)
    (hrow : sh.exposay.row_current =
      (i : Int) / exposay_grid_size (exposay_eligible views).length)
    (hcol : sh.exposay.column_current =
      (i : Int) % exposay_grid_size (exposay_eligible views).length) :
    (exposay_tabs sh time seat k).exposay.row_current =
      (((i + k) % (exposay_eligible views).length : Nat) : Int) /
        exposay_grid_size (exposay_eligible views).length ∧
    (exposay_tabs sh time seat k).exposay.column_current =
      (((i + k) % (exposay_eligible views).length : Nat) : Int) %
        exposay_grid_size (exposay_eligible views).length ∧
    (1 ≤ k → ∃ e, (exposay_entries sh.exposay)[(i + k) % (exposay_eligible views).length]? =
        some e ∧
      (exposay_tabs sh time seat k).exposay.focus_current = some e.view) ∧
    (exposay_tabs sh time seat k).exposay.surface_list = sh.exposay.surface_list ∧
    exposay_key sh time KEY_TAB false seat = sh := by
  obtain ⟨hg1, _⟩ := exposay_grid_size_spec _ h1 h2
  have hcells : (exposay_entries sh.exposay).map exposay_cell =
      (List.range (exposay_eligible views).length).map
        (grid_cell (exposay_grid_size (exposay_eligible views).length)) := by
    have := exposay_layout_cells ex0 W H views h1 h2
    unfold exposay_entries at this ⊢
    rw [hlist]
    exact this
  obtain ⟨a, b, c, d⟩ := exposay_tabs_spec sh time seat _ _ i hg1 h2 hcells hi hrow hcol k
  exact ⟨b, c, d, a, rfl⟩

/-- Witness of `exposay_tab_cycles`: five releases of Tab in the overview of
    the five sample views bring the highlight back to row 0, column 0. -/
theorem exposay_tab_cycles_witness :
    (exposay_tabs five_overview 0 0 5).exposay.row_current =
      (((0 + 5) % (exposay_eligible five_views).length : Nat) : Int) /
        exposay_grid_size (exposay_eligible five_views).length :=
  (exposay_tab_cycles five_overview exposay_idle 1000 1000 five_views 0 0 0 5
    (by decide) (by decide) rfl (by decide)
    ((Int.zero_ediv _).symm) ((Int.zero_emod _).symm)).1

/-! ## Entries inside the padded output -/

/-- The conversion to `int` of a scalar between 0 and an `int` `m` lies
    between 0 and `m`. -/
theorem float_to_int32_bounds (q : ℚ) (m : Int) (h0 : 0 ≤ q) (h1 : q ≤ m)
    (hm : m < 2147483648) : 0 ≤ float_to_int32 q ∧ float_to_int32 q ≤ m := by
  have hn : 0 ≤ q.num := Rat.num_nonneg.2 h0
  have ha : 0 ≤ Int.tdiv q.num q.den ∧ Int.tdiv q.num q.den ≤ m := by
    rw [Int.tdiv_eq_ediv hn (by positivity), ← Rat.floor_def']
    constructor
    · exact Int.floor_nonneg.2 h0
    · have := (Int.floor_le q).trans h1
      exact_mod_cast this
  unfold float_to_int32 wrap32
  omega

/-- A dimension `a` scaled by `s / b`, with `0 < a <= b` and `0 <= s`, is
    between 0 and `s` after the conversion to `int`. -/
theorem exposay_scaled_dim (a b s : Int) (ha : 0 < a) (hab : a ≤ b) (hs : 0 ≤ s)
    (hmax : s < 2147483648) :
    0 ≤ float_to_int32 ((a : ℚ) * ((s : ℚ) / (b : ℚ))) ∧
    float_to_int32 ((a : ℚ) * ((s : ℚ) / (b : ℚ))) ≤ s := by
  have hb : (0 : ℚ) < (b : ℚ) := by exact_mod_cast (lt_of_lt_of_le ha hab)
  have ha2 : (0 : ℚ) ≤ (a : ℚ) := by exact_mod_cast (le_of_lt ha)
  have hs2 : (0 : ℚ) ≤ (s : ℚ) := by exact_mod_cast hs
  have hab2 : (a : ℚ) ≤ (b : ℚ) := by exact_mod_cast hab
  apply float_to_int32_bounds _ _ _ _ hmax
  · exact mul_nonneg ha2 (div_nonneg hs2 (le_of_lt hb))
  · rw [← mul_div_assoc, div_le_iff₀ hb, mul_comm]
    exact mul_le_mul_of_nonneg_left hab2 hs2

/-- The cell size on an output that leaves room for the inner paddings: it
    is not negative, and `g` cells with the inner paddings between them fit
    between the outer paddings, in both directions. -/
theorem exposay_cell_size_fits (W H g : Int) (hW0 : 0 ≤ W) (hW : W < 2147483648)
    (hH0 : 0 ≤ H) (hH : H < 2147483648) (hg1 : 1 ≤ g) (hg2 : g ≤ 46341)
    (hAw : 80 * (g - 1) ≤ W - 2 * c_quot W 10) (hAh : 80 * (g - 1) ≤ H - 2 * c_quot H 10) :
    0 ≤ exposay_cell_size W H g ∧ exposay_cell_size W H g < 1073741824 ∧
    exposay_cell_size W H g * g + 80 * (g - 1) ≤ W - 2 * c_quot W 10 ∧
    exposay_cell_size W H g * g + 80 * (g - 1) ≤ H - 2 * c_quot H 10 := by
  have e1 : c_quot W 10 = W / 10 := (c_quot_rem_nonneg W 10 hW0 hW (by decide)).1
  have e1h : c_quot H 10 = H / 10 := (c_quot_rem_nonneg H 10 hH0 hH (by decide)).1
  have e8 : c_quot W 2 = W / 2 := (c_quot_rem_nonneg W 2 hW0 hW (by decide)).1
  have e8h : c_quot H 2 = H / 2 := (c_quot_rem_nonneg H 2 hH0 hH (by decide)).1
  rw [e1] at hAw
  rw [e1h] at hAh
  have e2 : c_mul (W / 10) 2 = W / 10 * 2 := by
    unfold c_mul wrap32
    omega
  have e2h : c_mul (H / 10) 2 = H / 10 * 2 := by
    unfold c_mul wrap32
    omega
  have e3 : c_sub g 1 = g - 1 := by
    unfold c_sub wrap32
    omega
  have e4 : c_mul 80 (g - 1) = 80 * (g - 1) := by
    unfold c_mul wrap32
    omega
  have e5 : c_sub W (W / 10 * 2) = W - W / 10 * 2 := by
    unfold c_sub wrap32
    omega
  have e5h : c_sub H (H / 10 * 2) = H - H / 10 * 2 := by
    unfold c_sub wrap32
    omega
  have e6 : c_sub (W - W / 10 * 2) (80 * (g - 1)) = W - W / 10 * 2 - 80 * (g - 1) := by
    unfold c_sub wrap32
    omega
  have e6h : c_sub (H - H / 10 * 2) (80 * (g - 1)) = H - H / 10 * 2 - 80 * (g - 1) := by
    unfold c_sub wrap32
    omega
  have e7 := (c_quot_rem_nonneg (W - W / 10 * 2 - 80 * (g - 1)) g (by omega) (by omega) hg1).1
  have e7h := (c_quot_rem_nonneg (H - H / 10 * 2 - 80 * (g - 1)) g (by omega) (by omega) hg1).1
  have hw0 : 0 ≤ (W - W / 10 * 2 - 80 * (g - 1)) / g := Int.ediv_nonneg (by omega) (by omega)
  have hh0 : 0 ≤ (H - H / 10 * 2 - 80 * (g - 1)) / g := Int.ediv_nonneg (by omega) (by omega)
  have hw1 : (W - W / 10 * 2 - 80 * (g - 1)) / g * g ≤ W - W / 10 * 2 - 80 * (g - 1) :=
    Int.ediv_mul_le _ (by omega)
  have hh1 : (H - H / 10 * 2 - 80 * (g - 1)) / g * g ≤ H - H / 10 * 2 - 80 * (g - 1) :=
    Int.ediv_mul_le _ (by omega)
  have hw2 : (W - W / 10 * 2 - 80 * (g - 1)) / g ≤ W - W / 10 * 2 - 80 * (g - 1) :=
    Int.ediv_le_self g (by omega)
  unfold exposay_cell_size
  simp only [e1, e1h, e2, e2h, e3, e4, e5, e5h, e6, e6h, e7, e7h, e8, e8h]
  generalize (W - W / 10 * 2 - 80 * (g - 1)) / g = w at hw0 hw1 hw2
  generalize (H - H / 10 * 2 - 80 * (g - 1)) / g = h at hh0 hh1
  have key : ∀ s : Int, 0 ≤ s → s ≤ w → s ≤ h → s ≤ W / 2 →
      0 ≤ s ∧ s < 1073741824 ∧ s * g + 80 * (g - 1) ≤ W - 2 * (W / 10) ∧
      s * g + 80 * (g - 1) ≤ H - 2 * (H / 10) := by
    intro s hs0 hsw hsh hs2
    have m1 : s * g ≤ w * g := mul_le_mul_of_nonneg_right hsw (by omega)
    have m2 : s * g ≤ h * g := mul_le_mul_of_nonneg_right hsh (by omega)
    refine ⟨hs0, by omega, by omega, by omega⟩
  apply key <;> split_ifs <;> omega

/-- The entry made for index `i < n` with layout parameters that fit the
    output lies between the outer paddings and is no larger than a cell. -/
theorem exposay_make_surface_inside (P : exposay) (W H : Int) (n i : Nat) (v : weston_view)
    (hg1 : 1 ≤ P.grid_size) (hg2 : P.grid_size ≤ 46341)
    (hn : (n : Int) ≤ P.grid_size * P.grid_size)
    (hn0 : (P.grid_size - 1) * (P.grid_size - 1) < n) (hi : i < n) (hnmax : n < 2147483648)
    (hinner : P.padding_inner = 80) (hs0 : 0 ≤ P.surface_size)
    (hsmax : P.surface_size < 1073741824)
    (hhp0 : 0 ≤ P.hpadding_outer) (hvp0 : 0 ≤ P.vpadding_outer)
    (hfw : P.surface_size * P.grid_size + 80 * (P.grid_size - 1) ≤ W - 2 * P.hpadding_outer)
    (hfh : P.surface_size * P.grid_size + 80 * (P.grid_size - 1) ≤ H - 2 * P.vpadding_outer)
    (hW : W < 2147483648) (hH : H < 2147483648)
    (hvw : 0 < v.surface_width) (hvh : 0 < v.surface_height) :
    P.hpadding_outer ≤
      (exposay_make_surface P (c_sub (c_mul P.grid_size P.grid_size) n) (i : Nat) v).x ∧
    (exposay_make_surface P (c_sub (c_mul P.grid_size P.grid_size) n) (i : Nat) v).x +
      (exposay_make_surface P (c_sub (c_mul P.grid_size P.grid_size) n) (i : Nat) v).width
        ≤ W - P.hpadding_outer ∧
    P.vpadding_outer ≤
      (exposay_make_surface P (c_sub (c_mul P.grid_size P.grid_size) n) (i : Nat) v).y ∧
    (exposay_make_surface P (c_sub (c_mul P.grid_size P.grid_size) n) (i : Nat) v).y +
      (exposay_make_surface P (c_sub (c_mul P.grid_size P.grid_size) n) (i : Nat) v).height
        ≤ H - P.vpadding_outer ∧
    (exposay_make_surface P (c_sub (c_mul P.grid_size P.grid_size) n) (i : Nat) v).width
      ≤ P.surface_size ∧
    (exposay_make_surface P (c_sub (c_mul P.grid_size P.grid_size) n) (i : Nat) v).height
      ≤ P.surface_size := by
  obtain ⟨hq, hr⟩ := c_quot_rem_nonneg (i : Int) P.grid_size (by omega) (by omega) hg1
  have hc0 : 0 ≤ (i : Int) % P.grid_size := Int.emod_nonneg _ (by omega)
  have hc1 : (i : Int) % P.grid_size < P.grid_size := Int.emod_lt_of_pos _ (by omega)
  have hr0 : 0 ≤ (i : Int) / P.grid_size := Int.ediv_nonneg (by omega) (by omega)
  have hr1 : (i : Int) / P.grid_size < P.grid_size :=
    Int.ediv_lt_of_lt_mul (by omega) (by omega)
  have hdm : (i : Int) % P.grid_size + P.grid_size * ((i : Int) / P.grid_size) = i :=
    Int.emod_add_ediv _ _
  -- the scaled sizes
  have hdim : 0 ≤ (exposay_make_surface P (c_sub (c_mul P.grid_size P.grid_size) n)
        (i : Nat) v).width ∧
      (exposay_make_surface P (c_sub (c_mul P.grid_size P.grid_size) n) (i : Nat) v).width
        ≤ P.surface_size ∧
      0 ≤ (exposay_make_surface P (c_sub (c_mul P.grid_size P.grid_size) n)
        (i : Nat) v).height ∧
      (exposay_make_surface P (c_sub (c_mul P.grid_size P.grid_size) n) (i : Nat) v).height
        ≤ P.surface_size := by
    unfold exposay_make_surface
    simp only []
    by_cases hwh : v.surface_height < v.surface_width
    · simp only [hwh, if_true]
      obtain ⟨a1, a2⟩ := exposay_scaled_dim v.surface_width v.surface_width P.surface_size
        hvw (le_refl _) hs0 (by omega)
      obtain ⟨b1, b2⟩ := exposay_scaled_dim v.surface_height v.surface_width P.surface_size
        hvh (le_of_lt hwh) hs0 (by omega)
      exact ⟨a1, a2, b1, b2⟩
    · simp only [hwh, if_false]
      obtain ⟨a1, a2⟩ := exposay_scaled_dim v.surface_width v.surface_height P.surface_size
        hvw (not_lt.1 hwh) hs0 (by omega)
      obtain ⟨b1, b2⟩ := exposay_scaled_dim v.surface_height v.surface_height P.surface_size
        hvh (le_refl _) hs0 (by omega)
      exact ⟨a1, a2, b1, b2⟩
  obtain ⟨d1, d2, d3, d4⟩ := hdim
  -- the position
  have hpadg : (P.surface_size + 80) * (P.grid_size - 1) + P.surface_size =
      P.surface_size * P.grid_size + 80 * (P.grid_size - 1) := by ring
  have hpc0 : 0 ≤ (P.surface_size + 80) * ((i : Int) % P.grid_size) :=
    mul_nonneg (by omega) hc0
  have hpc1 : (P.surface_size + 80) * ((i : Int) % P.grid_size) ≤
      (P.surface_size + 80) * (P.grid_size - 1) :=
    mul_le_mul_of_nonneg_left (by omega) (by omega)
  have hpr0 : 0 ≤ (P.surface_size + 80) * ((i : Int) / P.grid_size) :=
    mul_nonneg (by omega) hr0
  have hpr1 : (P.surface_size + 80) * ((i : Int) / P.grid_size) ≤
      (P.surface_size + 80) * (P.grid_size - 1) :=
    mul_le_mul_of_nonneg_left (by omega) (by omega)
  have epad : c_add P.surface_size 80 = P.surface_size + 80 := by
    unfold c_add wrap32
    omega
  have emc : c_mul (P.surface_size + 80) ((i : Int) % P.grid_size) =
      (P.surface_size + 80) * ((i : Int) % P.grid_size) := by
    unfold c_mul wrap32
    omega
  have emr : c_mul (P.surface_size + 80) ((i : Int) / P.grid_size) =
      (P.surface_size + 80) * ((i : Int) / P.grid_size) := by
    unfold c_mul wrap32
    omega
  have ex0 : c_add P.hpadding_outer ((P.surface_size + 80) * ((i : Int) % P.grid_size)) =
      P.hpadding_outer + (P.surface_size + 80) * ((i : Int) % P.grid_size) := by
    unfold c_add wrap32
    omega
  have ey : c_add P.vpadding_outer ((P.surface_size + 80) * ((i : Int) / P.grid_size)) =
      P.vpadding_outer + (P.surface_size + 80) * ((i : Int) / P.grid_size) := by
    unfold c_add wrap32
    omega
  have eg1 : c_sub P.grid_size 1 = P.grid_size - 1 := by
    unfold c_sub wrap32
    omega
  have hy : (exposay_make_surface P (c_sub (c_mul P.grid_size P.grid_size) n) (i : Nat) v).y =
      P.vpadding_outer + (P.surface_size + 80) * ((i : Int) / P.grid_size) := by
    unfold exposay_make_surface
    simp only [hq, hr, hinner, epad, emr, ey]
  have hx : P.hpadding_outer ≤
        (exposay_make_surface P (c_sub (c_mul P.grid_size P.grid_size) n) (i : Nat) v).x ∧
      (exposay_make_surface P (c_sub (c_mul P.grid_size P.grid_size) n) (i : Nat) v).x ≤
        P.hpadding_outer + (P.surface_size + 80) * (P.grid_size - 1) := by
    unfold exposay_make_surface
    simp only [hq, hr, hinner, epad, emc, ex0, eg1]
    by_cases hlast : (i : Int) / P.grid_size = P.grid_size - 1
    · rw [if_pos hlast]
      rw [hlast] at hdm
      have hgg : P.grid_size * (P.grid_size - 1) = P.grid_size * P.grid_size - P.grid_size := by
        ring
      have hgg2 : (P.grid_size - 1) * (P.grid_size - 1) =
          P.grid_size * P.grid_size - 2 * P.grid_size + 1 := by ring
      rw [hgg] at hdm
      rw [hgg2] at hn0
      have hggmax : P.grid_size * P.grid_size ≤ 46341 * 46341 :=
        mul_le_mul hg2 hg2 (by omega) (by omega)
      have elrr : c_sub (c_mul P.grid_size P.grid_size) n =
          P.grid_size * P.grid_size - n := by
        unfold c_sub c_mul wrap32
        omega
      rw [elrr]
      have hl0 : 0 ≤ P.grid_size * P.grid_size - (n : Int) := by omega
      have hcl : (i : Int) % P.grid_size + (P.grid_size * P.grid_size - (n : Int)) ≤
          P.grid_size - 1 := by omega
      have hpl0 : 0 ≤ (P.surface_size + 80) * (P.grid_size * P.grid_size - (n : Int)) :=
        mul_nonneg (by omega) hl0
      have hsum : (P.surface_size + 80) * ((i : Int) % P.grid_size) +
          (P.surface_size + 80) * (P.grid_size * P.grid_size - (n : Int)) ≤
          (P.surface_size + 80) * (P.grid_size - 1) := by
        rw [← mul_add]
        exact mul_le_mul_of_nonneg_left hcl (by omega)
      have eml : c_mul (P.surface_size + 80) (P.grid_size * P.grid_size - (n : Int)) =
          (P.surface_size + 80) * (P.grid_size * P.grid_size - (n : Int)) := by
        unfold c_mul wrap32
        omega
      rw [eml]
      obtain ⟨eq2, _⟩ := c_quot_rem_nonneg
        ((P.surface_size + 80) * (P.grid_size * P.grid_size - (n : Int))) 2 hpl0 (by omega)
        (by decide)
      rw [eq2]
      have eadd : c_add (P.hpadding_outer + (P.surface_size + 80) * ((i : Int) % P.grid_size))
          ((P.surface_size + 80) * (P.grid_size * P.grid_size - (n : Int)) / 2) =
          P.hpadding_outer + (P.surface_size + 80) * ((i : Int) % P.grid_size) +
            (P.surface_size + 80) * (P.grid_size * P.grid_size - (n : Int)) / 2 := by
        unfold c_add wrap32
        omega
      rw [eadd]
      constructor <;> omega
    · rw [if_neg hlast]
      constructor <;> omega
  obtain ⟨x1, x2⟩ := hx
  rw [hy]
  refine ⟨x1, by omega, by omega, by omega, d2, d4⟩

/-- C29, as amended. For an output of non-negative size that leaves room
    for the inner paddings between its outer paddings, in both directions,
    and `n >= 1` eligible views of positive width and height, every entry
    made by `exposay_layout` lies between the outer paddings and is no
    larger than `surface_size`. -/
theorem exposay_entries_inside (ex : exposay) (W H : Int) (views : List weston_view)
    (h1 : 1 ≤ (exposay_eligible views).length)
    (h2 : (exposay_eligible views).length < 2147483648)
    (hW0 : 0 ≤ W) (hW : W < 2147483648) (hH0 : 0 ≤ H) (hH : H < 2147483648)
    (hroomw : (exposay_layout ex W H views).1.padding_inner *
        ((exposay_layout ex W H views).1.grid_size - 1) ≤
      W - 2 * (exposay_layout ex W H views).1.hpadding_outer)
    (hroomh : (exposay_layout ex W H views).1.padding_inner *
        ((exposay_layout ex W H views).1.grid_size - 1) ≤
      H - 2 * (exposay_layout ex W H views).1.vpadding_outer)
    (hviews : ∀ v ∈ views, v.has_shell_surface = true →
      0 < v.surface_width ∧ 0 < v.surface_height) :
    ∀ e ∈ exposay_entries (exposay_layout ex W H views).1,
      (exposay_layout ex W H views).1.hpadding_outer ≤ e.x ∧
      e.x + e.width ≤ W - (exposay_layout ex W H views).1.hpadding_outer ∧
      (exposay_layout ex W H views).1.vpadding_outer ≤ e.y ∧
      e.y + e.height ≤ H - (exposay_layout ex W H views).1.vpadding_outer ∧
      e.width ≤ (exposay_layout ex W H views).1.surface_size ∧
      e.height ≤ (exposay_layout ex W H views).1.surface_size := by
  obtain ⟨g1, g2, g3, g4, g5, hent⟩ := exposay_layout_entries ex W H views h1 h2
  obtain ⟨hg1, hg2, hg3, hg4⟩ := exposay_grid_size_spec _ h1 h2
  rw [g4, g1, g2] at hroomw
  rw [g4, g1, g3] at hroomh
  obtain ⟨s0, s1, s2, s3⟩ := exposay_cell_size_fits W H _ hW0 hW hH0 hH hg1 hg2 hroomw hroomh
  have hq0 : 0 ≤ c_quot W 10 := by
    rw [(c_quot_rem_nonneg W 10 hW0 hW (by decide)).1]
    omega
  have hq1 : 0 ≤ c_quot H 10 := by
    rw [(c_quot_rem_nonneg H 10 hH0 hH (by decide)).1]
    omega
  intro e he
  rw [hent] at he
  obtain ⟨p, hp, hpe⟩ := List.mem_map.1 he
  have hlt : p.1 < (exposay_eligible views).length := by
    have := List.fst_lt_add_of_mem_enumFrom hp
    omega
  have hmem : p.2 ∈ exposay_eligible views := List.snd_mem_of_mem_enumFrom hp
  unfold exposay_eligible at hmem
  obtain ⟨hv1, hv2⟩ := List.mem_filter.1 hmem
  obtain ⟨hvw, hvh⟩ := hviews p.2 hv1 hv2
  rw [← g5] at s0 s1 s2 s3
  rw [← g1] at hpe hg1 hg2 hg3 hg4 s2 s3
  rw [← g2] at hq0 s2
  rw [← g3] at hq1 s3
  have := exposay_make_surface_inside (exposay_layout ex W H views).1 W H
    (exposay_eligible views).length p.1 p.2 hg1 hg2 hg3 hg4 hlt h2 g4 s0 s1 hq0 hq1 s2 s3
    hW hH hvw hvh
  rw [hpe] at this
  exact this

/-- The conversion of 0 to `int`. -/
theorem float_to_int32_zero : float_to_int32 0 = 0 := by
  unfold float_to_int32
  rw [Rat.num_zero, Rat.den_zero]
  decide

/-- C29, counterexample. Seven views of 100x100 on a 1000x196 output: the
    computed `surface_size` is 0 (not negative), the vertical outer padding
    is 19, and the entry of row 2 has `y = 179` and height 0, so that
    `y + height` exceeds `196 - 19 = 177`. -/
theorem exposay_entry_below_padded_output :
    (exposay_layout exposay_idle 1000 196 seven_views).1.surface_size = 0 ∧
    (exposay_layout exposay_idle 1000 196 seven_views).1.vpadding_outer = 19 ∧
    (exposay_entries (exposay_layout exposay_idle 1000 196 seven_views).1).map
        (fun e => e.y) = [19, 19, 19, 99, 99, 99, 179] ∧
    (exposay_entries (exposay_layout exposay_idle 1000 196 seven_views).1).map
        (fun e => e.height) = [0, 0, 0, 0, 0, 0, 0] ∧
    ¬ ((179 : Int) + 0 ≤ 196 - 19) := by
  have h7 : Nat.sqrt 7 = 2 := (Nat.eq_sqrt.2 ⟨by decide, by decide⟩).symm
  have hsize : (exposay_layout exposay_idle 1000 196 seven_views).1.surface_size = 0 := by
    simp [exposay_layout, exposay_layout_loop, exposay_count_surfaces, exposay_grid_size,
      exposay_make_surface, exposay_animate_in, exposay_highlight_surface, exposay_entries,
      exposay_idle, seven_views, square_view, c_add, c_sub, c_mul, c_quot,
      c_rem, wrap32, h7]
    decide
  refine ⟨hsize, ?_, ?_, ?_, by decide⟩
  · simp [exposay_layout, exposay_layout_loop, exposay_count_surfaces, exposay_grid_size,
      exposay_make_surface, exposay_animate_in, exposay_highlight_surface, exposay_entries,
      exposay_idle, seven_views, square_view, c_add, c_sub, c_mul, c_quot,
      c_rem, wrap32, h7]
    decide
  · simp [exposay_layout, exposay_layout_loop, exposay_count_surfaces, exposay_grid_size,
      exposay_make_surface, exposay_animate_in, exposay_highlight_surface, exposay_entries,
      exposay_idle, seven_views, square_view, c_add, c_sub, c_mul, c_quot,
      c_rem, wrap32, h7]
    decide
  · obtain ⟨_, _, _, _, _, hent⟩ :=
      exposay_layout_entries exposay_idle 1000 196 seven_views (by decide) (by decide)
    rw [hent]
    simp only [List.map_map, Function.comp, exposay_make_surface, hsize]
    simp [exposay_eligible, seven_views, square_view, List.enumFrom, float_to_int32_zero]

/-- Witness of `exposay_entries_inside`: the five sample views on the
    1000x1000 output. -/
theorem exposay_entries_inside_witness :
    1 ≤ (exposay_eligible five_views).length ∧
    ∀ e ∈ exposay_entries (exposay_layout exposay_idle 1000 1000 five_views).1,
      (exposay_layout exposay_idle 1000 1000 five_views).1.hpadding_outer ≤ e.x ∧
      e.x + e.width ≤ 1000 - (exposay_layout exposay_idle 1000 1000 five_views).1.hpadding_outer ∧
      (exposay_layout exposay_idle 1000 1000 five_views).1.vpadding_outer ≤ e.y ∧
      e.y + e.height ≤ 1000 - (exposay_layout exposay_idle 1000 1000 five_views).1.vpadding_outer ∧
      e.width ≤ (exposay_layout exposay_idle 1000 1000 five_views).1.surface_size ∧
      e.height ≤ (exposay_layout exposay_idle 1000 1000 five_views).1.surface_size :=
  ⟨by decide,
   exposay_entries_inside exposay_idle 1000 1000 five_views (by decide) (by decide)
    (by decide) (by decide) (by decide) (by decide)
    (by
      have h5 : Nat.sqrt 5 = 2 := (Nat.eq_sqrt.2 ⟨by decide, by decide⟩).symm
      simp [exposay_layout, exposay_layout_loop, exposay_count_surfaces, exposay_grid_size,
        exposay_animate_in, exposay_highlight_surface, exposay_idle, five_views, square_view,
        c_add, c_sub, c_mul, c_quot, c_rem, wrap32, h5]
      decide)
    (by
      have h5 : Nat.sqrt 5 = 2 := (Nat.eq_sqrt.2 ⟨by decide, by decide⟩).symm
      simp [exposay_layout, exposay_layout_loop, exposay_count_surfaces, exposay_grid_size,
        exposay_animate_in, exposay_highlight_surface, exposay_idle, five_views, square_view,
        c_add, c_sub, c_mul, c_quot, c_rem, wrap32, h5]
      decide)
    (by
      intro v hv _
      simp only [five_views, square_view, List.mem_cons, List.mem_singleton, List.not_mem_nil,
        or_false] at hv
      rcases hv with h | h | h | h | h <;> rw [h] <;> decide)⟩

end Weston
